import Mathlib

/-!
# Declarator handling of the JustDefineIt parser (ENIGMA compiler source)

A shallow embedding of `CompilerSource/JDI/src/Parser/handlers/handle_declarators.cpp`
(the two overloads of `jdip::context_parser::handle_declarators`).

Pointers to `definition` objects are indices into an explicit object store
(`context_parser.heap`); a nullable pointer is an `Option Nat`.  Reading through
a null or dangling pointer is undefined in C++ and is a `failure` here.  Loops
that the C++ code does not bound are run with fuel; running out is a `failure`.
-/

set_option autoImplicit false

namespace jdip

/-! ## Tokens -/

/-- The token kinds that `handle_declarators.cpp` names. -/
inductive TOKEN_TYPE where
  | TT_DECLARATOR | TT_DECFLAG | TT_CLASS | TT_STRUCT | TT_ENUM | TT_UNION
  | TT_NAMESPACE | TT_EXTERN | TT_ASM | TT_OPERATORKW | TT_SIZEOF | TT_ISEMPTY
  | TT_DECLTYPE | TT_IDENTIFIER | TT_DEFINITION | TT_TEMPLATE | TT_TYPENAME
  | TT_TYPEDEF | TT_USING | TT_PUBLIC | TT_PRIVATE | TT_PROTECTED
  | TT_COLON | TT_SCOPE | TT_LEFTPARENTH | TT_RIGHTPARENTH
  | TT_LEFTBRACKET | TT_RIGHTBRACKET | TT_LEFTBRACE | TT_RIGHTBRACE
  | TT_LESSTHAN | TT_GREATERTHAN | TT_TILDE | TT_ELLIPSIS | TT_OPERATOR
  | TT_COMMA | TT_SEMICOLON | TT_STRINGLITERAL | TT_CHARLITERAL
  | TT_DECLITERAL | TT_HEXLITERAL | TT_OCTLITERAL
  | TTM_CONCAT | TTM_TOSTRING | TT_NEW | TT_DELETE | TT_ENDOFCODE | TT_INVALID
  deriving DecidableEq, Repr

open TOKEN_TYPE

/-- A token: its kind, its text (`token.content`) and, for definition and
declarator tokens, the definition it names (`token.def`). -/
structure token_t where
  type : TOKEN_TYPE
  content : String
  def_ : Option Nat
  deriving DecidableEq, Repr

/-! ## Referencers and types -/

/-- Kinds of referencer, `ref_stack::RT_*`. -/
inductive ref_type where
  | RT_POINTERTO | RT_REFERENCE | RT_ARRAYBOUND | RT_FUNCTION
  deriving DecidableEq, Repr

/-- One parameter of a function signature: its base type and modifier flags. -/
structure parameter where
  def_ : Option Nat
  flags : Nat
  deriving DecidableEq, Repr

/-- One entry of a referencer stack. -/
inductive ref_node where
  | pointer
  | reference
  | array (bound : Nat)
  | function (params : List parameter)
  deriving DecidableEq, Repr

/-- The kind of a referencer entry (`node.type`). -/
def ref_node.type : ref_node → ref_type
  | .pointer => .RT_POINTERTO
  | .reference => .RT_REFERENCE
  | .array _ => .RT_ARRAYBOUND
  | .function _ => .RT_FUNCTION

/-- Modelled from the spec: class `ref_stack` (its header is missing): "ordered
sequence describing
pointer/reference/array/function-parameter wrapping" together with the declared
name.  The head of `nodes` is the top (outermost) entry. -/
structure ref_stack where
  name : String
  nodes : List ref_node
  deriving DecidableEq, Repr

/-- Whether the stack has no entry: `refs.empty()`. -/
def ref_stack.empty (r : ref_stack) : Bool := r.nodes.isEmpty

/-- Number of entries: `refs.size()`. -/
def ref_stack.size (r : ref_stack) : Nat := r.nodes.length

/-- The top entry `refs.top()`, when there is one. -/
def ref_stack.top (r : ref_stack) : Option ref_node := r.nodes.head?

/-- The test `refs.top().type == ref_stack::RT_FUNCTION`; the source only
evaluates it on a non-empty stack. -/
def ref_stack.top_is_function (r : ref_stack) : Bool :=
  match r.top with
  | some n => n.type == ref_type.RT_FUNCTION
  | none => false

/-- Modelled from the spec: class `arg_key` (its header is missing), "an argument
signature": the ordered sequence of argument types. -/
abbrev arg_key := List parameter

/-- The key `arg_key k(referencers)`: the parameter list of the function
signature on top of the stack. -/
def arg_key.of_refs (r : ref_stack) : arg_key :=
  match r.top with
  | some (.function ps) => ps
  | _ => []

/-- The key `arg_key k(n)`: n slots, not yet filled. -/
def arg_key.sized (n : Nat) : arg_key := List.replicate n ⟨none, 0⟩

/-- The type descriptor `full_type`: base type, referencer stack (which carries
the declared name) and declaration flags. -/
structure full_type where
  def_ : Option Nat
  refs : ref_stack
  flags : Nat
  deriving DecidableEq, Repr

/-! ## Definitions and the object store -/

/-- Modelled from the spec: the `DEF_*` flag constants of the definition flag
word (the header with their enum is missing); distinct single bits. -/
def DEF_TYPENAME : Nat := 1
/-- Flag of a namespace. -/
def DEF_NAMESPACE : Nat := 2
/-- Flag of a class or struct. -/
def DEF_CLASS : Nat := 4
/-- Flag of an enum. -/
def DEF_ENUM : Nat := 8
/-- Flag of a union. -/
def DEF_UNION : Nat := 16
/-- Flag of a scope-bearing definition. -/
def DEF_SCOPE : Nat := 32
/-- Flag of a typed definition. -/
def DEF_TYPED : Nat := 64
/-- Flag of a function. -/
def DEF_FUNCTION : Nat := 128
/-- Flag of a template. -/
def DEF_TEMPLATE : Nat := 2048
/-- Flag of a template-parameter scope. -/
def DEF_TEMPSCOPE : Nat := 16384

/-- Modelled from the spec: the class family `definition`, `definition_typed`,
`definition_function`, `definition_template`, `definition_scope` (their headers
are missing), flattened into one record because the source casts
between them on the strength of `flags`.  Only the members that
`handle_declarators.cpp` reads or that its callees write are kept. -/
structure definition where
  /-- Member `definition::name`. -/
  name : String
  /-- Member `definition::parent`, the declaring scope. -/
  parent : Option Nat
  /-- Member `definition::flags`, the `DEF_*` word. -/
  flags : Nat
  /-- Member `definition_typed::type`. -/
  type : Option Nat
  /-- Member `definition_typed::referencers`. -/
  referencers : ref_stack
  /-- Member `definition_typed::modifiers`. -/
  modifiers : Nat
  /-- The overload set of a function: signature key and overload. -/
  overloads : List (arg_key × Nat)
  /-- The template overloads of a function. -/
  template_overloads : List (Option Nat)
  /-- Member `definition_template::def`, the templated definition. -/
  def_ : Option Nat
  /-- Member `definition_template::params`. -/
  params : List Nat
  /-- The instantiation cache of a template. -/
  instantiations : List (arg_key × Nat)
  /-- The name to definition map of a scope. -/
  members : List (String × Option Nat)
  /-- The scopes used by a scope (`use_namespace`). -/
  using_general : List (Option Nat)
  deriving DecidableEq, Repr

/-- Severity of a diagnostic. -/
inductive severity where
  | error | warning
  deriving DecidableEq, Repr

/-- One message handed to the error handler `herr`. -/
structure diagnostic where
  level : severity
  message : String
  deriving DecidableEq, Repr

/-- The parser object (class `context_parser` in the source): token cursor
`lex`, diagnostic sink `herr`, the store of all definition objects, and the C-struct tag namespace filled by
`declare_c_struct`. -/
structure parse_context where
  lex : List token_t
  herr : List diagnostic
  heap : List definition
  c_structs : List (String × Option Nat)
  deriving DecidableEq, Repr

/-- What the embedding cannot give a value to. -/
inductive failure where
  | out_of_fuel
  | bad_dereference
  deriving DecidableEq, Repr

deriving instance DecidableEq for Except

/-- Result of a computation that may dereference or loop. -/
abbrev result (α : Type) := Except failure α

/-- Reading `*p` in the store. -/
def deref (heap : List definition) (p : Option Nat) : result definition :=
  match p with
  | none => .error .bad_dereference
  | some i =>
    match heap[i]? with
    | none => .error .bad_dereference
    | some d => .ok d

/-- Lookup in a map kept as an association list. -/
def find {κ β : Type} [DecidableEq κ] (k : κ) : List (κ × β) → Option β
  | [] => none
  | (k1, v) :: rest => if k1 = k then some v else find k rest

/-- Overwrite the value stored under an existing key. -/
def assign {κ β : Type} [DecidableEq κ] (k : κ) (v : β) : List (κ × β) → List (κ × β)
  | [] => []
  | (k1, v1) :: rest => if k1 = k then (k1, v) :: rest else (k1, v1) :: assign k v rest

/-- The pair returned by `declare`: the slot's content and whether the slot is new. -/
structure decpair where
  def_ : Option Nat
  inserted : Bool
  deriving DecidableEq, Repr

/-- Modelled from the spec: `definition_scope::declare(name)` (body absent):
"Add it to our definitions map, without overwriting the existing member": a new
slot holding no definition is made when the name is free, otherwise the
existing slot is handed back and nothing changes. -/
def declare (heap : List definition) (scope : Nat) (name : String) :
    result (decpair × List definition) :=
  match deref heap (some scope) with
  | .error e => .error e
  | .ok sc =>
    match find name sc.members with
    | some slot => .ok (⟨slot, false⟩, heap)
    | none => .ok (⟨none, true⟩,
        heap.set scope { sc with members := sc.members ++ [(name, none)] })

/-- The assignment `ins.def = p` through the slot reference of a `decpair`. -/
def assign_slot (heap : List definition) (scope : Nat) (name : String) (p : Option Nat) :
    List definition :=
  match heap[scope]? with
  | none => heap
  | some sc => heap.set scope { sc with members := assign name p sc.members }

/-- Modelled from the spec: `declare_c_struct(name, def)` (body absent): the
"separate C-style struct tag namespace (keyed the same way)"; an insertion that
does not overwrite. -/
def declare_c_struct (c_structs : List (String × Option Nat)) (name : String)
    (d : Option Nat) : decpair × List (String × Option Nat) :=
  match find name c_structs with
  | some slot => (⟨slot, false⟩, c_structs)
  | none => (⟨d, true⟩, c_structs ++ [(name, d)])

/-- Modelled from the spec: the constructor `definition_typed(name, parent,
type, referencers, modifiers, flags)` (body absent): a typed value. -/
def definition_typed.new (name : String) (parent : Nat) (tp : Option Nat)
    (refs : ref_stack) (modifiers flags : Nat) : definition :=
  { name := name, parent := some parent, flags := flags, type := tp,
    referencers := refs, modifiers := modifiers, overloads := [],
    template_overloads := [], def_ := none, params := [], instantiations := [],
    members := [], using_general := [] }

/-- Modelled from the spec: the constructor `definition_function(...)` (body
absent): a typed definition flagged as a function whose overload set starts
with its own signature; `this` is the address the object is created at. -/
def definition_function.new (this : Nat) (name : String) (parent : Nat) (tp : Option Nat)
    (refs : ref_stack) (modifiers flags : Nat) : definition :=
  { definition_typed.new name parent tp refs modifiers (flags ||| DEF_FUNCTION) with
    overloads := [(arg_key.of_refs refs, this)] }

/-- Modelled from the spec: `definition_function::overload(key, ovrl, herr)`
(body absent): "insertion appends a new overload unless an identical signature
exists"; the result is the overload stored under the key.  A candidate that is
not kept is deleted, so it never enters the store. -/
def definition_function.overload (heap : List definition) (func : Nat) (k : arg_key)
    (ovrl : definition) : result (Option Nat × List definition) :=
  match deref heap (some func) with
  | .error e => .error e
  | .ok f =>
    match find k f.overloads with
    | some p => .ok (some p, heap)
    | none => .ok (some heap.length,
        heap.set func { f with overloads := f.overloads ++ [(k, heap.length)] } ++ [ovrl])

/-- Modelled from the spec: `definition_function::overload(definition_template*)`
(body absent): the template is registered among the function's template
overloads. -/
def definition_function.overload_template (f : definition) (t : Option Nat) : definition :=
  { f with template_overloads := f.template_overloads ++ [t] }

/-- Modelled from the spec: `definition_scope::use_namespace` (body absent):
the scope is linked as a used namespace, once. -/
def use_namespace (heap : List definition) (scope : Nat) (ns : Option Nat) : List definition :=
  match heap[scope]? with
  | none => heap
  | some sc =>
    if ns ∈ sc.using_general then heap
    else heap.set scope { sc with using_general := sc.using_general ++ [ns] }

/-- Modelled from the spec: the lexer behind `read_next_token` (absent): the
"token cursor advancing over a classified token stream"; once the stream is
used up it keeps answering with the end-of-code token. -/
def lexer_next : List token_t → token_t × List token_t
  | [] => (⟨TT_ENDOFCODE, "", none⟩, [])
  | t :: rest => (t, rest)

/-- Modelled from the spec: `context_parser::read_next_token(scope)` (body
absent), reading from the cursor of the parser object. -/
def read_next_token (cp : parse_context) (_scope : Option Nat) : token_t × parse_context :=
  ((lexer_next cp.lex).1, { cp with lex := (lexer_next cp.lex).2 })

/-! ## Collaborators -/

/-- Tag of an evaluated expression, `value::type`. -/
inductive VT where
  | VT_NONE | VT_DOUBLE | VT_INTEGER | VT_STRING
  deriving DecidableEq, Repr

/-- An evaluated expression. -/
structure value where
  type : VT
  ival : Int
  deriving DecidableEq, Repr

/-- A parsed expression, known here only through what `eval()` gives. -/
structure AST where
  eval : value
  deriving DecidableEq, Repr

/-- The functions, globals and compile settings that `handle_declarators.cpp`
uses and that are defined elsewhere.  The readers receive the parser object and
the current token and hand both back, as the C++ functions do through their
reference and pointer arguments. -/
structure environment where
  /-- Compile setting behind the macros `FATAL_RETURN` and `FATAL_TERNARY`. -/
  FATAL_ERRORS : Bool
  /-- Global `builtin_type__void`. -/
  builtin_type__void : Nat
  /-- Global `builtin_type__int`. -/
  builtin_type__int : Nat
  /-- Global `builtin_type__long`. -/
  builtin_type__long : Nat
  /-- Global `builtin_type__short`. -/
  builtin_type__short : Nat
  /-- Global `builtin_flag__explicit`. -/
  builtin_flag__explicit : Nat
  /-- Global `builtin_flag__virtual`. -/
  builtin_flag__virtual : Nat
  /-- Constant `precedence::comma`. -/
  precedence_comma : Nat
  /-- Function `read_fulltype(lex, token, scope, this, herr)`. -/
  read_fulltype : parse_context → token_t → Nat → full_type × token_t × parse_context
  /-- Function `read_referencers(refs, tp, lex, token, scope, this, herr)`. -/
  read_referencers : ref_stack → full_type → parse_context → token_t → Nat →
    ref_stack × token_t × parse_context
  /-- Function `read_referencers_post(refs, lex, token, scope, this, herr)`. -/
  read_referencers_post : ref_stack → parse_context → token_t → Option Nat →
    ref_stack × token_t × parse_context
  /-- Method `AST::parse_expression(token, lex, scope, precedence, herr)`. -/
  parse_expression : parse_context → token_t → Nat → Nat → AST × token_t × parse_context
  /-- Function `read_template_parameters(k, temp, lex, token, scope, this, herr)`. -/
  read_template_parameters : arg_key → Nat → parse_context → token_t → Nat →
    Int × arg_key × token_t × parse_context
  /-- What a template instantiates to under a key, if it can be instantiated. -/
  instance_of : definition → arg_key → Option definition

/-- Macro `FATAL_TERNARY(a,b)`. -/
def FATAL_TERNARY (E : environment) (a b : Int) : Int :=
  if E.FATAL_ERRORS then a else b

/-- Modelled from the spec: `definition_template::instantiate(key)` (body
absent): the instantiation cache, "repeated instantiation with the same key
returns the cached instance, never re-instantiates"; a null result reports
failure. -/
def instantiate (E : environment) (heap : List definition) (temp : Nat) (k : arg_key) :
    result (Option Nat × List definition) :=
  match deref heap (some temp) with
  | .error e => .error e
  | .ok t =>
    match find k t.instantiations with
    | some p => .ok (some p, heap)
    | none =>
      match E.instance_of t k with
      | none => .ok (none, heap)
      | some inst => .ok (some heap.length,
          heap.set temp { t with instantiations := t.instantiations ++ [(k, heap.length)] }
            ++ [inst])

/-! ## The state of a call -/

/-- What a call of `handle_declarators` reads and writes: the parser object,
the reference arguments `token`, `tp` and `res`, and the file-level counter
`anon_count`. -/
structure state where
  cp : parse_context
  token : token_t
  tp : full_type
  res : Option Nat
  anon_count : Nat
  deriving DecidableEq, Repr

/-- Call `token.report_error(herr, msg)`. -/
def report_error (s : state) (msg : String) : state :=
  { s with cp := { s.cp with herr := s.cp.herr ++ [⟨.error, msg⟩] } }

/-- Call `token.report_warning(herr, msg)`. -/
def report_warning (s : state) (msg : String) : state :=
  { s with cp := { s.cp with herr := s.cp.herr ++ [⟨.warning, msg⟩] } }

/-- Statement `token = read_next_token(scope)`. -/
def advance (s : state) (scope : Option Nat) : state :=
  { s with token := (read_next_token s.cp scope).1, cp := (read_next_token s.cp scope).2 }

/-- Where control goes after a block of the function. -/
inductive flow where
  | ret (code : Int) (s : state)
  | bind (s : state)
  | extra (s : state)
  deriving DecidableEq, Repr

/-- The C expression `a & ~m`: the bits of a that lie outside m. -/
def and_not (a m : Nat) : Nat := a ^^^ (a &&& m)

/-- Decimal digits of n, most significant first, in exactly w places. -/
def digits_padded : Nat → Nat → List Char
  | 0, _ => []
  | w + 1, n => digits_padded w (n / 10) ++ [Char.ofNat (48 + n % 10)]

/-- The text `printf` gives for `%010d` when handed the 32-bit unsigned n. -/
def format_010d (n : Nat) : String :=
  let v := n % 4294967296
  if v < 2147483648 then String.mk (digits_padded 10 v)
  else if 4294967296 - v < 1000000000 then String.mk ('-' :: digits_padded 9 (4294967296 - v))
  else String.mk ('-' :: digits_padded 10 (4294967296 - v))

/-- The synthesized name of a nameless member: `sprintf(anonname,
"<anonymousField%010d>", anon_count)`. -/
def anonname (anon_count : Nat) : String :=
  "<anonymousField" ++ format_010d anon_count ++ ">"

/-! ## The declarator engine -/

/-- The constructor initializer skip of lines 101-107: `do { token =
read_next_token(scope); if (token.type == TT_SEMICOLON) { error; return
FATAL_TERNARY(1,0); } } while (token.type != TT_LEFTBRACE);`. -/
def skip_initializers (E : environment) (scope : Nat) : Nat → state → result flow
  | 0, _ => .error .out_of_fuel
  | fuel + 1, s =>
    let s1 := advance s (some scope)
    if s1.token.type = TT_SEMICOLON then
      .ok (.ret (FATAL_TERNARY E 1 0)
        (report_error s1 "Expected constructor body here after initializers."))
    else if s1.token.type ≠ TT_LEFTBRACE then skip_initializers E scope fuel s1
    else .ok (.bind s1)

/-- The value of `potentialc` (lines 88-92), with the short-circuit order of
the source. -/
def potentialc (heap : List definition) (scope : Nat) (tp : full_type) : result Bool :=
  if tp.def_ = some scope then .ok true
  else
    match deref heap (some scope) with
    | .error e => .error e
    | .ok sc =>
      if sc.flags &&& DEF_TEMPSCOPE ≠ 0 ∧ tp.def_ = sc.parent then .ok true
      else
        match deref heap tp.def_ with
        | .error e => .error e
        | .ok t => .ok (decide (t.flags &&& DEF_TEMPLATE ≠ 0 ∧ t.def_ = some scope))

/-- The rest of the constructor test of line 97: no flag outside `explicit`
and `virtual`, and a referencer stack that is exactly one function signature. -/
def ctor_shape (E : environment) (tp : full_type) : Bool :=
  decide (and_not tp.flags (E.builtin_flag__explicit ||| E.builtin_flag__virtual) = 0)
    && decide (tp.refs.size = 1) && tp.refs.top_is_function

/-- What the qualified-id walk ends in: a return, or the definition reached. -/
inductive rescoped where
  | ret (code : Int) (s : state)
  | at_def (d : Option Nat) (s : state)
  deriving DecidableEq, Repr

/-- The block `rescope:` of lines 122-149: the `while (token.type == TT_SCOPE)`
walk, then the template instantiation that jumps back to `rescope`. -/
def rescope (E : environment) (scope : Nat) : Nat → Option Nat → state → result rescoped
  | 0, _, _ => .error .out_of_fuel
  | fuel + 1, d, s =>
    let after_while : Option Nat → state → result rescoped := fun d s =>
      if s.token.type = TT_LESSTHAN then
        match d with
        | none => .error .bad_dereference
        | some temp =>
          match deref s.cp.heap (some temp) with
          | .error e => .error e
          | .ok dd =>
            if dd.flags &&& DEF_TEMPLATE ≠ 0 then
              match E.read_template_parameters (arg_key.sized dd.params.length) temp
                  s.cp s.token scope with
              | (rc, k, tok, cp) =>
                let s1 := { s with token := tok, cp := cp }
                if rc ≠ 0 then .ok (.ret 1 s1)
                else
                  match instantiate E s1.cp.heap temp k with
                  | .error e => .error e
                  | .ok (none, heap) => .ok (.ret 1 { s1 with cp := { s1.cp with heap := heap } })
                  | .ok (some i, heap) =>
                    rescope E scope fuel (some i)
                      (advance { s1 with cp := { s1.cp with heap := heap } } (some scope))
            else .ok (.at_def d s)
      else .ok (.at_def d s)
    if s.token.type = TT_SCOPE then
      match deref s.cp.heap d with
      | .error e => .error e
      | .ok dd =>
        if dd.flags &&& DEF_SCOPE = 0 then
          let s1 := report_error s ("Cannot access `" ++ dd.name ++ "' as scope")
          if E.FATAL_ERRORS then .ok (.ret 1 s1) else after_while d s1
        else
          let s1 := advance s d
          if s1.token.type ≠ TT_DEFINITION ∧ s1.token.type ≠ TT_DECLARATOR then
            let s2 :=
              if s1.token.type = TT_IDENTIFIER then
                report_error s1 ("Expected qualified-id before %s; `" ++ s1.token.content
                  ++ "' is not a member of `" ++ dd.name ++ "'")
              else report_error s1 "Expected qualified-id before %s"
            if E.FATAL_ERRORS then .ok (.ret 1 s2) else after_while d s2
          else
            rescope E scope fuel s1.token.def_ (advance s1 (some scope))
    else after_while d s

/-- Lines 150-160: the referencers after a qualified id are read in the scope
of the function that was named, then `res = d`. -/
def read_post (E : environment) (scope : Nat) (d : Option Nat) (s : state) : result state :=
  let finish : Option Nat → List definition → state := fun where_ heap =>
    match E.read_referencers_post s.tp.refs { s.cp with heap := heap } s.token where_ with
    | (refs, tok, cp) => { s with tp := { s.tp with refs := refs }, token := tok, cp := cp, res := d }
  match d with
  | none => .ok (finish (some scope) s.cp.heap)
  | some _ =>
    match deref s.cp.heap d with
    | .error e => .error e
    | .ok dd =>
      if dd.flags &&& DEF_FUNCTION ≠ 0 then
        match deref s.cp.heap (some scope) with
        | .error e => .error e
        | .ok sc =>
          if sc.flags &&& DEF_TEMPSCOPE ≠ 0 then
            .ok (finish (some scope) (use_namespace s.cp.heap scope dd.parent))
          else .ok (finish dd.parent s.cp.heap)
      else .ok (finish (some scope) s.cp.heap)

/-- Lines 87-164: what is being declared when the descriptor has no name yet. -/
def classify (E : environment) (scope : Nat) (fuel : Nat) (s : state) : result flow :=
  if s.tp.refs.name = "" then
    match potentialc s.cp.heap scope s.tp with
    | .error e => .error e
    | .ok pc =>
      if pc && ctor_shape E s.tp then
        let s1 := { s with tp := { s.tp with refs := { s.tp.refs with name := "<construct>" } } }
        if s1.token.type = TT_COLON then skip_initializers E scope fuel s1
        else .ok (.bind s1)
      else if s.token.type = TT_COLON then
        match deref s.cp.heap (some scope) with
        | .error e => .error e
        | .ok sc =>
          if sc.flags &&& DEF_CLASS ≠ 0 then
            .ok (.bind { s with tp := { s.tp with refs :=
              { s.tp.refs with name := anonname s.anon_count } } })
          else
            .ok (.bind (report_warning s
              "Declaration without name is meaningless outside of a class"))
      else if s.token.type = TT_DEFINITION ∨ s.token.type = TT_DECLARATOR then
        match rescope E scope fuel s.token.def_ (advance s (some scope)) with
        | .error e => .error e
        | .ok (.ret c s1) => .ok (.ret c s1)
        | .ok (.at_def d s1) =>
          match read_post E scope d s1 with
          | .error e => .error e
          | .ok s2 => .ok (.extra s2)
      else .ok (.ret 0 s)
  else .ok (.bind s)

/-- The object built by lines 171-173: a function when the top referencer is a
function signature, a typed value otherwise. -/
def new_definition (this scope : Nat) (tp : full_type) (inherited_flags : Nat) : definition :=
  if !tp.refs.empty && tp.refs.top_is_function then
    definition_function.new this tp.refs.name scope tp.def_ tp.refs tp.flags
      (DEF_TYPED ||| inherited_flags)
  else
    definition_typed.new tp.refs.name scope tp.def_ tp.refs tp.flags
      (DEF_TYPED ||| inherited_flags)

/-- Label `insert_anyway` (lines 170-173): `res = ins.def = new ...`. -/
def insert_anyway (scope : Nat) (inherited_flags : Nat) (s : state) : state :=
  let p := s.cp.heap.length
  let heap1 := s.cp.heap ++ [new_definition p scope s.tp inherited_flags]
  { s with cp := { s.cp with heap := assign_slot heap1 scope s.tp.refs.name (some p) },
           res := some p }

/-- How the binding block is left: by a return, or into `extra_loop`. -/
inductive bound where
  | ret (code : Int) (s : state)
  | extra (s : state)
  deriving DecidableEq, Repr

/-- Lines 166-210: the name is entered in the scope, or merged with what the
scope already holds under it. -/
def bind_declarator (E : environment) (scope : Nat) (inherited_flags : Nat) (s : state) :
    result bound :=
  match declare s.cp.heap scope s.tp.refs.name with
  | .error e => .error e
  | .ok (ins, heap) =>
    let s0 := { s with cp := { s.cp with heap := heap } }
    if ins.inserted then .ok (.extra (insert_anyway scope inherited_flags s0))
    else
      match deref s0.cp.heap ins.def_ with
      | .error e => .error e
      | .ok e =>
        if e.flags &&& (DEF_CLASS ||| DEF_UNION ||| DEF_ENUM) ≠ 0 then
          match declare_c_struct s0.cp.c_structs s0.tp.refs.name ins.def_ with
          | (cins, cs) =>
            let s1 := { s0 with cp := { s0.cp with c_structs := cs } }
            if !cins.inserted ∧ cins.def_ ≠ ins.def_ then
              let s2 := report_error s1
                ("Attempt to redeclare `" ++ s1.tp.refs.name ++ "' failed due to conflicts")
              if E.FATAL_ERRORS then .ok (.ret 1 s2) else .ok (.extra s2)
            else .ok (.extra (insert_anyway scope inherited_flags s1))
        else if e.flags &&& DEF_TYPED = 0 then
          if e.flags &&& DEF_TEMPLATE ≠ 0 ∧ !s0.tp.refs.empty ∧ s0.tp.refs.top_is_function then
            let p := s0.cp.heap.length
            let func := definition_function.overload_template
              (definition_function.new p s0.tp.refs.name scope s0.tp.def_ s0.tp.refs s0.tp.flags
                (DEF_TYPED ||| inherited_flags)) ins.def_
            .ok (.extra { s0 with
              cp := { s0.cp with
                heap := assign_slot (s0.cp.heap ++ [func]) scope s0.tp.refs.name (some p) },
              res := some p })
          else
            match deref s0.cp.heap (some scope) with
            | .error e => .error e
            | .ok sc =>
              .ok (.ret 3 (report_error
                (report_error s0 ("Redeclaration of `" ++ s0.tp.refs.name
                  ++ "' as a different kind of symbol"))
                (if sc.parent.isSome then "In scope `" ++ sc.name ++ "'" else "At global scope")))
        else if e.flags &&& DEF_FUNCTION ≠ 0 then
          if s0.tp.refs.empty ∨ !s0.tp.refs.top_is_function then
            .ok (.ret 4 (report_error s0
              ("Cannot declare `" ++ s0.tp.refs.name ++ "' over existing function")))
          else
            match ins.def_ with
            | none => .error .bad_dereference
            | some func =>
              match definition_function.overload s0.cp.heap func (arg_key.of_refs e.referencers)
                  (definition_function.new s0.cp.heap.length s0.tp.refs.name scope s0.tp.def_
                    s0.tp.refs s0.tp.flags (DEF_TYPED ||| inherited_flags)) with
              | .error e => .error e
              | .ok (r, heap1) =>
                .ok (.extra { s0 with cp := { s0.cp with heap := heap1 }, res := r })
        else .ok (.extra { s0 with res := ins.def_ })

/-- The walk of line 241: `while (root->flags & DEF_TYPED and (root =
((definition_typed*)root)->type));`. -/
def bitfield_root (heap : List definition) : Nat → Option Nat → result (Option Nat)
  | 0, _ => .error .out_of_fuel
  | fuel + 1, root =>
    match deref heap root with
    | .error e => .error e
    | .ok r =>
      if r.flags &&& DEF_TYPED ≠ 0 then
        match r.type with
        | none => .ok none
        | some t => bitfield_root heap fuel (some t)
      else .ok root

/-- The loop `extra_loop:` of lines 212-271.  A comma hands over to
`handle_declarators`, passed in as `declare_next`. -/
def extra_loop (E : environment) (scope : Nat) (declare_next : state → result (Int × state)) :
    Nat → state → result (Int × state)
  | 0, _ => .error .out_of_fuel
  | fuel + 1, s =>
    match s.token.type with
    | TT_OPERATOR =>
      if s.token.content ≠ "=" then
        .ok (5, report_error s ("Unexpected operator `" ++ s.token.content ++ "' at this point"))
      else
        let s1 := advance s (some scope)
        match E.parse_expression s1.cp s1.token scope E.precedence_comma with
        | (_, tok, cp) => extra_loop E scope declare_next fuel { s1 with token := tok, cp := cp }
    | TT_GREATERTHAN | TT_LESSTHAN =>
      .ok (5, report_error s ("Unexpected operator `" ++ s.token.content ++ "' at this point"))
    | TT_COMMA =>
      let s1 := advance s (some scope)
      match E.read_referencers s1.tp.refs s1.tp s1.cp s1.token scope with
      | (refs, tok, cp) =>
        declare_next { s1 with tp := { s1.tp with refs := refs }, token := tok, cp := cp }
    | TT_COLON =>
      match bitfield_root s.cp.heap fuel s.tp.def_ with
      | .error e => .error e
      | .ok root =>
        let bad := root ≠ some E.builtin_type__int ∧ root ≠ some E.builtin_type__long
          ∧ root ≠ some E.builtin_type__short
        let s1 := if bad then
            report_error s "Attempt to assign bit count in non-integer declaration"
          else s
        if bad ∧ E.FATAL_ERRORS then .ok (1, s1)
        else
          let s2 := advance s1 (some scope)
          match E.parse_expression s2.cp s2.token scope (E.precedence_comma + 1) with
          | (bitcountexp, tok, cp) =>
            let s3 := { s2 with token := tok, cp := cp }
            if bitcountexp.eval.type ≠ VT.VT_INTEGER then
              let s4 := report_error s3 "Bit count is not an integer"
              if E.FATAL_ERRORS then .ok (1, s4) else extra_loop E scope declare_next fuel s4
            else extra_loop E scope declare_next fuel s3
    | TT_STRINGLITERAL | TT_CHARLITERAL | TT_DECLITERAL | TT_HEXLITERAL | TT_OCTLITERAL =>
      .ok (5, report_error s "Expected initializer `=' here before literal.")
    | _ => .ok (0, s)

/-- The descriptor overload, lines 84-274: `handle_declarators(scope, token,
tp, inherited_flags, res)`. -/
def handle_declarators (E : environment) (scope : Nat) (inherited_flags : Nat) :
    Nat → state → result (Int × state)
  | 0, _ => .error .out_of_fuel
  | fuel + 1, s =>
    match classify E scope fuel s with
    | .error e => .error e
    | .ok (.ret c s1) => .ok (c, s1)
    | .ok (.extra s1) =>
      extra_loop E scope (handle_declarators E scope inherited_flags fuel) fuel s1
    | .ok (.bind s1) =>
      match bind_declarator E scope inherited_flags s1 with
      | .error e => .error e
      | .ok (.ret c s2) => .ok (c, s2)
      | .ok (.extra s2) =>
        extra_loop E scope (handle_declarators E scope inherited_flags fuel) fuel s2

/-- The destructor shape tested at lines 51 and 66: no name, base type equal to
the scope, no flags, and a referencer stack that is exactly one function
signature. -/
def dtor_shape (scope : Nat) (tp : full_type) : Bool :=
  decide (tp.refs.name = "") && decide (tp.def_ = some scope) && decide (tp.flags = 0)
    && decide (tp.refs.size = 1) && tp.refs.top_is_function

/-- The token overload, lines 40-82: `handle_declarators(scope, token,
inherited_flags, res)`.  The field `tp` of the state is the local variable
`tp`; what it holds on entry is not read. -/
def handle_declarators_token (E : environment) (scope : Nat) (inherited_flags : Nat)
    (fuel : Nat) (s : state) : result (Int × state) :=
  let dtor := decide (s.token.type = TT_TILDE)
  let s1 := if dtor then advance s (some scope) else s
  match E.read_fulltype s1.cp s1.token scope with
  | (tp, tok, cp) =>
    let s2 := { s1 with tp := tp, token := tok, cp := cp }
    let after_dtor : state → result (Int × state) := fun s3 =>
      if s3.tp.def_ = none then
        if s3.token.type = TT_TILDE then
          let s4 := advance s3 (some scope)
          match E.read_fulltype s4.cp s4.token scope with
          | (tp2, tok2, cp2) =>
            let s5 := { s4 with token := tok2, cp := cp2 }
            let junk := !dtor_shape scope tp2
            let s6 := if junk then report_error s5 "Junk destructor; remove tilde?" else s5
            if junk ∧ E.FATAL_ERRORS then .ok (1, s6)
            else
              match deref s6.cp.heap (some scope) with
              | .error e => .error e
              | .ok sc =>
                handle_declarators E scope inherited_flags fuel
                  { s6 with tp := { def_ := some E.builtin_type__void,
                                    refs := { tp2.refs with name := "~" ++ sc.name },
                                    flags := tp2.flags ||| s3.tp.flags } }
        else .ok (1, report_error s3 "Declaration does not give a valid type")
      else handle_declarators E scope inherited_flags fuel s3
    if dtor then
      if dtor_shape scope tp then
        match deref s2.cp.heap (some scope) with
        | .error e => .error e
        | .ok sc =>
          after_dtor { s2 with tp := { tp with refs := { tp.refs with name := "~" ++ sc.name },
                                                def_ := some E.builtin_type__void } }
      else
        let s3 := report_error s2 "Junk destructor; remove tilde?"
        if E.FATAL_ERRORS then .ok (1, s3) else after_dtor s3
    else after_dtor s2

/-! ## Definitions used in the statements -/

/-- The state after a new definition was entered under a free name. -/
def bound_fresh (scope : Nat) (inherited_flags : Nat) (sc : definition) (s : state) : state :=
  { s with
    cp := { s.cp with
      heap := s.cp.heap.set scope
          { sc with members := sc.members ++ [(s.tp.refs.name, some s.cp.heap.length)] }
        ++ [new_definition s.cp.heap.length scope s.tp inherited_flags] },
    res := some s.cp.heap.length }

/-- A token kind on which `extra_loop` returns 0 at once: the last group of
case labels of the switch. -/
def ends_loop : TOKEN_TYPE → Bool
  | TT_OPERATOR | TT_GREATERTHAN | TT_LESSTHAN | TT_COMMA | TT_COLON
  | TT_STRINGLITERAL | TT_CHARLITERAL | TT_DECLITERAL | TT_HEXLITERAL | TT_OCTLITERAL => false
  | _ => true

/-- The map entries made for a list of declarators, the first object being
created at address `base`. -/
def new_entries : Nat → List ref_stack → List (String × Option Nat)
  | _, [] => []
  | base, r :: rs => (r.name, some base) :: new_entries (base + 1) rs

/-- The existing definition is a class, union or enum tag (line 177). -/
abbrev is_tag (e : definition) : Prop := e.flags &&& (DEF_CLASS ||| DEF_UNION ||| DEF_ENUM) ≠ 0

/-- The candidate's outermost referencer is a function signature (the test of
lines 171, 186 and 199). -/
abbrev function_candidate (tp : full_type) : Prop :=
  tp.refs.empty = false ∧ tp.refs.top_is_function = true

/-- Conflict (a): the existing definition is a tag and the tag namespace holds
a different definition under the name. -/
abbrev tag_conflict (s : state) (e : definition) (p : Nat) : Prop :=
  is_tag e ∧ ∃ q, find s.tp.refs.name s.cp.c_structs = some q ∧ q ≠ some p

/-- Conflict (b), as the code tests it: the existing definition is no tag, is
not typed, and it is not a template met by a function signature. -/
abbrev kind_conflict (s : state) (e : definition) : Prop :=
  ¬ is_tag e ∧ e.flags &&& DEF_TYPED = 0
    ∧ ¬ (e.flags &&& DEF_TEMPLATE ≠ 0 ∧ function_candidate s.tp)

/-- Conflict (c), as the code tests it: the existing definition is no tag, is
a typed function, and the candidate is no function signature. -/
abbrev function_conflict (s : state) (e : definition) : Prop :=
  ¬ is_tag e ∧ e.flags &&& DEF_TYPED ≠ 0 ∧ e.flags &&& DEF_FUNCTION ≠ 0
    ∧ ¬ function_candidate s.tp

/-- What the binding block leaves when it does not return: either one object
was created and `res` is its address, or nothing was created and `res` is the
definition found under the name or in its overload set. -/
def bound_shape (s s' : state) (e : definition) (p : Nat) : Prop :=
  s'.token = s.token ∧
  ((s'.cp.heap.length = s.cp.heap.length + 1 ∧ s'.res = some s.cp.heap.length) ∨
   (s'.cp.heap = s.cp.heap ∧ s'.cp.c_structs = s.cp.c_structs ∧
     (s'.res = some p ∨ s'.res = find (arg_key.of_refs e.referencers) e.overloads)))

/-- The state after `read_fulltype` has read the type that follows the
current token: the local `tp`, the token and the parser object it leaves. -/
def read_type_state (E : environment) (scope : Nat) (s : state) : state :=
  { s with
    tp := (E.read_fulltype s.cp s.token scope).1,
    token := (E.read_fulltype s.cp s.token scope).2.1,
    cp := (E.read_fulltype s.cp s.token scope).2.2 }

/-- The descriptor of a destructor of the scope named `n` with parameters `ps`. -/
def dtor_type (E : environment) (n : String) (ps : List parameter) : full_type :=
  ⟨some E.builtin_type__void, ⟨"~" ++ n, [ref_node.function ps]⟩, 0⟩

/-- Condition (1) of the constructor test: the base type is the scope, or the
scope is a template-parameter scope whose parent is the base type, or the base
type is a template whose definition is the scope. -/
abbrev ctor_base (scope : Nat) (sc t : definition) (tp : full_type) : Prop :=
  tp.def_ = some scope ∨ (sc.flags &&& DEF_TEMPSCOPE ≠ 0 ∧ tp.def_ = sc.parent)
    ∨ (t.flags &&& DEF_TEMPLATE ≠ 0 ∧ t.def_ = some scope)

/-- Condition (2) of the constructor test: every flag that is set is one of
`explicit` and `virtual`. -/
abbrev ctor_flags (E : environment) (tp : full_type) : Prop :=
  ∀ i, tp.flags.testBit i = true →
    (E.builtin_flag__explicit ||| E.builtin_flag__virtual).testBit i = true

/-- Condition (3) of the constructor test: the referencer stack is exactly one
function signature. -/
abbrev ctor_refs (tp : full_type) : Prop := ∃ ps, tp.refs.nodes = [ref_node.function ps]

/-- The state with the descriptor named as a constructor (line 98). -/
def named_construct (s : state) : state :=
  { s with tp := { s.tp with refs := { s.tp.refs with name := "<construct>" } } }

/-- The underlying type is one of builtin int, long, short (line 242). -/
abbrev integer_root (E : environment) (root : Option Nat) : Prop :=
  root = some E.builtin_type__int ∨ root = some E.builtin_type__long
    ∨ root = some E.builtin_type__short

/-- The value of the width expression read after the `:` (lines 246-248). -/
def bitcount_value (E : environment) (scope : Nat) (s : state) : value :=
  (E.parse_expression (advance s (some scope)).cp (advance s (some scope)).token scope
    (E.precedence_comma + 1)).1.eval

/-- The state after the width expression has been read (line 247). -/
def bitcount_state (E : environment) (scope : Nat) (s : state) : state :=
  { advance s (some scope) with
    token := (E.parse_expression (advance s (some scope)).cp (advance s (some scope)).token
      scope (E.precedence_comma + 1)).2.1,
    cp := (E.parse_expression (advance s (some scope)).cp (advance s (some scope)).token
      scope (E.precedence_comma + 1)).2.2 }

/-- The state after `read_template_parameters` has read the argument list of
the template at `temp` (line 142), and the key and return code it gave. -/
def template_args_state (E : environment) (scope temp : Nat) (n : Nat) (s : state) : state :=
  { s with
    token := (E.read_template_parameters (arg_key.sized n) temp s.cp s.token scope).2.2.1,
    cp := (E.read_template_parameters (arg_key.sized n) temp s.cp s.token scope).2.2.2 }

/-- The key read by `read_template_parameters`. -/
def template_args_key (E : environment) (scope temp : Nat) (n : Nat) (s : state) : arg_key :=
  (E.read_template_parameters (arg_key.sized n) temp s.cp s.token scope).2.1

/-- The return code of `read_template_parameters`. -/
def template_args_code (E : environment) (scope temp : Nat) (n : Nat) (s : state) : Int :=
  (E.read_template_parameters (arg_key.sized n) temp s.cp s.token scope).1

/-- The cursor holds, for each entry of the list, a `::` met on a scope-bearing
definition and then that entry, a definition or declarator token. -/
def walk_ok (heap : List definition) :
    List token_t → Option Nat → token_t → List token_t → Bool
  | [], _, _, _ => true
  | seg :: rest, d, tok, lex =>
    decide (tok.type = TT_SCOPE)
      && (match deref heap d with
          | .ok dd => decide (dd.flags &&& DEF_SCOPE ≠ 0)
          | .error _ => false)
      && decide ((lexer_next lex).1 = seg)
      && decide (seg.type = TT_DEFINITION ∨ seg.type = TT_DECLARATOR)
      && walk_ok heap rest seg.def_ (lexer_next (lexer_next lex).2).1
          (lexer_next (lexer_next lex).2).2

/-- Where the walk stands after the segments of the list: the definition
reached, the current token and the rest of the cursor. -/
def walk_end : List token_t → Option Nat → token_t → List token_t →
    Option Nat × token_t × List token_t
  | [], d, tok, lex => (d, tok, lex)
  | seg :: rest, _, _, lex =>
    walk_end rest seg.def_ (lexer_next (lexer_next lex).2).1 (lexer_next (lexer_next lex).2).2

/-- The state a walk ends in: only the token and the cursor have moved. -/
def walk_state (segs : List token_t) (d : Option Nat) (s : state) : state :=
  { s with
    token := (walk_end segs d s.token s.cp.lex).2.1,
    cp := { s.cp with lex := (walk_end segs d s.token s.cp.lex).2.2 } }

/-- The state left by lines 150-160: the post-referencers have been read with
the store `heap` in the scope `where_`, and `res = d`. -/
def post_state (E : environment) (s : state) (d where_ : Option Nat)
    (heap : List definition) : state :=
  { s with
    tp := { s.tp with
      refs := (E.read_referencers_post s.tp.refs { s.cp with heap := heap } s.token where_).1 },
    token := (E.read_referencers_post s.tp.refs { s.cp with heap := heap } s.token where_).2.1,
    cp := (E.read_referencers_post s.tp.refs { s.cp with heap := heap } s.token where_).2.2,
    res := d }

/-- The state after a template segment has been instantiated, the store now
being `heap`, and the token after its argument list has been read (lines
144-146). -/
def instantiated_state (E : environment) (scope temp : Nat) (n : Nat) (s : state)
    (heap : List definition) : state :=
  advance
    { template_args_state E scope temp n s with
      cp := { (template_args_state E scope temp n s).cp with heap := heap } }
    (some scope)

/-- The literal token kinds of line 256. -/
def is_literal : TOKEN_TYPE → Bool
  | TT_STRINGLITERAL | TT_CHARLITERAL | TT_DECLITERAL | TT_HEXLITERAL | TT_OCTLITERAL => true
  | _ => false

/-- The state in which the initializer skip stands on the token `stop`, the
tokens before it having been read: only the token and the cursor have moved. -/
def skip_state (s : state) (stop : token_t) (rest : List token_t) : state :=
  { s with token := stop, cp := { s.cp with lex := rest } }

/-- The typed-value to type links, followed from the definition at `p` to
their end: the walk passes through the definitions of the list, each reached
as the type of the typed definition before it, and ends in `root`, which is the
first definition met that is not typed, or null when the last typed definition
has no type. -/
def type_chain (heap : List definition) : List Nat → Nat → Option Nat → Bool
  | [], p, root =>
    match heap[p]? with
    | none => false
    | some d =>
      if d.flags &&& DEF_TYPED ≠ 0 then decide (d.type = none ∧ root = none)
      else decide (root = some p)
  | q :: rest, p, root =>
    match heap[p]? with
    | none => false
    | some d =>
      decide (d.flags &&& DEF_TYPED ≠ 0 ∧ d.type = some q) && type_chain heap rest q root

/-! ## Sample inputs -/

/-- A definition with the given name and flags and nothing else. -/
def sample_definition (name : String) (flags : Nat) : definition :=
  { name := name, parent := none, flags := flags, type := none, referencers := ⟨"", []⟩,
    modifiers := 0, overloads := [], template_overloads := [], def_ := none, params := [],
    instantiations := [], members := [], using_general := [] }

/-- The builtin types `void`, `int`, `long`, `short`, `double`, `float`. -/
def sample_builtins : List definition :=
  [sample_definition "void" DEF_TYPENAME, sample_definition "int" DEF_TYPENAME,
   sample_definition "long" DEF_TYPENAME, sample_definition "short" DEF_TYPENAME,
   sample_definition "double" DEF_TYPENAME, sample_definition "float" DEF_TYPENAME]

/-- A store: class `Foo` at address 0, then the builtin types at addresses 1 to 6. -/
def sample_heap : List definition :=
  sample_definition "Foo" (DEF_CLASS ||| DEF_SCOPE ||| DEF_TYPENAME) :: sample_builtins

/-- A store in which class `Foo` at address 0 already has members, the objects
they name being placed from address 7 on. -/
def sample_store (members : List (String × Option Nat)) (extra : List definition) :
    List definition :=
  { sample_definition "Foo" (DEF_CLASS ||| DEF_SCOPE ||| DEF_TYPENAME) with members := members }
    :: sample_builtins ++ extra

/-- A state over a given store and tag namespace, before a `;`. -/
def sample_state_in (heap : List definition) (c_structs : List (String × Option Nat))
    (tp : full_type) : state :=
  { cp := { lex := [], herr := [], heap := heap, c_structs := c_structs },
    token := ⟨TT_SEMICOLON, ";", none⟩, tp := tp, res := none, anon_count := 0 }

/-- The function `void f(int)` declared in scope 0, placed at address 7. -/
def sample_function : definition :=
  definition_function.new 7 "f" 0 (some 1) ⟨"f", [ref_node.function [⟨some 2, 0⟩]]⟩ 0 DEF_TYPED

/-- The constructor `Foo(int)` declared in class `Foo`, placed at address 7. -/
def sample_constructor : definition :=
  definition_function.new 7 "<construct>" 0 (some 0)
    ⟨"<construct>", [ref_node.function [⟨some 2, 0⟩]]⟩ 0 DEF_TYPED

/-- A class `Bar` nested in scope 0. -/
def sample_class : definition :=
  { sample_definition "Bar" (DEF_CLASS ||| DEF_SCOPE ||| DEF_TYPENAME) with parent := some 0 }

/-- The value of a decimal literal. -/
def sample_literal (text : String) : Nat :=
  text.data.foldl (fun n c => 10 * n + (c.toNat - 48)) 0

/-- A small declarator reader: stars, then a name, then an optional array bound. -/
def sample_read_declarator :
    Nat → List ref_node → token_t → List token_t → ref_stack × token_t × List token_t
  | 0, nodes, tok, lex => (⟨"", nodes⟩, tok, lex)
  | fuel + 1, nodes, tok, lex =>
    if tok.type = TT_OPERATOR ∧ tok.content = "*" then
      sample_read_declarator fuel (ref_node.pointer :: nodes) (lexer_next lex).1 (lexer_next lex).2
    else if tok.type = TT_IDENTIFIER then
      match lex with
      | ⟨TT_LEFTBRACKET, _, _⟩ :: ⟨TT_DECLITERAL, n, _⟩ :: ⟨TT_RIGHTBRACKET, _, _⟩ :: rest =>
        (⟨tok.content, ref_node.array (sample_literal n) :: nodes⟩,
          (lexer_next rest).1, (lexer_next rest).2)
      | _ => (⟨tok.content, nodes⟩, (lexer_next lex).1, (lexer_next lex).2)
    else (⟨"", nodes⟩, tok, lex)

/-- An environment for the samples: errors are fatal, the builtins sit where
`sample_heap` puts them, the type reader answers with `tp`, the referencer
reader is `sample_read_declarator`, expressions evaluate to `v`. -/
def sample_env (tp : full_type) (v : value) : environment :=
  { FATAL_ERRORS := true
    builtin_type__void := 1
    builtin_type__int := 2
    builtin_type__long := 3
    builtin_type__short := 4
    builtin_flag__explicit := 1
    builtin_flag__virtual := 2
    precedence_comma := 1
    read_fulltype := fun cp tok _ => (tp, tok, cp)
    read_referencers := fun _ _ cp tok _ =>
      ((sample_read_declarator 8 [] tok cp.lex).1, (sample_read_declarator 8 [] tok cp.lex).2.1,
        { cp with lex := (sample_read_declarator 8 [] tok cp.lex).2.2 })
    read_referencers_post := fun refs cp tok _ => (refs, tok, cp)
    parse_expression := fun cp _ _ _ => (⟨v⟩, (lexer_next cp.lex).1,
      { cp with lex := (lexer_next cp.lex).2 })
    read_template_parameters := fun k _ cp tok _ => (0, k, tok, cp)
    instance_of := fun _ _ => none }

/-- The integer 3. -/
def sample_three : value := ⟨VT.VT_INTEGER, 3⟩

/-- A descriptor that names nothing. -/
def sample_no_type : full_type := ⟨none, ⟨"", []⟩, 0⟩

/-- A state over `sample_heap` with the given cursor, token and descriptor. -/
def sample_state (lex : List token_t) (tok : token_t) (tp : full_type) : state :=
  { cp := { lex := lex, herr := [], heap := sample_heap, c_structs := [] },
    token := tok, tp := tp, res := none, anon_count := 0 }

/-- The token `;`. -/
def semicolon : token_t := ⟨TT_SEMICOLON, ";", none⟩

/-- An identifier token. -/
def identifier (name : String) : token_t := ⟨TT_IDENTIFIER, name, none⟩

/-- The value `int x` declared in scope 0. -/
def sample_value : definition :=
  definition_typed.new "x" 0 (some 2) ⟨"x", []⟩ 0 DEF_TYPED

/-- The token `:`. -/
def colon : token_t := ⟨TT_COLON, ":", none⟩

/-- A decimal literal token. -/
def literal (text : String) : token_t := ⟨TT_DECLITERAL, text, none⟩

/-- A store whose scope at address 0 is a namespace, not a class. -/
def sample_namespace_heap : List definition :=
  sample_definition "ns" (DEF_NAMESPACE ||| DEF_SCOPE) :: sample_builtins

/-- The integer 4. -/
def sample_four : value := ⟨VT.VT_INTEGER, 4⟩

/-- The nameless member `int : 3;` met in class `Foo`. -/
def sample_anonymous_first : state :=
  sample_state [literal "3", semicolon] colon ⟨some 2, ⟨"", []⟩, 0⟩

/-- The nameless member `int : 4;` met next, in the state s1 the first one left. -/
def sample_anonymous_second (s1 : state) : state :=
  { s1 with
    token := colon,
    tp := ⟨some 2, ⟨"", []⟩, 0⟩,
    cp := { s1.cp with lex := [literal "4", semicolon] } }

/-- The token `::`. -/
def scope_token : token_t := ⟨TT_SCOPE, "::", none⟩

/-- A token that names the definition at address p. -/
def definition_token (name : String) (p : Nat) : token_t := ⟨TT_DEFINITION, name, some p⟩

/-- The member `int baz` of the class `Bar` held at address 7. -/
def sample_member : definition :=
  definition_typed.new "baz" 7 (some 2) ⟨"baz", []⟩ 0 DEF_TYPED

/-- A state over a given store, cursor, token and descriptor. -/
def sample_state_at (heap : List definition) (lex : List token_t) (tok : token_t)
    (tp : full_type) : state :=
  { cp := { lex := lex, herr := [], heap := heap, c_structs := [] },
    token := tok, tp := tp, res := none, anon_count := 0 }

/-- A small template-argument reader: from `<` up to `>`, the key being the
definitions named in between. -/
def sample_read_args : Nat → arg_key → token_t → List token_t → arg_key × token_t × List token_t
  | 0, k, tok, lex => (k, tok, lex)
  | fuel + 1, k, tok, lex =>
    if tok.type = TT_GREATERTHAN then (k, tok, lex)
    else if tok.type = TT_LESSTHAN then
      sample_read_args fuel k (lexer_next lex).1 (lexer_next lex).2
    else sample_read_args fuel (k ++ [⟨tok.def_, 0⟩]) (lexer_next lex).1 (lexer_next lex).2

/-- The template `Container`, placed at address 7. -/
def sample_template : definition :=
  { sample_definition "Container" (DEF_TEMPLATE ||| DEF_TYPENAME) with
    parent := some 0, params := [2] }

/-- The type `Iterator`, placed at address 8. -/
def sample_iterator : definition :=
  { sample_definition "Iterator" DEF_TYPENAME with parent := some 7 }

/-- An instance of a template: a class with the member `Iterator`. -/
def sample_instance (t : definition) : definition :=
  { sample_definition t.name (DEF_CLASS ||| DEF_SCOPE ||| DEF_TYPENAME) with
    parent := t.parent, members := [("Iterator", some 8)] }

/-- The sample environment with a template-argument reader and with templates
that instantiate to `sample_instance`. -/
def sample_template_env : environment :=
  { sample_env sample_no_type sample_three with
    read_template_parameters := fun _ _ cp tok _ =>
      (0, (sample_read_args 8 [] tok cp.lex).1, (sample_read_args 8 [] tok cp.lex).2.1,
        { cp with lex := (sample_read_args 8 [] tok cp.lex).2.2 })
    instance_of := fun t _ => some (sample_instance t) }

/-- The tokens of `Container<int>::Iterator;` after the token `Container`. -/
def sample_template_lex : List token_t :=
  [⟨TT_LESSTHAN, "<", none⟩, ⟨TT_DECLARATOR, "int", some 2⟩, ⟨TT_GREATERTHAN, ">", none⟩,
    scope_token, definition_token "Iterator" 8, semicolon]

/-- The first resolution of `Container<int>::Iterator;` in class `Foo`. -/
def sample_template_first : state :=
  sample_state_at (sample_store [("Container", some 7)] [sample_template, sample_iterator])
    sample_template_lex (definition_token "Container" 7) ⟨some 2, ⟨"", []⟩, 0⟩

/-- The store the first resolution of `Container<int>` leaves: the template
caches the key `int` as the object at address 9, its instance. -/
def sample_template_store : List definition :=
  sample_store [("Container", some 7)]
    [{ sample_template with instantiations := [([⟨some 2, 0⟩], 9)] }, sample_iterator,
      sample_instance sample_template]

/-- The second resolution of `Container<int>::Iterator;`, in the store the
first one left. -/
def sample_template_again : state :=
  sample_state_at sample_template_store sample_template_lex (definition_token "Container" 7)
    ⟨some 2, ⟨"", []⟩, 0⟩

/-- The token `{`. -/
def left_brace : token_t := ⟨TT_LEFTBRACE, "\x7b", none⟩

/-- The initializer `x(1)`. -/
def sample_initializer : List token_t :=
  [identifier "x", ⟨TT_LEFTPARENTH, "(", none⟩, literal "1", ⟨TT_RIGHTPARENTH, ")", none⟩]

/-- The constructor `Foo()` of class `Foo`, met before a `:` that the tokens of
`lex` follow. -/
def sample_ctor_state (lex : List token_t) : state :=
  sample_state lex colon ⟨some 0, ⟨"", [ref_node.function []]⟩, 0⟩

/-- The type name `myint`, a typed definition whose type is `int`. -/
def sample_typedef : definition :=
  definition_typed.new "myint" 0 (some 2) ⟨"myint", []⟩ 0 (DEF_TYPED ||| DEF_TYPENAME)

/-- The nameless declaration `T : 3;` met in the namespace of
`sample_namespace_heap`, `T` being the builtin type at address `tp`. -/
def sample_nameless (tp : Nat) : state :=
  sample_state_at sample_namespace_heap [literal "3", semicolon] colon ⟨some tp, ⟨"", []⟩, 0⟩

end jdip

/-!
# Sleeping on the Cocoa platform

A shallow embedding of `enigma_user::sleep` from
`ENIGMAsystem/SHELL/Platforms/Cocoa/CocoaMain.cpp`.  What the function does is
the calls it makes into the C library; they are returned as a list.
-/

namespace enigma_user

/-- A call into the C library made by `sleep`: `::sleep(seconds)` or
`usleep(useconds)`, with the argument as the callee receives it. -/
inductive libc_call where
  | sleep (seconds : Int)
  | usleep (useconds : Int)
  deriving DecidableEq, Repr

/-- The value of an `int` expression: 32 bits, two's complement. -/
def wrap_int (x : Int) : Int := (x + 2147483648) % 4294967296 - 2147483648

/-- Conversion of an `int` argument to the 32-bit unsigned parameter type of
`::sleep` (`unsigned int`) and `usleep` (`useconds_t`). -/
def to_unsigned (x : Int) : Int := x % 4294967296

/-- Function `enigma_user::sleep(int ms)`, `CocoaMain.cpp` lines 55-58:
`if (ms > 1000) ::sleep(ms/1000); usleep((ms % 1000) *1000);`.  The result is
the list of library calls made, in order; `/` and `%` truncate as in C. -/
def sleep (ms : Int) : List libc_call :=
  (if ms > 1000 then [libc_call.sleep (to_unsigned (Int.tdiv ms 1000))] else [])
    ++ [libc_call.usleep (to_unsigned (wrap_int (Int.tmod ms 1000 * 1000)))]

/-- The seconds passed to `::sleep`, 0 when it is not called. -/
def requested_seconds : List libc_call → Int
  | [] => 0
  | libc_call.sleep n :: rest => n + requested_seconds rest
  | libc_call.usleep _ :: rest => requested_seconds rest

/-- The microseconds passed to `usleep`. -/
def requested_useconds : List libc_call → Int
  | [] => 0
  | libc_call.sleep _ :: rest => requested_useconds rest
  | libc_call.usleep u :: rest => u + requested_useconds rest

/-- The total duration requested, in milliseconds: 1000 times the seconds plus
the microseconds divided by 1000. -/
def requested_ms (calls : List libc_call) : Int :=
  1000 * requested_seconds calls + requested_useconds calls / 1000

end enigma_user

namespace jdip

open TOKEN_TYPE

/-! ## Maps and the object store -/

theorem find_append {κ β : Type} [DecidableEq κ] (k : κ) (a b : List (κ × β)) :
    find k (a ++ b) = match find k a with
      | some v => some v
      | none => find k b := by
  induction a with
  | nil => rfl
  | cons x xs ih =>
    obtain ⟨k1, v1⟩ := x
    by_cases h : k1 = k
    · simp [find, h]
    · simp [find, h, ih]

theorem find_append_single {κ β : Type} [DecidableEq κ] (k n : κ) (v : β) (a : List (κ × β))
    (hfresh : find n a = none) :
    find k (a ++ [(n, v)]) = if k = n then some v else find k a := by
  rw [find_append]
  by_cases h : k = n
  · subst h
    simp [hfresh, find]
  · have h1 : ¬ n = k := fun e => h e.symm
    cases hk : find k a <;> simp [find, h, h1]

theorem assign_append_fresh {κ β : Type} [DecidableEq κ] (n : κ) (v w : β) (a : List (κ × β))
    (hfresh : find n a = none) :
    assign n v (a ++ [(n, w)]) = a ++ [(n, v)] := by
  induction a with
  | nil => simp [assign]
  | cons x xs ih =>
    obtain ⟨k1, v1⟩ := x
    by_cases h : k1 = n
    · simp [find, h] at hfresh
    · simp only [find, h, if_false] at hfresh
      simp [assign, h, ih hfresh]

theorem find_assign {κ β : Type} [DecidableEq κ] (k n : κ) (v : β) (a : List (κ × β)) :
    find k (assign n v a) = if k = n then (find n a).map (fun _ => v) else find k a := by
  induction a with
  | nil => simp [assign, find]
  | cons x xs ih =>
    obtain ⟨k1, v1⟩ := x
    by_cases h : k1 = n
    · by_cases hk : k = n
      · subst hk; subst h; simp [assign, find]
      · have : ¬ k1 = k := fun e => hk (e ▸ h)
        have hn : ¬ n = k := fun e => hk e.symm
        simp [assign, find, h, hk, hn]
    · by_cases hk : k = n
      · subst hk
        simp [assign, find, h, ih]
      · simp only [assign, h, if_false, find, ih, hk]

theorem deref_some {heap : List definition} {i : Nat} {d : definition}
    (h : heap[i]? = some d) : deref heap (some i) = .ok d := by
  simp [deref, h]

theorem lt_of_getElem? {heap : List definition} {i : Nat} {d : definition}
    (h : heap[i]? = some d) : i < heap.length := by
  rcases List.getElem?_eq_some.mp h with ⟨hlt, _⟩
  exact hlt

/-! ## The binding block on a free name -/

theorem insert_after_declare (scope : Nat) (inherited_flags : Nat) (sc : definition) (s : state)
    (hsc : s.cp.heap[scope]? = some sc) (hfresh : find s.tp.refs.name sc.members = none) :
    insert_anyway scope inherited_flags
      { s with
        cp := { s.cp with
          heap := s.cp.heap.set scope
            { sc with members := sc.members ++ [(s.tp.refs.name, none)] } } }
      = bound_fresh scope inherited_flags sc s := by
  have hlt : scope < s.cp.heap.length := lt_of_getElem? hsc
  have hlt2 : scope < (s.cp.heap.set scope
      { sc with members := sc.members ++ [(s.tp.refs.name, none)] }).length := by
    simpa using hlt
  simp only [insert_anyway, bound_fresh, assign_slot, List.length_set]
  rw [List.getElem?_append_left hlt2, List.getElem?_set_self hlt]
  simp only [List.set_append_left _ _ hlt2, List.set_set, assign_append_fresh _ _ _ _ hfresh]

theorem bind_declarator_fresh (E : environment) (scope : Nat) (inherited_flags : Nat)
    (sc : definition) (s : state)
    (hsc : s.cp.heap[scope]? = some sc) (hfresh : find s.tp.refs.name sc.members = none) :
    bind_declarator E scope inherited_flags s
      = .ok (.extra (bound_fresh scope inherited_flags sc s)) := by
  simp only [bind_declarator, declare, deref_some hsc, hfresh]
  simp only [if_true]
  rw [insert_after_declare scope inherited_flags sc s hsc hfresh]

theorem extra_loop_ends (E : environment) (scope : Nat)
    (declare_next : state → result (Int × state)) (fuel : Nat) (s : state)
    (h : ends_loop s.token.type = true) :
    extra_loop E scope declare_next (fuel + 1) s = .ok (0, s) := by
  unfold extra_loop
  cases ht : s.token.type <;> simp_all [ends_loop]

theorem or_and_left_self (a b : Nat) : (a ||| b) &&& a = a := by
  apply Nat.eq_of_testBit_eq
  intro i
  simp only [Nat.testBit_and, Nat.testBit_or]
  cases a.testBit i <;> cases b.testBit i <;> rfl

theorem new_definition_flags (this scope : Nat) (tp : full_type) (inherited_flags : Nat) :
    (new_definition this scope tp inherited_flags).flags &&& (DEF_TYPED ||| inherited_flags)
      = DEF_TYPED ||| inherited_flags := by
  unfold new_definition
  split
  · simp only [definition_function.new, definition_typed.new]
    exact or_and_left_self _ _
  · simp only [definition_typed.new]
    exact Nat.and_self _

theorem handle_declarators_named (E : environment) (scope inherited_flags fuel : Nat) (s : state)
    (hname : s.tp.refs.name ≠ "") :
    handle_declarators E scope inherited_flags (fuel + 1) s =
      match bind_declarator E scope inherited_flags s with
      | .error e => .error e
      | .ok (.ret c s2) => .ok (c, s2)
      | .ok (.extra s2) =>
        extra_loop E scope (handle_declarators E scope inherited_flags fuel) fuel s2 := by
  simp only [handle_declarators, classify, hname, if_false]

theorem terminator_ends_loop {t : TOKEN_TYPE} (h : t = TT_SEMICOLON ∨ t = TT_ELLIPSIS) :
    ends_loop t = true := by
  rcases h with h | h <;> subst h <;> rfl

/-- C1, fresh-slot binding: for a descriptor with a non-empty name that the
scope does not define yet and a current token that is a statement terminator,
the call returns 0; the scope's map gains exactly the entry for that name; the
new definition has the name, the scope as parent, the descriptor's base type,
referencer stack and modifier flags, definition flags containing
`DEF_TYPED | inherited_flags`; it is built as a function exactly when the top
referencer is a function signature; `res` points to it; nothing else in the
store, the tag namespace, the cursor or the diagnostics changes. -/
theorem fresh_slot_binding (E : environment) (scope inherited_flags fuel : Nat) (s : state)
    (sc : definition)
    (hsc : s.cp.heap[scope]? = some sc)
    (hname : s.tp.refs.name ≠ "")
    (hfresh : find s.tp.refs.name sc.members = none)
    (hterm : s.token.type = TT_SEMICOLON ∨ s.token.type = TT_ELLIPSIS) :
    ∃ s' d,
      handle_declarators E scope inherited_flags (fuel + 2) s = .ok (0, s') ∧
      s'.cp.heap[scope]? = some
        { sc with members := sc.members ++ [(s.tp.refs.name, some s.cp.heap.length)] } ∧
      (∀ m, find m (sc.members ++ [(s.tp.refs.name, some s.cp.heap.length)])
        = if m = s.tp.refs.name then some (some s.cp.heap.length) else find m sc.members) ∧
      s'.res = some s.cp.heap.length ∧
      s'.cp.heap[s.cp.heap.length]? = some d ∧
      d.name = s.tp.refs.name ∧ d.parent = some scope ∧ d.type = s.tp.def_ ∧
      d.referencers = s.tp.refs ∧ d.modifiers = s.tp.flags ∧
      d.flags &&& (DEF_TYPED ||| inherited_flags) = DEF_TYPED ||| inherited_flags ∧
      ((s.tp.refs.empty = false ∧ s.tp.refs.top_is_function = true) →
        d = definition_function.new s.cp.heap.length s.tp.refs.name scope s.tp.def_ s.tp.refs
          s.tp.flags (DEF_TYPED ||| inherited_flags)) ∧
      (¬ (s.tp.refs.empty = false ∧ s.tp.refs.top_is_function = true) →
        d = definition_typed.new s.tp.refs.name scope s.tp.def_ s.tp.refs
          s.tp.flags (DEF_TYPED ||| inherited_flags)) ∧
      s'.cp.heap.length = s.cp.heap.length + 1 ∧
      (∀ i, i < s.cp.heap.length → i ≠ scope → s'.cp.heap[i]? = s.cp.heap[i]?) ∧
      s'.cp.c_structs = s.cp.c_structs ∧ s'.cp.lex = s.cp.lex ∧ s'.cp.herr = s.cp.herr ∧
      s'.token = s.token ∧ s'.tp = s.tp := by
  have hlt : scope < s.cp.heap.length := lt_of_getElem? hsc
  refine ⟨bound_fresh scope inherited_flags sc s,
    new_definition s.cp.heap.length scope s.tp inherited_flags, ?_, ?_, ?_, rfl, ?_, ?_, ?_, ?_,
    ?_, ?_, ?_, ?_, ?_, ?_, ?_, rfl, rfl, rfl, rfl, rfl⟩
  · rw [handle_declarators_named E scope inherited_flags (fuel + 1) s hname,
      bind_declarator_fresh E scope inherited_flags sc s hsc hfresh]
    exact extra_loop_ends E scope _ fuel _ (terminator_ends_loop hterm)
  · simp only [bound_fresh]
    rw [List.getElem?_append_left (by simpa using hlt), List.getElem?_set_self hlt]
  · intro m
    exact find_append_single m _ _ _ hfresh
  · simp only [bound_fresh]
    rw [List.getElem?_append_right (by simp)]
    simp
  · unfold new_definition; split <;> rfl
  · unfold new_definition; split <;> rfl
  · unfold new_definition; split <;> rfl
  · unfold new_definition; split <;> rfl
  · unfold new_definition; split <;> rfl
  · exact new_definition_flags _ _ _ _
  · intro h
    simp [new_definition, h.1, h.2]
  · intro h
    unfold new_definition
    split
    · rename_i hc
      exact absurd (by simpa using hc) h
    · rfl
  · simp [bound_fresh]
  · intro i hi hne
    simp only [bound_fresh]
    rw [List.getElem?_append_left (by simpa using hi), List.getElem?_set_ne (Ne.symm hne)]

/-- Witness of C1: `int x;` in class `Foo` of the sample store. -/
theorem fresh_slot_binding_witness :
    ∃ s', handle_declarators (sample_env sample_no_type sample_three) 0 0 2
        (sample_state [] semicolon ⟨some 2, ⟨"x", []⟩, 0⟩) = .ok (0, s')
      ∧ s'.res = some 7
      ∧ s'.cp.heap[7]? = some (definition_typed.new "x" 0 (some 2) ⟨"x", []⟩ 0 DEF_TYPED) := by
  obtain ⟨s', d, h1, _, _, h4, h5, _, _, _, _, _, _, _, h13, _⟩ :=
    fresh_slot_binding (sample_env sample_no_type sample_three) 0 0 0
      (sample_state [] semicolon ⟨some 2, ⟨"x", []⟩, 0⟩)
      (sample_definition "Foo" (DEF_CLASS ||| DEF_SCOPE ||| DEF_TYPENAME))
      rfl (by decide) rfl (Or.inl rfl)
  rw [h13 (by decide)] at h5
  exact ⟨s', h1, h4, h5⟩

/-! ## Comma lists -/

theorem new_entries_length (base : Nat) (rs : List ref_stack) :
    (new_entries base rs).length = rs.length := by
  induction rs generalizing base with
  | nil => rfl
  | cons r rs ih => simp [new_entries, ih]

theorem declare_existing {heap : List definition} {scope : Nat} {sc : definition} {n : String}
    {slot : Option Nat} (hsc : heap[scope]? = some sc) (hslot : find n sc.members = some slot) :
    declare heap scope n = .ok (⟨slot, false⟩, heap) := by
  simp only [declare, deref_some hsc, hslot]

theorem bind_tag_conflict (E : environment) (scope inherited_flags : Nat) (s : state)
    (sc e : definition) (p : Nat) (q : Option Nat)
    (hsc : s.cp.heap[scope]? = some sc)
    (hslot : find s.tp.refs.name sc.members = some (some p))
    (he : s.cp.heap[p]? = some e) (htag : is_tag e)
    (hq : find s.tp.refs.name s.cp.c_structs = some q) (hne : q ≠ some p) :
    bind_declarator E scope inherited_flags s =
      if E.FATAL_ERRORS then
        .ok (.ret 1 (report_error s
          ("Attempt to redeclare `" ++ s.tp.refs.name ++ "' failed due to conflicts")))
      else
        .ok (.extra (report_error s
          ("Attempt to redeclare `" ++ s.tp.refs.name ++ "' failed due to conflicts"))) := by
  unfold is_tag at htag
  simp only [bind_declarator, declare_existing hsc hslot, deref_some he, declare_c_struct, hq]
  simp [htag, hne]

theorem bind_tag_relocate (E : environment) (scope inherited_flags : Nat) (s : state)
    (sc e : definition) (p : Nat)
    (hsc : s.cp.heap[scope]? = some sc)
    (hslot : find s.tp.refs.name sc.members = some (some p))
    (he : s.cp.heap[p]? = some e) (htag : is_tag e)
    (hq : find s.tp.refs.name s.cp.c_structs = none
      ∨ find s.tp.refs.name s.cp.c_structs = some (some p)) :
    bind_declarator E scope inherited_flags s =
      .ok (.extra (insert_anyway scope inherited_flags
        { s with cp := { s.cp with
            c_structs := (declare_c_struct s.cp.c_structs s.tp.refs.name (some p)).2 } })) := by
  unfold is_tag at htag
  simp only [bind_declarator, declare_existing hsc hslot, deref_some he]
  rcases hq with hq | hq
  · simp [htag, declare_c_struct, hq]
  · simp [htag, declare_c_struct, hq]

theorem bind_other_kind (E : environment) (scope inherited_flags : Nat) (s : state)
    (sc e : definition) (p : Nat)
    (hsc : s.cp.heap[scope]? = some sc)
    (hslot : find s.tp.refs.name sc.members = some (some p))
    (he : s.cp.heap[p]? = some e) (htag : ¬ is_tag e)
    (htyped : e.flags &&& DEF_TYPED = 0)
    (hnot : ¬ (e.flags &&& DEF_TEMPLATE ≠ 0 ∧ function_candidate s.tp)) :
    bind_declarator E scope inherited_flags s =
      .ok (.ret 3 (report_error
        (report_error s ("Redeclaration of `" ++ s.tp.refs.name
          ++ "' as a different kind of symbol"))
        (if sc.parent.isSome then "In scope `" ++ sc.name ++ "'" else "At global scope"))) := by
  unfold is_tag at htag
  unfold function_candidate at hnot
  simp only [bind_declarator, declare_existing hsc hslot, deref_some he]
  have hnot2 : ¬ (e.flags &&& DEF_TEMPLATE ≠ 0 ∧ (!s.tp.refs.empty) = true
      ∧ s.tp.refs.top_is_function = true) := by
    intro h
    exact hnot ⟨h.1, by simpa using h.2.1, h.2.2⟩
  simp only [if_false, htag, htyped, if_true, hnot2, deref_some hsc, Bool.false_eq_true]

theorem bind_function_clash (E : environment) (scope inherited_flags : Nat) (s : state)
    (sc e : definition) (p : Nat)
    (hsc : s.cp.heap[scope]? = some sc)
    (hslot : find s.tp.refs.name sc.members = some (some p))
    (he : s.cp.heap[p]? = some e) (htag : ¬ is_tag e)
    (htyped : e.flags &&& DEF_TYPED ≠ 0) (hfn : e.flags &&& DEF_FUNCTION ≠ 0)
    (hnot : ¬ function_candidate s.tp) :
    bind_declarator E scope inherited_flags s =
      .ok (.ret 4 (report_error s
        ("Cannot declare `" ++ s.tp.refs.name ++ "' over existing function"))) := by
  unfold is_tag at htag
  unfold function_candidate at hnot
  simp only [bind_declarator, declare_existing hsc hslot, deref_some he]
  have hc : s.tp.refs.empty = true ∨ (!s.tp.refs.top_is_function) = true := by
    by_cases h1 : s.tp.refs.empty = true
    · exact Or.inl h1
    · right
      have h1' : s.tp.refs.empty = false := by simpa using h1
      have h2 : ¬ s.tp.refs.top_is_function = true := fun h => hnot ⟨h1', h⟩
      simpa using h2
  simp only [if_false, htag, htyped, if_true, hfn, hc, Bool.false_eq_true, ne_eq,
    not_true_eq_false, not_false_eq_true]

theorem bind_template_overload (E : environment) (scope inherited_flags : Nat) (s : state)
    (sc e : definition) (p : Nat)
    (hsc : s.cp.heap[scope]? = some sc)
    (hslot : find s.tp.refs.name sc.members = some (some p))
    (he : s.cp.heap[p]? = some e) (htag : ¬ is_tag e)
    (htyped : e.flags &&& DEF_TYPED = 0)
    (htemp : e.flags &&& DEF_TEMPLATE ≠ 0) (hfn : function_candidate s.tp) :
    bind_declarator E scope inherited_flags s =
      .ok (.extra { s with
        cp := { s.cp with
          heap := assign_slot (s.cp.heap ++ [definition_function.overload_template
              (definition_function.new s.cp.heap.length s.tp.refs.name scope s.tp.def_ s.tp.refs
                s.tp.flags (DEF_TYPED ||| inherited_flags)) (some p)])
            scope s.tp.refs.name (some s.cp.heap.length) },
        res := some s.cp.heap.length }) := by
  unfold is_tag at htag
  unfold function_candidate at hfn
  simp only [bind_declarator, declare_existing hsc hslot, deref_some he]
  have hc : e.flags &&& DEF_TEMPLATE ≠ 0 ∧ (!s.tp.refs.empty) = true
      ∧ s.tp.refs.top_is_function = true := ⟨htemp, by simp [hfn.1], hfn.2⟩
  rw [if_neg htag, if_pos htyped, if_pos hc]
  simp only [Bool.false_eq_true, if_false]

theorem bind_function_overload (E : environment) (scope inherited_flags : Nat) (s : state)
    (sc e : definition) (p : Nat)
    (hsc : s.cp.heap[scope]? = some sc)
    (hslot : find s.tp.refs.name sc.members = some (some p))
    (he : s.cp.heap[p]? = some e) (htag : ¬ is_tag e)
    (htyped : e.flags &&& DEF_TYPED ≠ 0) (hfn : e.flags &&& DEF_FUNCTION ≠ 0)
    (hcand : function_candidate s.tp) :
    bind_declarator E scope inherited_flags s =
      match definition_function.overload s.cp.heap p (arg_key.of_refs e.referencers)
          (definition_function.new s.cp.heap.length s.tp.refs.name scope s.tp.def_
            s.tp.refs s.tp.flags (DEF_TYPED ||| inherited_flags)) with
      | .error err => .error err
      | .ok (r, heap1) => .ok (.extra { s with cp := { s.cp with heap := heap1 }, res := r }) := by
  unfold is_tag at htag
  unfold function_candidate at hcand
  simp only [bind_declarator, declare_existing hsc hslot, deref_some he]
  have hc : ¬ (s.tp.refs.empty = true ∨ (!s.tp.refs.top_is_function) = true) := by
    simp [hcand.1, hcand.2]
  simp only [if_false, htag, htyped, if_true, hfn, hc, Bool.false_eq_true, ne_eq,
    not_true_eq_false, not_false_eq_true]

theorem bind_reuse (E : environment) (scope inherited_flags : Nat) (s : state)
    (sc e : definition) (p : Nat)
    (hsc : s.cp.heap[scope]? = some sc)
    (hslot : find s.tp.refs.name sc.members = some (some p))
    (he : s.cp.heap[p]? = some e) (htag : ¬ is_tag e)
    (htyped : e.flags &&& DEF_TYPED ≠ 0) (hfn : e.flags &&& DEF_FUNCTION = 0) :
    bind_declarator E scope inherited_flags s = .ok (.extra { s with res := some p }) := by
  unfold is_tag at htag
  simp only [bind_declarator, declare_existing hsc hslot, deref_some he]
  simp only [if_false, htag, htyped, if_true, hfn, Bool.false_eq_true, ne_eq,
    not_true_eq_false, not_false_eq_true]

theorem overload_total (heap : List definition) (p : Nat) (e : definition) (k : arg_key)
    (ovrl : definition) (he : heap[p]? = some e) :
    ∃ r heap1, definition_function.overload heap p k ovrl = .ok (r, heap1) := by
  simp only [definition_function.overload, deref_some he]
  cases find k e.overloads <;> exact ⟨_, _, rfl⟩

theorem assign_slot_length (heap : List definition) (scope : Nat) (n : String)
    (p : Option Nat) : (assign_slot heap scope n p).length = heap.length := by
  unfold assign_slot
  cases heap[scope]? <;> simp

theorem bind_existing_outcome (E : environment) (hfatal : E.FATAL_ERRORS = true)
    (scope inherited_flags : Nat) (s : state) (sc e : definition) (p : Nat)
    (hsc : s.cp.heap[scope]? = some sc)
    (hslot : find s.tp.refs.name sc.members = some (some p))
    (he : s.cp.heap[p]? = some e) :
    (tag_conflict s e p → ∃ s', bind_declarator E scope inherited_flags s = .ok (.ret 1 s')
      ∧ s'.cp.heap = s.cp.heap ∧ s'.cp.c_structs = s.cp.c_structs ∧ s'.res = s.res) ∧
    (kind_conflict s e → ∃ s', bind_declarator E scope inherited_flags s = .ok (.ret 3 s')
      ∧ s'.cp.heap = s.cp.heap ∧ s'.cp.c_structs = s.cp.c_structs ∧ s'.res = s.res) ∧
    (function_conflict s e → ∃ s', bind_declarator E scope inherited_flags s = .ok (.ret 4 s')
      ∧ s'.cp.heap = s.cp.heap ∧ s'.cp.c_structs = s.cp.c_structs ∧ s'.res = s.res) ∧
    (¬ tag_conflict s e p → ¬ kind_conflict s e → ¬ function_conflict s e →
      ∃ s', bind_declarator E scope inherited_flags s = .ok (.extra s')
        ∧ bound_shape s s' e p) := by
  refine ⟨?_, ?_, ?_, ?_⟩
  · rintro ⟨htag, q, hq, hne⟩
    rw [bind_tag_conflict E scope inherited_flags s sc e p q hsc hslot he htag hq hne, hfatal]
    exact ⟨_, rfl, rfl, rfl, rfl⟩
  · rintro ⟨htag, hty, hnot⟩
    rw [bind_other_kind E scope inherited_flags s sc e p hsc hslot he htag hty hnot]
    exact ⟨_, rfl, rfl, rfl, rfl⟩
  · rintro ⟨htag, hty, hfn, hnot⟩
    rw [bind_function_clash E scope inherited_flags s sc e p hsc hslot he htag hty hfn hnot]
    exact ⟨_, rfl, rfl, rfl, rfl⟩
  · intro hA hB hC
    by_cases htag : is_tag e
    · have hq : find s.tp.refs.name s.cp.c_structs = none
          ∨ find s.tp.refs.name s.cp.c_structs = some (some p) := by
        cases hfind : find s.tp.refs.name s.cp.c_structs with
        | none => exact Or.inl rfl
        | some q =>
          right
          by_cases hqp : q = some p
          · rw [hqp]
          · exact absurd ⟨htag, q, hfind, hqp⟩ hA
      rw [bind_tag_relocate E scope inherited_flags s sc e p hsc hslot he htag hq]
      refine ⟨_, rfl, rfl, Or.inl ⟨?_, rfl⟩⟩
      simp [insert_anyway, assign_slot_length]
    · by_cases hty : e.flags &&& DEF_TYPED = 0
      · by_cases hcand : e.flags &&& DEF_TEMPLATE ≠ 0 ∧ function_candidate s.tp
        · rw [bind_template_overload E scope inherited_flags s sc e p hsc hslot he htag hty
            hcand.1 hcand.2]
          refine ⟨_, rfl, rfl, Or.inl ⟨?_, rfl⟩⟩
          simp [assign_slot_length]
        · exact absurd ⟨htag, hty, hcand⟩ hB
      · by_cases hfn : e.flags &&& DEF_FUNCTION = 0
        · rw [bind_reuse E scope inherited_flags s sc e p hsc hslot he htag hty hfn]
          exact ⟨_, rfl, rfl, Or.inr ⟨rfl, rfl, Or.inl rfl⟩⟩
        · by_cases hcand : function_candidate s.tp
          · rw [bind_function_overload E scope inherited_flags s sc e p hsc hslot he htag hty
              hfn hcand]
            simp only [definition_function.overload, deref_some he]
            cases hfind : find (arg_key.of_refs e.referencers) e.overloads with
            | some q => exact ⟨_, rfl, rfl, Or.inr ⟨rfl, rfl, Or.inr hfind.symm⟩⟩
            | none =>
              refine ⟨_, rfl, rfl, Or.inl ⟨?_, rfl⟩⟩
              simp
          · exact absurd ⟨htag, hty, hfn, hcand⟩ hC

/-- C3 (amended), redeclaration conflicts: with fatal errors on, when the name
already has a definition e in the scope, the binding block returns a non-zero
code exactly when (a) e is a tag and the tag namespace holds a different
definition under the name (code 1), or (b) e is no tag, is not typed, and is
not a template met by a function signature (code 3), or (c) e is no tag, is a
typed function, and the candidate is no function signature (code 4); in every
other case the block goes on to the trailing-token loop, and before a statement
terminator the call returns 0. -/
theorem redeclaration_conflicts (E : environment) (hfatal : E.FATAL_ERRORS = true)
    (scope inherited_flags fuel : Nat) (s : state) (sc e : definition) (p : Nat)
    (hsc : s.cp.heap[scope]? = some sc)
    (hname : s.tp.refs.name ≠ "")
    (hslot : find s.tp.refs.name sc.members = some (some p))
    (he : s.cp.heap[p]? = some e)
    (hterm : s.token.type = TT_SEMICOLON ∨ s.token.type = TT_ELLIPSIS) :
    ((∃ c s', bind_declarator E scope inherited_flags s = .ok (.ret c s') ∧ c ≠ 0)
      ↔ (tag_conflict s e p ∨ kind_conflict s e ∨ function_conflict s e)) ∧
    (∃ c s', handle_declarators E scope inherited_flags (fuel + 2) s = .ok (c, s') ∧
      (c ≠ 0 ↔ (tag_conflict s e p ∨ kind_conflict s e ∨ function_conflict s e)) ∧
      (tag_conflict s e p → c = 1) ∧ (kind_conflict s e → c = 3) ∧
      (function_conflict s e → c = 4)) := by
  obtain ⟨hA, hB, hC, hN⟩ :=
    bind_existing_outcome E hfatal scope inherited_flags s sc e p hsc hslot he
  have hAB : tag_conflict s e p → ¬ kind_conflict s e := fun a b => b.1 a.1
  have hAC : tag_conflict s e p → ¬ function_conflict s e := fun a c => c.1 a.1
  have hBC : kind_conflict s e → ¬ function_conflict s e := fun b c => c.2.1 b.2.1
  constructor
  · constructor
    · rintro ⟨c, s', hb, _⟩
      by_contra hcon
      simp only [not_or] at hcon
      obtain ⟨s2, h2, _⟩ := hN hcon.1 hcon.2.1 hcon.2.2
      rw [h2] at hb
      cases hb
    · rintro (h | h | h)
      · obtain ⟨s', h1, _⟩ := hA h
        exact ⟨1, s', h1, by decide⟩
      · obtain ⟨s', h1, _⟩ := hB h
        exact ⟨3, s', h1, by decide⟩
      · obtain ⟨s', h1, _⟩ := hC h
        exact ⟨4, s', h1, by decide⟩
  · rw [show fuel + 2 = (fuel + 1) + 1 from rfl,
      handle_declarators_named E scope inherited_flags (fuel + 1) s hname]
    by_cases h1 : tag_conflict s e p
    · obtain ⟨s', hb, _⟩ := hA h1
      rw [hb]
      exact ⟨1, s', rfl, ⟨fun _ => Or.inl h1, fun _ => by decide⟩, fun _ => rfl,
        fun h => absurd h (hAB h1), fun h => absurd h (hAC h1)⟩
    · by_cases h2 : kind_conflict s e
      · obtain ⟨s', hb, _⟩ := hB h2
        rw [hb]
        exact ⟨3, s', rfl, ⟨fun _ => Or.inr (Or.inl h2), fun _ => by decide⟩,
          fun h => absurd h h1, fun _ => rfl, fun h => absurd h (hBC h2)⟩
      · by_cases h3 : function_conflict s e
        · obtain ⟨s', hb, _⟩ := hC h3
          rw [hb]
          exact ⟨4, s', rfl, ⟨fun _ => Or.inr (Or.inr h3), fun _ => by decide⟩,
            fun h => absurd h h1, fun h => absurd h h2, fun _ => rfl⟩
        · obtain ⟨s2, hb, htok, _⟩ := hN h1 h2 h3
          rw [hb]
          refine ⟨0, s2, ?_, ?_, fun h => absurd h h1, fun h => absurd h h2,
            fun h => absurd h h3⟩
          · exact extra_loop_ends E scope _ fuel s2 (by rw [htok]; exact terminator_ends_loop hterm)
          · constructor
            · intro h; exact absurd rfl h
            · rintro (h | h | h)
              · exact absurd h h1
              · exact absurd h h2
              · exact absurd h h3

/-- Witness of C3: `int f;` over the existing function `f` is refused with code 4. -/
theorem redeclaration_conflicts_witness :
    ∃ c s', handle_declarators (sample_env sample_no_type sample_three) 0 0 2
        (sample_state_in (sample_store [("f", some 7)] [sample_function]) []
          ⟨some 2, ⟨"f", []⟩, 0⟩) = .ok (c, s') ∧ c = 4 := by
  obtain ⟨_, c, s', h1, _, _, _, h4⟩ :=
    redeclaration_conflicts (sample_env sample_no_type sample_three) rfl 0 0 0
      (sample_state_in (sample_store [("f", some 7)] [sample_function]) []
        ⟨some 2, ⟨"f", []⟩, 0⟩)
      { sample_definition "Foo" (DEF_CLASS ||| DEF_SCOPE ||| DEF_TYPENAME) with
        members := [("f", some 7)] }
      sample_function 7 rfl (by decide) rfl rfl (Or.inl rfl)
  exact ⟨c, s', h1, h4 (by decide)⟩

/-- Counterexample to C3 as stated: for `int Bar;` over the class `Bar`, whose
tag namespace slot is free, clause (b) of the claim holds (the existing
definition is not typed and is no template), yet the call returns 0. -/
theorem redeclaration_conflicts_counterexample :
    (sample_class.flags &&& DEF_TYPED = 0
      ∧ ¬ (sample_class.flags &&& DEF_TEMPLATE ≠ 0
          ∧ function_candidate ⟨some 2, ⟨"Bar", []⟩, 0⟩))
    ∧ ∃ s', handle_declarators (sample_env sample_no_type sample_three) 0 0 2
        (sample_state_in (sample_store [("Bar", some 7)] [sample_class]) []
          ⟨some 2, ⟨"Bar", []⟩, 0⟩) = .ok (0, s') := by
  refine ⟨by decide, _, rfl⟩

/-! ## Overloads -/

theorem redeclare_function (E : environment) (scope inherited_flags fuel : Nat) (s : state)
    (sc f : definition) (p g : Nat)
    (hsc : s.cp.heap[scope]? = some sc)
    (hname : s.tp.refs.name ≠ "")
    (hslot : find s.tp.refs.name sc.members = some (some p))
    (hf : s.cp.heap[p]? = some f)
    (htag : ¬ is_tag f) (htyped : f.flags &&& DEF_TYPED ≠ 0)
    (hfn : f.flags &&& DEF_FUNCTION ≠ 0)
    (hcand : function_candidate s.tp)
    (hown : find (arg_key.of_refs f.referencers) f.overloads = some g)
    (hterm : s.token.type = TT_SEMICOLON ∨ s.token.type = TT_ELLIPSIS) :
    handle_declarators E scope inherited_flags (fuel + 2) s
      = .ok (0, { s with res := some g }) := by
  rw [show fuel + 2 = (fuel + 1) + 1 from rfl,
    handle_declarators_named E scope inherited_flags (fuel + 1) s hname,
    bind_function_overload E scope inherited_flags s sc f p hsc hslot hf htag htyped hfn hcand]
  simp only [definition_function.overload, deref_some hf, hown]
  exact extra_loop_ends E scope _ fuel _ (terminator_ends_loop hterm)

/-- Redeclaration with the signature the function was recorded with: when the
name is bound in the scope to a function f and is declared again with a
function signature that is the one f was recorded with and that f's overload
set already holds, as overload g, the call returns 0 with `res = g`; the store
is untouched, so the overload set has the entries it had and the scope's slot
still maps to f. -/
theorem own_signature_redeclaration (E : environment)
    (scope inherited_flags fuel : Nat) (s : state) (sc f : definition) (p g : Nat)
    (hsc : s.cp.heap[scope]? = some sc)
    (hname : s.tp.refs.name ≠ "")
    (hslot : find s.tp.refs.name sc.members = some (some p))
    (hf : s.cp.heap[p]? = some f)
    (htag : ¬ is_tag f) (htyped : f.flags &&& DEF_TYPED ≠ 0)
    (hfn : f.flags &&& DEF_FUNCTION ≠ 0)
    (hcand : function_candidate s.tp)
    (hsame : arg_key.of_refs s.tp.refs = arg_key.of_refs f.referencers)
    (hsig : find (arg_key.of_refs s.tp.refs) f.overloads = some g)
    (hterm : s.token.type = TT_SEMICOLON ∨ s.token.type = TT_ELLIPSIS) :
    ∃ s', handle_declarators E scope inherited_flags (fuel + 2) s = .ok (0, s') ∧
      s'.res = some g ∧ s'.cp.heap = s.cp.heap ∧
      s'.cp.heap[p]? = some f ∧ s'.cp.heap[scope]? = some sc ∧
      find s.tp.refs.name sc.members = some (some p) ∧
      s'.cp.c_structs = s.cp.c_structs := by
  rw [hsame] at hsig
  exact ⟨{ s with res := some g },
    redeclare_function E scope inherited_flags fuel s sc f p g hsc hname hslot hf htag htyped
      hfn hcand hsig hterm,
    rfl, rfl, hf, hsc, hslot, rfl⟩

/-- The declaration `void f(int);` a second time, over the function that the
first declaration created at address 7. -/
theorem own_signature_redeclaration_sample :
    ∃ s', handle_declarators (sample_env sample_no_type sample_three) 0 0 2
        (sample_state_in (sample_store [("f", some 7)] [sample_function]) []
          ⟨some 1, ⟨"f", [ref_node.function [⟨some 2, 0⟩]]⟩, 0⟩) = .ok (0, s') ∧
      s'.res = some 7 ∧ s'.cp.heap = sample_store [("f", some 7)] [sample_function] := by
  obtain ⟨s', h1, h2, h3, _⟩ :=
    own_signature_redeclaration (sample_env sample_no_type sample_three) 0 0 0
      (sample_state_in (sample_store [("f", some 7)] [sample_function]) []
        ⟨some 1, ⟨"f", [ref_node.function [⟨some 2, 0⟩]]⟩, 0⟩)
      { sample_definition "Foo" (DEF_CLASS ||| DEF_SCOPE ||| DEF_TYPENAME) with
        members := [("f", some 7)] }
      sample_function 7 7 rfl (by decide) rfl rfl (by decide) (by decide) (by decide)
      (by decide) rfl rfl (Or.inl rfl)
  exact ⟨s', h1, h2, h3⟩

/-- C6, overload extension, on the failing input: after `Foo(int);` in class
`Foo`, the declaration `Foo(double);` returns 0 with `res` the constructor that
was already there (address 7); the store is unchanged, the overload set still
has its one entry, and none is keyed by the signature `(double)`. -/
theorem overload_extension_fails :
    ∃ s', handle_declarators (sample_env sample_no_type sample_three) 0 0 2
        (sample_state_in (sample_store [("<construct>", some 7)] [sample_constructor]) []
          ⟨some 0, ⟨"", [ref_node.function [⟨some 5, 0⟩]]⟩, 0⟩) = .ok (0, s') ∧
      s'.res = some 7 ∧
      s'.cp.heap = sample_store [("<construct>", some 7)] [sample_constructor] ∧
      (s'.cp.heap[7]?).map (fun d => d.overloads) = some [([⟨some 2, 0⟩], 7)] ∧
      (s'.cp.heap[7]?).map (fun d => find [⟨some 5, 0⟩] d.overloads) = some none :=
  ⟨_, rfl, rfl, rfl, rfl, rfl⟩

/-! ## Destructors -/

theorem single_function_iff (r : ref_stack) :
    (r.size = 1 ∧ r.top_is_function = true) ↔ ∃ ps, r.nodes = [ref_node.function ps] := by
  obtain ⟨name, nodes⟩ := r
  constructor
  · rintro ⟨h1, h2⟩
    match nodes, h1, h2 with
    | [n], _, h2 =>
      cases n with
      | function ps => exact ⟨ps, rfl⟩
      | pointer => simp [ref_stack.top_is_function, ref_stack.top, ref_node.type] at h2
      | reference => simp [ref_stack.top_is_function, ref_stack.top, ref_node.type] at h2
      | array b => simp [ref_stack.top_is_function, ref_stack.top, ref_node.type] at h2
  · rintro ⟨ps, h⟩
    simp only at h
    subst h
    exact ⟨rfl, rfl⟩

theorem dtor_shape_iff (scope : Nat) (tp : full_type) :
    dtor_shape scope tp = true ↔
      (tp.refs.name = "" ∧ tp.def_ = some scope ∧ tp.flags = 0
        ∧ ∃ ps, tp.refs.nodes = [ref_node.function ps]) := by
  rw [← single_function_iff]
  simp only [dtor_shape, Bool.and_eq_true, decide_eq_true_eq]
  tauto

theorem tilde_name_ne_empty (n : String) : "~" ++ n ≠ "" := by
  intro h
  have h2 := congrArg String.data h
  simp [String.data_append] at h2

theorem token_overload_dtor (E : environment) (scope inherited_flags fuel : Nat) (s : state)
    (sc : definition) (ps : List parameter)
    (htilde : s.token.type = TT_TILDE)
    (hn : (read_type_state E scope (advance s (some scope))).tp.refs.name = "")
    (hd : (read_type_state E scope (advance s (some scope))).tp.def_ = some scope)
    (hfl : (read_type_state E scope (advance s (some scope))).tp.flags = 0)
    (hr : (read_type_state E scope (advance s (some scope))).tp.refs.nodes
      = [ref_node.function ps])
    (hsc : (read_type_state E scope (advance s (some scope))).cp.heap[scope]? = some sc) :
    handle_declarators_token E scope inherited_flags fuel s =
      handle_declarators E scope inherited_flags fuel
        { read_type_state E scope (advance s (some scope)) with tp := dtor_type E sc.name ps } := by
  have hshape : dtor_shape scope (read_type_state E scope (advance s (some scope))).tp = true :=
    (dtor_shape_iff scope _).mpr ⟨hn, hd, hfl, ps, hr⟩
  simp only [read_type_state] at hn hd hfl hr hsc hshape ⊢
  simp only [handle_declarators_token, htilde, decide_True, if_true, hshape, deref_some hsc,
    dtor_type, hr, hfl]
  simp

theorem token_overload_junk (E : environment) (hfatal : E.FATAL_ERRORS = true)
    (scope inherited_flags fuel : Nat) (s : state)
    (htilde : s.token.type = TT_TILDE)
    (hbad : dtor_shape scope (read_type_state E scope (advance s (some scope))).tp = false) :
    handle_declarators_token E scope inherited_flags fuel s =
      .ok (1, report_error (read_type_state E scope (advance s (some scope)))
        "Junk destructor; remove tilde?") := by
  simp only [read_type_state] at hbad ⊢
  simp only [handle_declarators_token, htilde, decide_True, if_true, hbad, hfatal,
    Bool.false_eq_true, if_false]

theorem new_definition_function (this scope : Nat) (tp : full_type) (inherited_flags : Nat)
    (h : function_candidate tp) :
    new_definition this scope tp inherited_flags
      = definition_function.new this tp.refs.name scope tp.def_ tp.refs tp.flags
          (DEF_TYPED ||| inherited_flags) := by
  simp [new_definition, h.1, h.2]

theorem bind_fresh_function (E : environment) (scope inherited_flags fuel : Nat) (s : state)
    (sc : definition)
    (hsc : s.cp.heap[scope]? = some sc)
    (hname : s.tp.refs.name ≠ "")
    (hfresh : find s.tp.refs.name sc.members = none)
    (hfn : function_candidate s.tp)
    (hterm : s.token.type = TT_SEMICOLON ∨ s.token.type = TT_ELLIPSIS) :
    ∃ s' sc', handle_declarators E scope inherited_flags (fuel + 2) s = .ok (0, s') ∧
      s'.res = some s.cp.heap.length ∧
      s'.cp.heap[s.cp.heap.length]? = some
        (definition_function.new s.cp.heap.length s.tp.refs.name scope s.tp.def_ s.tp.refs
          s.tp.flags (DEF_TYPED ||| inherited_flags)) ∧
      s'.cp.heap[scope]? = some sc' ∧
      find s.tp.refs.name sc'.members = some (some s.cp.heap.length) ∧
      s'.cp.heap.length = s.cp.heap.length + 1 := by
  have hlt : scope < s.cp.heap.length := lt_of_getElem? hsc
  refine ⟨bound_fresh scope inherited_flags sc s,
    { sc with members := sc.members ++ [(s.tp.refs.name, some s.cp.heap.length)] },
    ?_, rfl, ?_, ?_, ?_, ?_⟩
  · rw [show fuel + 2 = (fuel + 1) + 1 from rfl,
      handle_declarators_named E scope inherited_flags (fuel + 1) s hname,
      bind_declarator_fresh E scope inherited_flags sc s hsc hfresh]
    exact extra_loop_ends E scope _ fuel _ (terminator_ends_loop hterm)
  · simp only [bound_fresh]
    rw [List.getElem?_append_right (by simp), new_definition_function _ _ _ _ hfn]
    simp
  · simp only [bound_fresh]
    rw [List.getElem?_append_left (by simpa using hlt), List.getElem?_set_self hlt]
  · show find s.tp.refs.name (sc.members ++ [(s.tp.refs.name, some s.cp.heap.length)]) = _
    rw [find_append_single _ _ _ _ hfresh, if_pos rfl]
  · simp [bound_fresh]

/-- C7, destructor detection: entered on a `~` token with fatal errors on, when
the type read after the tilde has an empty name, the scope as base type, no
flags and exactly one function signature, the call goes on as the descriptor
overload does on the name `~` followed by the scope's name with base type
builtin void, and where that name is free and a terminator follows it returns 0
with that definition entered under that name; when any of the four conditions
fails, the call reports the junk-destructor error, returns 1, and the store,
the tag namespace and `res` are as the type reader left them. -/
theorem destructor_detection (E : environment) (hfatal : E.FATAL_ERRORS = true)
    (scope inherited_flags fuel : Nat) (s : state)
    (htilde : s.token.type = TT_TILDE) :
    (∀ (sc : definition) (ps : List parameter),
      (read_type_state E scope (advance s (some scope))).tp.refs.name = "" →
      (read_type_state E scope (advance s (some scope))).tp.def_ = some scope →
      (read_type_state E scope (advance s (some scope))).tp.flags = 0 →
      (read_type_state E scope (advance s (some scope))).tp.refs.nodes
        = [ref_node.function ps] →
      (read_type_state E scope (advance s (some scope))).cp.heap[scope]? = some sc →
      handle_declarators_token E scope inherited_flags (fuel + 2) s =
        handle_declarators E scope inherited_flags (fuel + 2)
          { read_type_state E scope (advance s (some scope)) with
            tp := dtor_type E sc.name ps } ∧
      (find ("~" ++ sc.name) sc.members = none →
        ((read_type_state E scope (advance s (some scope))).token.type = TT_SEMICOLON
          ∨ (read_type_state E scope (advance s (some scope))).token.type = TT_ELLIPSIS) →
        ∃ s' sc', handle_declarators_token E scope inherited_flags (fuel + 2) s = .ok (0, s') ∧
          s'.res = some (read_type_state E scope (advance s (some scope))).cp.heap.length ∧
          s'.cp.heap[(read_type_state E scope (advance s (some scope))).cp.heap.length]? = some
            (definition_function.new
              (read_type_state E scope (advance s (some scope))).cp.heap.length
              ("~" ++ sc.name) scope (some E.builtin_type__void)
              ⟨"~" ++ sc.name, [ref_node.function ps]⟩ 0 (DEF_TYPED ||| inherited_flags)) ∧
          s'.cp.heap[scope]? = some sc' ∧
          find ("~" ++ sc.name) sc'.members
            = some (some (read_type_state E scope (advance s (some scope))).cp.heap.length))) ∧
    (¬ ((read_type_state E scope (advance s (some scope))).tp.refs.name = "" ∧
        (read_type_state E scope (advance s (some scope))).tp.def_ = some scope ∧
        (read_type_state E scope (advance s (some scope))).tp.flags = 0 ∧
        ∃ ps, (read_type_state E scope (advance s (some scope))).tp.refs.nodes
          = [ref_node.function ps]) →
      ∃ s', handle_declarators_token E scope inherited_flags fuel s = .ok (1, s') ∧
        s'.cp.heap = (read_type_state E scope (advance s (some scope))).cp.heap ∧
        s'.cp.c_structs = (read_type_state E scope (advance s (some scope))).cp.c_structs ∧
        s'.cp.herr = (read_type_state E scope (advance s (some scope))).cp.herr
          ++ [⟨severity.error, "Junk destructor; remove tilde?"⟩] ∧
        s'.res = s.res) := by
  constructor
  · intro sc ps hn hd hfl hr hsc
    have heq := token_overload_dtor E scope inherited_flags (fuel + 2) s sc ps htilde hn hd hfl
      hr hsc
    refine ⟨heq, ?_⟩
    intro hfresh hterm
    rw [heq]
    obtain ⟨s', sc', h1, h2, h3, h4, h5, _⟩ :=
      bind_fresh_function E scope inherited_flags fuel
        { read_type_state E scope (advance s (some scope)) with tp := dtor_type E sc.name ps }
        sc hsc (tilde_name_ne_empty sc.name) hfresh ⟨rfl, rfl⟩ hterm
    exact ⟨s', sc', h1, h2, h3, h4, h5⟩
  · intro hbad
    have hshape : dtor_shape scope (read_type_state E scope (advance s (some scope))).tp
        = false := by
      cases hds : dtor_shape scope (read_type_state E scope (advance s (some scope))).tp with
      | false => rfl
      | true => exact absurd ((dtor_shape_iff scope _).mp hds) hbad
    rw [token_overload_junk E hfatal scope inherited_flags fuel s htilde hshape]
    exact ⟨_, rfl, rfl, rfl, rfl, rfl⟩

/-- Witness of C7: `~Bar();` inside class `Foo`: the type reader answers with
base type `Bar` (address 7), and the call returns 1 leaving the store alone. -/
theorem destructor_detection_witness :
    ∃ s', handle_declarators_token
        (sample_env ⟨some 7, ⟨"", [ref_node.function []]⟩, 0⟩ sample_three) 0 0 2
        (sample_state [semicolon] ⟨TT_TILDE, "~", none⟩ sample_no_type) = .ok (1, s') ∧
      s'.cp.heap = sample_heap ∧
      s'.cp.herr = [⟨severity.error, "Junk destructor; remove tilde?"⟩] := by
  obtain ⟨s', h1, h2, _, h4, _⟩ :=
    (destructor_detection (sample_env ⟨some 7, ⟨"", [ref_node.function []]⟩, 0⟩ sample_three)
      rfl 0 0 2 (sample_state [semicolon] ⟨TT_TILDE, "~", none⟩ sample_no_type) rfl).2
      (fun h => absurd h.2.1 (by decide))
  exact ⟨s', h1, h2, h4⟩

/-- C8 (amended), destructor parameters: the destructor test does not look at
the parameter list.  Entered on a `~` token, when the type read after the tilde
has an empty name, the scope as base type, no flags and exactly one function
signature with one or more parameters (as in `~Foo(int);`), the declaration is
taken as a destructor: where `~` followed by the scope's name is free and a
terminator follows, the call returns 0 and a function named so, with base type
builtin void and that parameter list, is entered in the scope. -/
theorem destructor_with_parameters (E : environment)
    (scope inherited_flags fuel : Nat) (s : state) (sc : definition)
    (q : parameter) (ps : List parameter)
    (htilde : s.token.type = TT_TILDE)
    (hn : (read_type_state E scope (advance s (some scope))).tp.refs.name = "")
    (hd : (read_type_state E scope (advance s (some scope))).tp.def_ = some scope)
    (hfl : (read_type_state E scope (advance s (some scope))).tp.flags = 0)
    (hr : (read_type_state E scope (advance s (some scope))).tp.refs.nodes
      = [ref_node.function (q :: ps)])
    (hsc : (read_type_state E scope (advance s (some scope))).cp.heap[scope]? = some sc)
    (hfresh : find ("~" ++ sc.name) sc.members = none)
    (hterm : (read_type_state E scope (advance s (some scope))).token.type = TT_SEMICOLON
      ∨ (read_type_state E scope (advance s (some scope))).token.type = TT_ELLIPSIS) :
    ∃ s' sc', handle_declarators_token E scope inherited_flags (fuel + 2) s = .ok (0, s') ∧
      s'.res = some (read_type_state E scope (advance s (some scope))).cp.heap.length ∧
      s'.cp.heap[(read_type_state E scope (advance s (some scope))).cp.heap.length]? = some
        (definition_function.new
          (read_type_state E scope (advance s (some scope))).cp.heap.length
          ("~" ++ sc.name) scope (some E.builtin_type__void)
          ⟨"~" ++ sc.name, [ref_node.function (q :: ps)]⟩ 0 (DEF_TYPED ||| inherited_flags)) ∧
      s'.cp.heap[scope]? = some sc' ∧
      find ("~" ++ sc.name) sc'.members
        = some (some (read_type_state E scope (advance s (some scope))).cp.heap.length) := by
  rw [token_overload_dtor E scope inherited_flags (fuel + 2) s sc (q :: ps) htilde hn hd hfl
    hr hsc]
  obtain ⟨s', sc', h1, h2, h3, h4, h5, _⟩ :=
    bind_fresh_function E scope inherited_flags fuel
      { read_type_state E scope (advance s (some scope)) with
        tp := dtor_type E sc.name (q :: ps) }
      sc hsc (tilde_name_ne_empty sc.name) hfresh ⟨rfl, rfl⟩ hterm
  exact ⟨s', sc', h1, h2, h3, h4, h5⟩

/-- Witness of C8 (amended): `~Foo(int);` inside class `Foo`. -/
theorem destructor_with_parameters_witness :
    ∃ s' sc', handle_declarators_token
        (sample_env ⟨some 0, ⟨"", [ref_node.function [⟨some 2, 0⟩]]⟩, 0⟩ sample_three) 0 0 2
        (sample_state [semicolon] ⟨TT_TILDE, "~", none⟩ sample_no_type) = .ok (0, s') ∧
      s'.res = some 7 ∧
      s'.cp.heap[7]? = some (definition_function.new 7 "~Foo" 0 (some 1)
        ⟨"~Foo", [ref_node.function [⟨some 2, 0⟩]]⟩ 0 DEF_TYPED) ∧
      s'.cp.heap[0]? = some sc' ∧ find "~Foo" sc'.members = some (some 7) :=
  destructor_with_parameters
    (sample_env ⟨some 0, ⟨"", [ref_node.function [⟨some 2, 0⟩]]⟩, 0⟩ sample_three) 0 0 0
    (sample_state [semicolon] ⟨TT_TILDE, "~", none⟩ sample_no_type)
    (sample_definition "Foo" (DEF_CLASS ||| DEF_SCOPE ||| DEF_TYPENAME)) ⟨some 2, 0⟩ []
    rfl rfl rfl rfl rfl rfl (by decide) (Or.inl rfl)

/-- Counterexample to C8 as stated: `~Foo(int);` inside class `Foo` is not
rejected; the call returns 0 and a definition named `~Foo` is created. -/
theorem destructor_parameters_counterexample :
    ∃ s', handle_declarators_token
        (sample_env ⟨some 0, ⟨"", [ref_node.function [⟨some 2, 0⟩]]⟩, 0⟩ sample_three) 0 0 2
        (sample_state [semicolon] ⟨TT_TILDE, "~", none⟩ sample_no_type) = .ok (0, s') ∧
      (s'.cp.heap[7]?).map (fun d => d.name) = some "~Foo" ∧
      (s'.cp.heap[0]?).map (fun d => find "~Foo" d.members) = some (some (some 7)) :=
  ⟨_, rfl, rfl, rfl⟩

/-! ## Constructors -/

theorem and_not_eq_zero_iff (a m : Nat) :
    and_not a m = 0 ↔ ∀ i, a.testBit i = true → m.testBit i = true := by
  unfold and_not
  constructor
  · intro h i hi
    have hb := congrArg (fun n => n.testBit i) h
    simp only [Nat.testBit_xor, Nat.testBit_and, Nat.zero_testBit, hi, Bool.true_and] at hb
    cases hm : m.testBit i
    · rw [hm] at hb; simp at hb
    · rfl
  · intro h
    apply Nat.eq_of_testBit_eq
    intro i
    simp only [Nat.testBit_xor, Nat.testBit_and, Nat.zero_testBit]
    cases ha : a.testBit i
    · rfl
    · simp [h i ha]

theorem potentialc_eq (heap : List definition) (scope : Nat) (sc t : definition)
    (tp : full_type) (hsc : heap[scope]? = some sc) (ht : deref heap tp.def_ = .ok t) :
    potentialc heap scope tp = .ok (decide (ctor_base scope sc t tp)) := by
  unfold potentialc ctor_base
  by_cases h1 : tp.def_ = some scope
  · simp [h1]
  · simp only [h1, if_false, deref_some hsc, ht, false_or]
    by_cases h2 : sc.flags &&& DEF_TEMPSCOPE ≠ 0 ∧ tp.def_ = sc.parent
    · rw [if_pos h2]
      simp [h2]
    · rw [if_neg h2]
      simp [h2]

theorem ctor_shape_iff (E : environment) (tp : full_type) :
    ctor_shape E tp = true ↔ (ctor_flags E tp ∧ ctor_refs tp) := by
  unfold ctor_flags ctor_refs
  rw [← single_function_iff, ← and_not_eq_zero_iff]
  simp only [ctor_shape, Bool.and_eq_true, decide_eq_true_eq]
  tauto

theorem anonname_ne_construct (n : Nat) : anonname n ≠ "<construct>" := by
  intro h
  have h2 := congrArg String.data h
  simp [anonname, String.data_append] at h2

theorem classify_ctor (E : environment) (scope fuel : Nat) (s : state) (sc t : definition)
    (hname : s.tp.refs.name = "")
    (hsc : s.cp.heap[scope]? = some sc) (ht : deref s.cp.heap s.tp.def_ = .ok t)
    (hcond : ctor_base scope sc t s.tp ∧ ctor_flags E s.tp ∧ ctor_refs s.tp) :
    classify E scope fuel s =
      if s.token.type = TT_COLON then skip_initializers E scope fuel (named_construct s)
      else .ok (.bind (named_construct s)) := by
  have hshape : ctor_shape E s.tp = true := (ctor_shape_iff E s.tp).mpr ⟨hcond.2.1, hcond.2.2⟩
  simp only [classify, hname, if_true, potentialc_eq s.cp.heap scope sc t s.tp hsc ht,
    hcond.1, decide_True, hshape, Bool.and_self, named_construct]

theorem classify_not_ctor (E : environment) (scope fuel : Nat) (s : state) (sc t : definition)
    (hname : s.tp.refs.name = "")
    (hsc : s.cp.heap[scope]? = some sc) (ht : deref s.cp.heap s.tp.def_ = .ok t)
    (hcond : ¬ (ctor_base scope sc t s.tp ∧ ctor_flags E s.tp ∧ ctor_refs s.tp)) :
    classify E scope fuel s =
      if s.token.type = TT_COLON then
        if sc.flags &&& DEF_CLASS ≠ 0 then
          .ok (.bind { s with tp := { s.tp with refs :=
            { s.tp.refs with name := anonname s.anon_count } } })
        else
          .ok (.bind (report_warning s
            "Declaration without name is meaningless outside of a class"))
      else if s.token.type = TT_DEFINITION ∨ s.token.type = TT_DECLARATOR then
        match rescope E scope fuel s.token.def_ (advance s (some scope)) with
        | .error e => .error e
        | .ok (.ret c s1) => .ok (.ret c s1)
        | .ok (.at_def d s1) =>
          match read_post E scope d s1 with
          | .error e => .error e
          | .ok s2 => .ok (.extra s2)
      else .ok (.ret 0 s) := by
  have hno : (decide (ctor_base scope sc t s.tp) && ctor_shape E s.tp) = false := by
    cases hb : decide (ctor_base scope sc t s.tp)
    · rfl
    · cases hs : ctor_shape E s.tp
      · rfl
      · exact absurd ⟨of_decide_eq_true hb, (ctor_shape_iff E s.tp).mp hs⟩ hcond
  simp only [classify, hname, if_true, potentialc_eq s.cp.heap scope sc t s.tp hsc ht, hno,
    Bool.false_eq_true, if_false, deref_some hsc]

theorem handle_declarators_bind (E : environment) (scope inherited_flags fuel : Nat)
    (s s1 : state) (h : classify E scope fuel s = .ok (.bind s1)) :
    handle_declarators E scope inherited_flags (fuel + 1) s =
      match bind_declarator E scope inherited_flags s1 with
      | .error e => .error e
      | .ok (.ret c s2) => .ok (c, s2)
      | .ok (.extra s2) =>
        extra_loop E scope (handle_declarators E scope inherited_flags fuel) fuel s2 := by
  simp only [handle_declarators, h]

/-- C9, constructor classification: with an empty declared name, a valid scope
and a valid base type, the declarator is named `<construct>` and handed to the
binding block exactly when (1) the base type is the scope, or the scope is a
template-parameter scope whose parent is the base type, or the base type is a
template whose definition is the scope, (2) no flag other than `explicit` and
`virtual` is set, and (3) the referencer stack is exactly one function
signature.  When the three hold and no `:` follows, the block is entered with
that name (after a `:` the initializer skip runs first); when one fails, nothing
that reaches the binding block is named `<construct>`.  When the three hold,
`<construct>` is free and a terminator follows, the call returns 0 with the
function entered under `<construct>`. -/
theorem constructor_classification (E : environment) (scope inherited_flags fuel : Nat)
    (s : state) (sc t : definition)
    (hname : s.tp.refs.name = "")
    (hsc : s.cp.heap[scope]? = some sc)
    (ht : deref s.cp.heap s.tp.def_ = .ok t) :
    ((ctor_base scope sc t s.tp ∧ ctor_flags E s.tp ∧ ctor_refs s.tp) →
      (s.token.type ≠ TT_COLON →
        classify E scope fuel s = .ok (.bind (named_construct s))) ∧
      (s.token.type = TT_COLON →
        classify E scope fuel s = skip_initializers E scope fuel (named_construct s)) ∧
      (find "<construct>" sc.members = none →
        (s.token.type = TT_SEMICOLON ∨ s.token.type = TT_ELLIPSIS) →
        ∃ s' sc', handle_declarators E scope inherited_flags (fuel + 2) s = .ok (0, s') ∧
          s'.res = some s.cp.heap.length ∧
          s'.cp.heap[s.cp.heap.length]? = some
            (definition_function.new s.cp.heap.length "<construct>" scope s.tp.def_
              { s.tp.refs with name := "<construct>" } s.tp.flags
              (DEF_TYPED ||| inherited_flags)) ∧
          s'.cp.heap[scope]? = some sc' ∧
          find "<construct>" sc'.members = some (some s.cp.heap.length))) ∧
    (¬ (ctor_base scope sc t s.tp ∧ ctor_flags E s.tp ∧ ctor_refs s.tp) →
      ∀ s', classify E scope fuel s = .ok (.bind s') → s'.tp.refs.name ≠ "<construct>") := by
  constructor
  · intro hcond
    have hc := classify_ctor E scope fuel s sc t hname hsc ht hcond
    refine ⟨fun hne => by rw [hc, if_neg hne], fun he => by rw [hc, if_pos he], ?_⟩
    intro hfresh hterm
    have hne : s.token.type ≠ TT_COLON := by
      rcases hterm with h | h <;> rw [h] <;> decide
    have hc1 : classify E scope (fuel + 1) s = .ok (.bind (named_construct s)) := by
      rw [classify_ctor E scope (fuel + 1) s sc t hname hsc ht hcond, if_neg hne]
    obtain ⟨ps, hps⟩ := hcond.2.2
    have hfn : function_candidate (named_construct s).tp := by
      simp only [named_construct, hps]
      exact ⟨rfl, rfl⟩
    rw [show fuel + 2 = (fuel + 1) + 1 from rfl,
      handle_declarators_bind E scope inherited_flags (fuel + 1) s _ hc1,
      bind_declarator_fresh E scope inherited_flags sc (named_construct s) hsc hfresh]
    have hlt : scope < s.cp.heap.length := lt_of_getElem? hsc
    refine ⟨bound_fresh scope inherited_flags sc (named_construct s),
      { sc with members := sc.members ++ [("<construct>", some s.cp.heap.length)] },
      extra_loop_ends E scope _ fuel _ (terminator_ends_loop hterm), rfl, ?_, ?_, ?_⟩
    · simp only [bound_fresh]
      rw [List.getElem?_append_right (by simp [named_construct]),
        new_definition_function _ _ _ _ hfn]
      simp [named_construct]
    · simp only [bound_fresh]
      show (s.cp.heap.set scope _ ++ _)[scope]? = _
      rw [List.getElem?_append_left (by simpa using hlt), List.getElem?_set_self hlt]
      rfl
    · show find "<construct>" (sc.members ++ [("<construct>", some s.cp.heap.length)]) = _
      rw [find_append_single _ _ _ _ hfresh, if_pos rfl]
  · intro hcond s' hs'
    rw [classify_not_ctor E scope fuel s sc t hname hsc ht hcond] at hs'
    by_cases hcolon : s.token.type = TT_COLON
    · rw [if_pos hcolon] at hs'
      by_cases hclass : sc.flags &&& DEF_CLASS ≠ 0
      · rw [if_pos hclass] at hs'
        cases hs'
        exact anonname_ne_construct _
      · rw [if_neg hclass] at hs'
        cases hs'
        show s.tp.refs.name ≠ _
        rw [hname]
        decide
    · rw [if_neg hcolon] at hs'
      by_cases hdef : s.token.type = TT_DEFINITION ∨ s.token.type = TT_DECLARATOR
      · rw [if_pos hdef] at hs'
        cases hrs : rescope E scope fuel s.token.def_ (advance s (some scope)) with
        | error e => rw [hrs] at hs'; cases hs'
        | ok r =>
          rw [hrs] at hs'
          cases r with
          | ret c s1 => cases hs'
          | at_def d s1 =>
            simp only at hs'
            cases hrp : read_post E scope d s1 with
            | error e => rw [hrp] at hs'; cases hs'
            | ok s2 => rw [hrp] at hs'; cases hs'
      · rw [if_neg hdef] at hs'
        cases hs'

/-- Witness of C9: `Foo(int);` inside class `Foo` is named `<construct>`. -/
theorem constructor_classification_witness :
    classify (sample_env sample_no_type sample_three) 0 1
        (sample_state [] semicolon ⟨some 0, ⟨"", [ref_node.function [⟨some 2, 0⟩]]⟩, 0⟩)
      = .ok (.bind (named_construct
        (sample_state [] semicolon ⟨some 0, ⟨"", [ref_node.function [⟨some 2, 0⟩]]⟩, 0⟩))) :=
  ((constructor_classification (sample_env sample_no_type sample_three) 0 0 1
    (sample_state [] semicolon ⟨some 0, ⟨"", [ref_node.function [⟨some 2, 0⟩]]⟩, 0⟩)
    (sample_definition "Foo" (DEF_CLASS ||| DEF_SCOPE ||| DEF_TYPENAME))
    (sample_definition "Foo" (DEF_CLASS ||| DEF_SCOPE ||| DEF_TYPENAME))
    rfl rfl rfl).1
    ⟨Or.inl rfl, (and_not_eq_zero_iff _ _).mp rfl, ⟨_, rfl⟩⟩).1 (by decide)

/-! ## Tag relocation -/

theorem insert_anyway_heap (scope inherited_flags : Nat) (s : state) (sc : definition)
    (hsc : s.cp.heap[scope]? = some sc) :
    (insert_anyway scope inherited_flags s).cp.heap =
      s.cp.heap.set scope
          { sc with members := assign s.tp.refs.name (some s.cp.heap.length) sc.members }
        ++ [new_definition s.cp.heap.length scope s.tp inherited_flags] := by
  have hlt : scope < s.cp.heap.length := lt_of_getElem? hsc
  simp only [insert_anyway, assign_slot]
  rw [List.getElem?_append_left hlt, hsc]
  simp only [List.set_append_left _ _ hlt]

/-- C10, tag relocation: when the name is bound in the scope to a class, union
or enum tag c, and the tag namespace has no entry for the name or already maps
it to c, declaring a value of that name before a terminator returns 0;
afterwards the scope maps the name to the newly created definition, the tag
namespace maps the name to c, the object c is still in the store, and no other
name changes in either map. -/
theorem tag_relocation (E : environment) (scope inherited_flags fuel : Nat) (s : state)
    (sc c : definition) (p : Nat)
    (hsc : s.cp.heap[scope]? = some sc)
    (hname : s.tp.refs.name ≠ "")
    (hslot : find s.tp.refs.name sc.members = some (some p))
    (hc : s.cp.heap[p]? = some c) (htag : is_tag c)
    (hq : find s.tp.refs.name s.cp.c_structs = none
      ∨ find s.tp.refs.name s.cp.c_structs = some (some p))
    (hterm : s.token.type = TT_SEMICOLON ∨ s.token.type = TT_ELLIPSIS) :
    ∃ s' sc', handle_declarators E scope inherited_flags (fuel + 2) s = .ok (0, s') ∧
      s'.res = some s.cp.heap.length ∧
      s'.cp.heap[s.cp.heap.length]? = some
        (new_definition s.cp.heap.length scope s.tp inherited_flags) ∧
      s'.cp.heap[scope]? = some sc' ∧
      find s.tp.refs.name sc'.members = some (some s.cp.heap.length) ∧
      find s.tp.refs.name s'.cp.c_structs = some (some p) ∧
      (p ≠ scope → s'.cp.heap[p]? = some c) ∧
      (∃ c', s'.cp.heap[p]? = some c' ∧ c'.name = c.name ∧ c'.flags = c.flags) ∧
      (∀ m, m ≠ s.tp.refs.name → find m sc'.members = find m sc.members) ∧
      (∀ m, m ≠ s.tp.refs.name → find m s'.cp.c_structs = find m s.cp.c_structs) := by
  have hlt : scope < s.cp.heap.length := lt_of_getElem? hsc
  have hpl : p < s.cp.heap.length := lt_of_getElem? hc
  let s1 : state :=
    { s with cp := { s.cp with
        c_structs := (declare_c_struct s.cp.c_structs s.tp.refs.name (some p)).2 } }
  have hheap : (insert_anyway scope inherited_flags s1).cp.heap =
      s.cp.heap.set scope
          { sc with members := assign s.tp.refs.name (some s.cp.heap.length) sc.members }
        ++ [new_definition s.cp.heap.length scope s.tp inherited_flags] :=
    insert_anyway_heap scope inherited_flags s1 sc hsc
  refine ⟨insert_anyway scope inherited_flags s1,
    { sc with members := assign s.tp.refs.name (some s.cp.heap.length) sc.members },
    ?_, rfl, ?_, ?_, ?_, ?_, ?_, ?_, ?_, ?_⟩
  · rw [show fuel + 2 = (fuel + 1) + 1 from rfl,
      handle_declarators_named E scope inherited_flags (fuel + 1) s hname,
      bind_tag_relocate E scope inherited_flags s sc c p hsc hslot hc htag hq]
    exact extra_loop_ends E scope _ fuel _ (terminator_ends_loop hterm)
  · rw [hheap, List.getElem?_append_right (by simp)]
    simp
  · rw [hheap, List.getElem?_append_left (by simpa using hlt), List.getElem?_set_self hlt]
  · show find s.tp.refs.name (assign s.tp.refs.name (some s.cp.heap.length) sc.members) = _
    rw [find_assign, if_pos rfl, hslot]
    rfl
  · show find s.tp.refs.name (declare_c_struct s.cp.c_structs s.tp.refs.name (some p)).2 = _
    rcases hq with hq | hq
    · simp only [declare_c_struct, hq]
      rw [find_append_single _ _ _ _ hq, if_pos rfl]
    · simp only [declare_c_struct, hq]
  · intro hne
    rw [hheap, List.getElem?_append_left (by simpa using hpl),
      List.getElem?_set_ne (Ne.symm hne), hc]
  · by_cases hps : p = scope
    · subst hps
      rw [hheap, List.getElem?_append_left (by simpa using hlt), List.getElem?_set_self hlt]
      have hcs : c = sc := Option.some.inj (hc.symm.trans hsc)
      subst hcs
      exact ⟨_, rfl, rfl, rfl⟩
    · rw [hheap, List.getElem?_append_left (by simpa using hpl),
        List.getElem?_set_ne (Ne.symm hps), hc]
      exact ⟨c, rfl, rfl, rfl⟩
  · intro m hm
    show find m (assign s.tp.refs.name (some s.cp.heap.length) sc.members) = _
    rw [find_assign, if_neg hm]
  · intro m hm
    show find m (declare_c_struct s.cp.c_structs s.tp.refs.name (some p)).2 = _
    rcases hq with hq | hq
    · simp only [declare_c_struct, hq]
      rw [find_append_single _ _ _ _ hq, if_neg hm]
    · simp only [declare_c_struct, hq]

/-- Witness of C10: `int Bar;` over the class `Bar` held at address 7. -/
theorem tag_relocation_witness :
    ∃ s' sc', handle_declarators (sample_env sample_no_type sample_three) 0 0 2
        (sample_state_in (sample_store [("Bar", some 7)] [sample_class]) []
          ⟨some 2, ⟨"Bar", []⟩, 0⟩) = .ok (0, s') ∧
      s'.res = some 8 ∧
      s'.cp.heap[0]? = some sc' ∧ find "Bar" sc'.members = some (some 8) ∧
      find "Bar" s'.cp.c_structs = some (some 7) ∧
      s'.cp.heap[7]? = some sample_class := by
  obtain ⟨s', sc', h1, h2, _, h4, h5, h6, h7, _⟩ :=
    tag_relocation (sample_env sample_no_type sample_three) 0 0 0
      (sample_state_in (sample_store [("Bar", some 7)] [sample_class]) []
        ⟨some 2, ⟨"Bar", []⟩, 0⟩)
      { sample_definition "Foo" (DEF_CLASS ||| DEF_SCOPE ||| DEF_TYPENAME) with
        members := [("Bar", some 7)] }
      sample_class 7 rfl (by decide) rfl rfl (by decide) (Or.inl rfl) (Or.inl rfl)
  exact ⟨s', sc', h1, h2, h4, h5, h6, h7 (by decide)⟩

/-! ## Reuse of a plain value -/

/-- C11, reuse of an existing plain value: when the name is bound in the scope
to a typed definition e that is neither a function nor a class, union or enum
tag, the binding block creates nothing: whatever the descriptor's base type and
referencer shape, it leaves the parser object (store, tag namespace, cursor,
diagnostics) as it was and sets `res` to e; before a statement terminator the
call returns 0 in that state, e itself being unchanged. -/
theorem reuse_existing_value (E : environment) (scope inherited_flags fuel : Nat) (s : state)
    (sc e : definition) (p : Nat)
    (hsc : s.cp.heap[scope]? = some sc)
    (hname : s.tp.refs.name ≠ "")
    (hslot : find s.tp.refs.name sc.members = some (some p))
    (he : s.cp.heap[p]? = some e) (htag : ¬ is_tag e)
    (htyped : e.flags &&& DEF_TYPED ≠ 0) (hfn : e.flags &&& DEF_FUNCTION = 0) :
    bind_declarator E scope inherited_flags s = .ok (.extra { s with res := some p }) ∧
    ((s.token.type = TT_SEMICOLON ∨ s.token.type = TT_ELLIPSIS) →
      ∃ s', handle_declarators E scope inherited_flags (fuel + 2) s = .ok (0, s') ∧
        s'.res = some p ∧ s'.cp = s.cp ∧ s'.cp.heap[scope]? = some sc ∧
        s'.cp.heap[p]? = some e ∧ s'.token = s.token ∧ s'.tp = s.tp) := by
  have hb := bind_reuse E scope inherited_flags s sc e p hsc hslot he htag htyped hfn
  refine ⟨hb, fun hterm => ⟨{ s with res := some p }, ?_, rfl, rfl, hsc, he, rfl, rfl⟩⟩
  rw [show fuel + 2 = (fuel + 1) + 1 from rfl,
    handle_declarators_named E scope inherited_flags (fuel + 1) s hname, hb]
  exact extra_loop_ends E scope _ fuel _ (terminator_ends_loop hterm)

/-- Witness of C11: `double *x;` over the value `int x` held at address 7. -/
theorem reuse_existing_value_witness :
    ∃ s', handle_declarators (sample_env sample_no_type sample_three) 0 0 2
        (sample_state_in (sample_store [("x", some 7)] [sample_value]) []
          ⟨some 5, ⟨"x", [ref_node.pointer]⟩, 0⟩) = .ok (0, s') ∧
      s'.res = some 7 ∧
      s'.cp.heap = sample_store [("x", some 7)] [sample_value] := by
  obtain ⟨s', h1, h2, h3, _⟩ :=
    (reuse_existing_value (sample_env sample_no_type sample_three) 0 0 0
      (sample_state_in (sample_store [("x", some 7)] [sample_value]) []
        ⟨some 5, ⟨"x", [ref_node.pointer]⟩, 0⟩)
      { sample_definition "Foo" (DEF_CLASS ||| DEF_SCOPE ||| DEF_TYPENAME) with
        members := [("x", some 7)] }
      sample_value 7 rfl (by decide) rfl rfl (by decide) (by decide) (by decide)).2
      (Or.inl rfl)
  exact ⟨s', h1, h2, by rw [h3]; rfl⟩

/-! ## No declaration, and the ways out of the trailing loop -/

/-- C15, not a declaration: with an empty declared name, a valid scope and base
type, a declarator that is not a constructor and a current token that is none
of `:`, a definition token and a declarator token, the descriptor overload
returns 0 and hands back the very state it was given: token, cursor, store,
descriptor (its name still empty) and `res` are untouched. -/
theorem not_a_declaration (E : environment) (scope inherited_flags fuel : Nat)
    (s : state) (sc t : definition)
    (hname : s.tp.refs.name = "")
    (hsc : s.cp.heap[scope]? = some sc)
    (ht : deref s.cp.heap s.tp.def_ = .ok t)
    (hnot : ¬ (ctor_base scope sc t s.tp ∧ ctor_flags E s.tp ∧ ctor_refs s.tp))
    (hcolon : s.token.type ≠ TT_COLON)
    (hdef : s.token.type ≠ TT_DEFINITION) (hdecl : s.token.type ≠ TT_DECLARATOR) :
    handle_declarators E scope inherited_flags (fuel + 1) s = .ok (0, s) := by
  have hc := classify_not_ctor E scope fuel s sc t hname hsc ht hnot
  have hor : ¬ (s.token.type = TT_DEFINITION ∨ s.token.type = TT_DECLARATOR) := by
    rintro (h | h)
    · exact hdef h
    · exact hdecl h
  rw [if_neg hcolon, if_neg hor] at hc
  simp only [handle_declarators, hc]

/-- Witness of C15: `int` followed by `*=` declares nothing in class `Foo`. -/
theorem not_a_declaration_witness :
    handle_declarators (sample_env sample_no_type sample_three) 0 0 1
        (sample_state [] ⟨TT_OPERATOR, "*=", none⟩ ⟨some 2, ⟨"", []⟩, 0⟩)
      = .ok (0, sample_state [] ⟨TT_OPERATOR, "*=", none⟩ ⟨some 2, ⟨"", []⟩, 0⟩) :=
  not_a_declaration (sample_env sample_no_type sample_three) 0 0 0
    (sample_state [] ⟨TT_OPERATOR, "*=", none⟩ ⟨some 2, ⟨"", []⟩, 0⟩)
    (sample_definition "Foo" (DEF_CLASS ||| DEF_SCOPE ||| DEF_TYPENAME))
    (sample_definition "int" DEF_TYPENAME) rfl rfl rfl
    (fun h => absurd h.2.2 (by rintro ⟨ps, hps⟩; cases hps))
    (by decide) (by decide) (by decide)

theorem handle_declarators_bound (E : environment) (scope inherited_flags fuel : Nat)
    (s s1 : state) (hname : s.tp.refs.name ≠ "")
    (hb : bind_declarator E scope inherited_flags s = .ok (.extra s1)) :
    handle_declarators E scope inherited_flags (fuel + 1) s =
      extra_loop E scope (handle_declarators E scope inherited_flags fuel) fuel s1 := by
  rw [handle_declarators_named E scope inherited_flags fuel s hname, hb]

theorem extra_loop_operator (E : environment) (scope : Nat)
    (declare_next : state → result (Int × state)) (fuel : Nat) (s : state)
    (h : (s.token.type = TT_OPERATOR ∧ s.token.content ≠ "=")
      ∨ s.token.type = TT_GREATERTHAN ∨ s.token.type = TT_LESSTHAN) :
    extra_loop E scope declare_next (fuel + 1) s =
      .ok (5, report_error s
        ("Unexpected operator `" ++ s.token.content ++ "' at this point")) := by
  unfold extra_loop
  rcases h with ⟨h1, h2⟩ | h | h
  · simp only [h1, h2, ne_eq, not_false_eq_true, if_true]
  · simp only [h]
  · simp only [h]

theorem extra_loop_literal (E : environment) (scope : Nat)
    (declare_next : state → result (Int × state)) (fuel : Nat) (s : state)
    (h : is_literal s.token.type = true) :
    extra_loop E scope declare_next (fuel + 1) s =
      .ok (5, report_error s "Expected initializer `=' here before literal.") := by
  unfold extra_loop
  cases ht : s.token.type <;> simp_all [is_literal]

/-- C17, driver exit table: once a named declarator has been bound, leaving
the state s1, the call's result is decided by the current token of s1: an
operator other than `=`, a `<` or a `>` gives 5; a string, char, decimal, hex
or octal literal gives 5; every kind other than operator, `<`, `>`, `,`, `:`
and the literals (so `;`, `...`, every token that begins a declaration or
statement, end of code, anything unrecognized) gives 0 and hands back s1
itself, token and `res` included.  In the error cases only the diagnostic is
added: token, cursor, store and `res` are those of s1. -/
theorem driver_exit_table (E : environment) (scope inherited_flags fuel : Nat)
    (s s1 : state) (hname : s.tp.refs.name ≠ "")
    (hb : bind_declarator E scope inherited_flags s = .ok (.extra s1)) :
    (((s1.token.type = TT_OPERATOR ∧ s1.token.content ≠ "=")
        ∨ s1.token.type = TT_GREATERTHAN ∨ s1.token.type = TT_LESSTHAN) →
      handle_declarators E scope inherited_flags (fuel + 2) s =
        .ok (5, report_error s1
          ("Unexpected operator `" ++ s1.token.content ++ "' at this point"))) ∧
    (is_literal s1.token.type = true →
      handle_declarators E scope inherited_flags (fuel + 2) s =
        .ok (5, report_error s1 "Expected initializer `=' here before literal.")) ∧
    (ends_loop s1.token.type = true →
      handle_declarators E scope inherited_flags (fuel + 2) s = .ok (0, s1)) ∧
    (∀ msg, (report_error s1 msg).token = s1.token ∧ (report_error s1 msg).res = s1.res
      ∧ (report_error s1 msg).cp.heap = s1.cp.heap ∧ (report_error s1 msg).cp.lex = s1.cp.lex) ∧
    (∀ k, ends_loop k = true ↔
      (k ≠ TT_OPERATOR ∧ k ≠ TT_GREATERTHAN ∧ k ≠ TT_LESSTHAN ∧ k ≠ TT_COMMA ∧ k ≠ TT_COLON
        ∧ is_literal k = false)) := by
  have hrun := handle_declarators_bound E scope inherited_flags (fuel + 1) s s1 hname hb
  refine ⟨fun h => ?_, fun h => ?_, fun h => ?_, fun _ => ⟨rfl, rfl, rfl, rfl⟩, fun k => ?_⟩
  · rw [show fuel + 2 = (fuel + 1) + 1 from rfl, hrun]
    exact extra_loop_operator E scope _ fuel s1 h
  · rw [show fuel + 2 = (fuel + 1) + 1 from rfl, hrun]
    exact extra_loop_literal E scope _ fuel s1 h
  · rw [show fuel + 2 = (fuel + 1) + 1 from rfl, hrun]
    exact extra_loop_ends E scope _ fuel s1 h
  · cases k <;> simp [ends_loop, is_literal]

/-- Witness of C17: `int x "a"` returns 5 once `x` is bound. -/
theorem driver_exit_table_witness :
    ∃ s1, handle_declarators (sample_env sample_no_type sample_three) 0 0 2
        (sample_state [] ⟨TT_STRINGLITERAL, "a", none⟩ ⟨some 2, ⟨"x", []⟩, 0⟩)
      = .ok (5, report_error s1 "Expected initializer `=' here before literal.")
      ∧ s1.res = some 7 :=
  ⟨_, (driver_exit_table (sample_env sample_no_type sample_three) 0 0 0
    (sample_state [] ⟨TT_STRINGLITERAL, "a", none⟩ ⟨some 2, ⟨"x", []⟩, 0⟩) _
    (by decide) rfl).2.1 rfl, rfl⟩

/-! ## Anonymous members and bit-fields -/

/-- C12, anonymous member naming, on the failing input: two successive
nameless members `int : 3;` and `int : 4;` in class `Foo`.  Both calls return
0 and both synthesize the name `<anonymousField0000000000>`: the counter is 0
before and after each call.  The second member therefore finds the first one's
slot: `res` is the first definition again and the store does not change. -/
theorem anonymous_names_repeat :
    ∃ s1 s2,
      handle_declarators (sample_env sample_no_type sample_three) 0 0 3 sample_anonymous_first
        = .ok (0, s1) ∧
      handle_declarators (sample_env sample_no_type sample_four) 0 0 3
        (sample_anonymous_second s1) = .ok (0, s2) ∧
      s1.tp.refs.name = "<anonymousField0000000000>" ∧
      s2.tp.refs.name = "<anonymousField0000000000>" ∧
      sample_anonymous_first.anon_count = 0 ∧ s1.anon_count = 0 ∧ s2.anon_count = 0 ∧
      s1.res = some 7 ∧ s2.res = some 7 ∧ s2.cp.heap = s1.cp.heap ∧
      s2.cp.heap.length = 8 :=
  ⟨_, _, rfl, rfl, rfl, rfl, rfl, rfl, rfl, rfl, rfl, rfl, rfl⟩

/-- C13, bit-field width, on the failing input: `int x : 3;` and `int x : 4;`
in class `Foo` both return 0 and leave one and the same state, so the width is
stored nowhere in it. -/
theorem bitfield_width_not_recorded :
    ∃ s',
      handle_declarators (sample_env sample_no_type sample_three) 0 0 3
        (sample_state [literal "3", semicolon] colon ⟨some 2, ⟨"x", []⟩, 0⟩) = .ok (0, s') ∧
      handle_declarators (sample_env sample_no_type sample_four) 0 0 3
        (sample_state [literal "4", semicolon] colon ⟨some 2, ⟨"x", []⟩, 0⟩) = .ok (0, s') :=
  ⟨_, rfl, rfl⟩

theorem integer_root_iff (E : environment) (root : Option Nat) :
    (root ≠ some E.builtin_type__int ∧ root ≠ some E.builtin_type__long
      ∧ root ≠ some E.builtin_type__short) ↔ ¬ integer_root E root := by
  unfold integer_root
  tauto

theorem extra_loop_colon_type (E : environment) (hfatal : E.FATAL_ERRORS = true) (scope : Nat)
    (declare_next : state → result (Int × state)) (fuel : Nat) (s : state) (root : Option Nat)
    (htok : s.token.type = TT_COLON)
    (hroot : bitfield_root s.cp.heap fuel s.tp.def_ = .ok root)
    (hbad : ¬ integer_root E root) :
    extra_loop E scope declare_next (fuel + 1) s =
      .ok (1, report_error s "Attempt to assign bit count in non-integer declaration") := by
  have hb := (integer_root_iff E root).mpr hbad
  conv_lhs => unfold extra_loop
  simp only [htok, hroot]
  rw [if_pos ⟨hb, hfatal⟩, if_pos hb]

theorem extra_loop_colon_value (E : environment) (hfatal : E.FATAL_ERRORS = true) (scope : Nat)
    (declare_next : state → result (Int × state)) (fuel : Nat) (s : state) (root : Option Nat)
    (htok : s.token.type = TT_COLON)
    (hroot : bitfield_root s.cp.heap fuel s.tp.def_ = .ok root)
    (hint : integer_root E root)
    (hval : (bitcount_value E scope s).type ≠ VT.VT_INTEGER) :
    extra_loop E scope declare_next (fuel + 1) s =
      .ok (1, report_error (bitcount_state E scope s) "Bit count is not an integer") := by
  have hb : ¬ (root ≠ some E.builtin_type__int ∧ root ≠ some E.builtin_type__long
      ∧ root ≠ some E.builtin_type__short) := fun h => (integer_root_iff E root).mp h hint
  conv_lhs => unfold extra_loop
  simp only [htok, hroot]
  rw [if_neg (fun h => hb h.1)]
  simp only [if_neg hb]
  unfold bitcount_value at hval
  rw [if_pos hval, if_pos hfatal]
  rfl

theorem extra_loop_colon_ok (E : environment) (scope : Nat)
    (declare_next : state → result (Int × state)) (fuel : Nat) (s : state) (root : Option Nat)
    (htok : s.token.type = TT_COLON)
    (hroot : bitfield_root s.cp.heap fuel s.tp.def_ = .ok root)
    (hint : integer_root E root)
    (hval : (bitcount_value E scope s).type = VT.VT_INTEGER) :
    extra_loop E scope declare_next (fuel + 1) s =
      extra_loop E scope declare_next fuel (bitcount_state E scope s) := by
  have hb : ¬ (root ≠ some E.builtin_type__int ∧ root ≠ some E.builtin_type__long
      ∧ root ≠ some E.builtin_type__short) := fun h => (integer_root_iff E root).mp h hint
  conv_lhs => unfold extra_loop
  simp only [htok, hroot]
  rw [if_neg (fun h => hb h.1)]
  simp only [if_neg hb]
  unfold bitcount_value at hval
  rw [if_neg (fun h => h hval)]
  rfl

theorem bitfield_root_chain (heap : List definition) (fuel : Nat) :
    ∀ (path : List Nat) (p : Nat) (root : Option Nat),
      type_chain heap path p root = true →
      bitfield_root heap (fuel + path.length + 1) (some p) = .ok root := by
  intro path
  induction path with
  | nil =>
    intro p root h
    simp only [type_chain] at h
    cases hd : heap[p]? with
    | none => rw [hd] at h; simp at h
    | some d =>
      rw [hd] at h
      simp only at h
      show bitfield_root heap (fuel + 1) (some p) = _
      simp only [bitfield_root, deref_some hd]
      by_cases hty : d.flags &&& DEF_TYPED ≠ 0
      · rw [if_pos hty] at h
        simp only [decide_eq_true_eq] at h
        rw [if_pos hty, h.1, h.2]
      · rw [if_neg hty] at h
        simp only [decide_eq_true_eq] at h
        rw [if_neg hty, h]
  | cons q rest ih =>
    intro p root h
    simp only [type_chain] at h
    cases hd : heap[p]? with
    | none => rw [hd] at h; simp at h
    | some d =>
      rw [hd] at h
      simp only [Bool.and_eq_true, decide_eq_true_eq] at h
      obtain ⟨⟨hty, htype⟩, hrest⟩ := h
      show bitfield_root heap ((fuel + rest.length + 1) + 1) (some p) = _
      conv_lhs => unfold bitfield_root
      simp only [deref_some hd, if_pos hty, htype]
      exact ih q root hrest

theorem type_chain_bound (heap extra : List definition) (scope : Nat) (sc : definition)
    (members : List (String × Option Nat)) (hsc : heap[scope]? = some sc) :
    ∀ (path : List Nat) (p : Nat) (root : Option Nat),
      type_chain heap path p root = true →
      type_chain (heap.set scope { sc with members := members } ++ extra) path p root
        = true := by
  have hget : ∀ (q : Nat) (d : definition), heap[q]? = some d →
      ∃ d', (heap.set scope { sc with members := members } ++ extra)[q]? = some d'
        ∧ d'.flags = d.flags ∧ d'.type = d.type := by
    intro q d hq
    have hlt : q < heap.length := lt_of_getElem? hq
    rw [List.getElem?_append_left (by simpa using hlt)]
    by_cases hqs : scope = q
    · subst hqs
      rw [List.getElem?_set_self hlt]
      rw [hsc] at hq
      cases hq
      exact ⟨_, rfl, rfl, rfl⟩
    · rw [List.getElem?_set_ne hqs]
      exact ⟨d, hq, rfl, rfl⟩
  intro path
  induction path with
  | nil =>
    intro p root h
    simp only [type_chain] at h ⊢
    cases hd : heap[p]? with
    | none => rw [hd] at h; simp at h
    | some d =>
      rw [hd] at h
      obtain ⟨d', hd', hf, ht⟩ := hget p d hd
      rw [hd']
      simp only at h ⊢
      rw [hf, ht]
      exact h
  | cons q rest ih =>
    intro p root h
    simp only [type_chain] at h ⊢
    cases hd : heap[p]? with
    | none => rw [hd] at h; simp at h
    | some d =>
      rw [hd] at h
      obtain ⟨d', hd', hf, ht⟩ := hget p d hd
      rw [hd']
      simp only [Bool.and_eq_true, decide_eq_true_eq] at h ⊢
      rw [hf, ht]
      exact ⟨h.1, ih q root h.2⟩

/-- C14, bit-field misuse: with fatal errors on, at a `:` that follows a bound
named declarator (state s1), the base type being the definition at `p` and the
typed-value to type links from it leading, through the definitions of `path`,
to their end `root`: when `root` is none of builtin int, long, short the call
returns 1 with the non-integer-declaration error; when it is one of them and
the width expression does not evaluate to an integer the call returns 1 with
the bit-count error; when it is one of them and the width is an integer no
diagnostic is added by the step, the loop goes on from the state after the
width, and before a token that ends the loop the call returns 0. -/
theorem bitfield_misuse (E : environment) (hfatal : E.FATAL_ERRORS = true)
    (scope inherited_flags fuel : Nat) (s s1 : state) (p : Nat) (path : List Nat)
    (root : Option Nat)
    (hname : s.tp.refs.name ≠ "")
    (hb : bind_declarator E scope inherited_flags s = .ok (.extra s1))
    (htok : s1.token.type = TT_COLON)
    (hdef : s1.tp.def_ = some p)
    (hchain : type_chain s1.cp.heap path p root = true) :
    (¬ integer_root E root →
      handle_declarators E scope inherited_flags (fuel + path.length + 3) s =
        .ok (1, report_error s1 "Attempt to assign bit count in non-integer declaration")) ∧
    (integer_root E root → (bitcount_value E scope s1).type ≠ VT.VT_INTEGER →
      handle_declarators E scope inherited_flags (fuel + path.length + 3) s =
        .ok (1, report_error (bitcount_state E scope s1) "Bit count is not an integer")) ∧
    (integer_root E root → (bitcount_value E scope s1).type = VT.VT_INTEGER →
      handle_declarators E scope inherited_flags (fuel + path.length + 3) s =
        extra_loop E scope (handle_declarators E scope inherited_flags (fuel + path.length + 2))
          (fuel + path.length + 1) (bitcount_state E scope s1) ∧
      (bitcount_state E scope s1).cp.herr =
        (E.parse_expression (advance s1 (some scope)).cp (advance s1 (some scope)).token
          scope (E.precedence_comma + 1)).2.2.herr ∧
      (ends_loop (bitcount_state E scope s1).token.type = true →
        handle_declarators E scope inherited_flags (fuel + path.length + 3) s
          = .ok (0, bitcount_state E scope s1))) := by
  have hrun := handle_declarators_bound E scope inherited_flags (fuel + path.length + 2) s s1
    hname hb
  have hroot : bitfield_root s1.cp.heap (fuel + path.length + 1) s1.tp.def_ = .ok root := by
    rw [hdef]
    exact bitfield_root_chain s1.cp.heap fuel path p root hchain
  refine ⟨fun hbad => ?_, fun hint hval => ?_, fun hint hval => ?_⟩
  · rw [show fuel + path.length + 3 = (fuel + path.length + 2) + 1 from rfl, hrun]
    exact extra_loop_colon_type E hfatal scope _ (fuel + path.length + 1) s1 root htok hroot hbad
  · rw [show fuel + path.length + 3 = (fuel + path.length + 2) + 1 from rfl, hrun]
    exact extra_loop_colon_value E hfatal scope _ (fuel + path.length + 1) s1 root htok hroot
      hint hval
  · have h1 : handle_declarators E scope inherited_flags (fuel + path.length + 3) s =
        extra_loop E scope (handle_declarators E scope inherited_flags (fuel + path.length + 2))
          (fuel + path.length + 1) (bitcount_state E scope s1) := by
      rw [show fuel + path.length + 3 = (fuel + path.length + 2) + 1 from rfl, hrun]
      exact extra_loop_colon_ok E scope _ (fuel + path.length + 1) s1 root htok hroot hint hval
    refine ⟨h1, rfl, fun hend => ?_⟩
    rw [h1]
    exact extra_loop_ends E scope _ (fuel + path.length) _ hend

/-- Witness of C14: in class `Foo`, `myint x : 3;`, where `myint` is a typed
definition whose type is `int`, returns 0, and `float x : 3;` returns 1. -/
theorem bitfield_misuse_witness :
    (∃ s', handle_declarators (sample_env sample_no_type sample_three) 0 0 4
        (sample_state_at (sample_store [("myint", some 7)] [sample_typedef])
          [literal "3", semicolon] colon ⟨some 7, ⟨"x", []⟩, 0⟩) = .ok (0, s')) ∧
    (∃ s1, handle_declarators (sample_env sample_no_type sample_three) 0 0 3
        (sample_state [literal "3", semicolon] colon ⟨some 6, ⟨"x", []⟩, 0⟩)
      = .ok (1, report_error s1 "Attempt to assign bit count in non-integer declaration")) :=
  ⟨⟨_, ((bitfield_misuse (sample_env sample_no_type sample_three) rfl 0 0 0
      (sample_state_at (sample_store [("myint", some 7)] [sample_typedef])
        [literal "3", semicolon] colon ⟨some 7, ⟨"x", []⟩, 0⟩) _ 7 [2] (some 2)
      (by decide) rfl rfl rfl rfl).2.2 (Or.inl rfl) rfl).2.2 rfl⟩,
   ⟨_, (bitfield_misuse (sample_env sample_no_type sample_three) rfl 0 0 0
      (sample_state [literal "3", semicolon] colon ⟨some 6, ⟨"x", []⟩, 0⟩) _ 6 [] (some 6)
      (by decide) rfl rfl rfl rfl).1 (by decide)⟩⟩

/-! ## Atomicity of the binding -/

/-- C16 (amended), nameless declaration outside a class: with an empty declared
name, current token `:`, a valid scope that is not a class, a valid base type
and a declarator that is not a constructor, the call adds the warning and no
error, and then binds the declaration under the empty name: when the scope has
no entry under the empty name, one entry from the empty name to a newly created
definition is added to the scope's map.  The trailing-token loop is then
entered on the `:` and handles it as a bit-field.  Where the typed-value to
type links from the base type end in builtin int, long or short, the token
after the `:` is read and the width expression is handed to the evaluator: the
loop goes on from the state the evaluator leaves when the width is an integer
(returning 0 there before a token that ends the loop), and with fatal errors on
the call returns 1 from that state when it is not.  Where they end elsewhere,
with fatal errors on the call returns 1 at once, the token still being the `:`
and the cursor where it was. -/
theorem nameless_outside_class (E : environment) (scope inherited_flags fuel : Nat)
    (s : state) (sc t : definition) (p : Nat) (path : List Nat) (root : Option Nat)
    (hname : s.tp.refs.name = "")
    (hsc : s.cp.heap[scope]? = some sc)
    (ht : deref s.cp.heap s.tp.def_ = .ok t)
    (hnot : ¬ (ctor_base scope sc t s.tp ∧ ctor_flags E s.tp ∧ ctor_refs s.tp))
    (hcolon : s.token.type = TT_COLON)
    (hclass : sc.flags &&& DEF_CLASS = 0)
    (hfresh : find "" sc.members = none)
    (hdef : s.tp.def_ = some p)
    (hchain : type_chain s.cp.heap path p root = true) :
    classify E scope (fuel + path.length + 2) s = .ok (.bind (report_warning s
      "Declaration without name is meaningless outside of a class")) ∧
    handle_declarators E scope inherited_flags (fuel + path.length + 3) s =
      extra_loop E scope (handle_declarators E scope inherited_flags (fuel + path.length + 2))
        (fuel + path.length + 2)
        (bound_fresh scope inherited_flags sc (report_warning s
          "Declaration without name is meaningless outside of a class")) ∧
    (bound_fresh scope inherited_flags sc (report_warning s
        "Declaration without name is meaningless outside of a class")).cp.herr
      = s.cp.herr ++ [⟨severity.warning,
          "Declaration without name is meaningless outside of a class"⟩] ∧
    (bound_fresh scope inherited_flags sc (report_warning s
        "Declaration without name is meaningless outside of a class")).cp.heap[scope]?
      = some { sc with members := sc.members ++ [("", some s.cp.heap.length)] } ∧
    (bound_fresh scope inherited_flags sc (report_warning s
        "Declaration without name is meaningless outside of a class")).cp.heap[s.cp.heap.length]?
      = some (new_definition s.cp.heap.length scope s.tp inherited_flags) ∧
    find "" (sc.members ++ [("", some s.cp.heap.length)]) = some (some s.cp.heap.length) ∧
    (bound_fresh scope inherited_flags sc (report_warning s
        "Declaration without name is meaningless outside of a class")).token.type
      = TT_COLON ∧
    (integer_root E root →
      (advance (bound_fresh scope inherited_flags sc (report_warning s
        "Declaration without name is meaningless outside of a class")) (some scope)).token
        = (lexer_next s.cp.lex).1 ∧
      (bitcount_state E scope (bound_fresh scope inherited_flags sc (report_warning s
        "Declaration without name is meaningless outside of a class"))).token
        = (E.parse_expression
            (advance (bound_fresh scope inherited_flags sc (report_warning s
              "Declaration without name is meaningless outside of a class")) (some scope)).cp
            (lexer_next s.cp.lex).1 scope (E.precedence_comma + 1)).2.1 ∧
      ((bitcount_value E scope (bound_fresh scope inherited_flags sc (report_warning s
          "Declaration without name is meaningless outside of a class"))).type
          = VT.VT_INTEGER →
        handle_declarators E scope inherited_flags (fuel + path.length + 3) s =
          extra_loop E scope
            (handle_declarators E scope inherited_flags (fuel + path.length + 2))
            (fuel + path.length + 1)
            (bitcount_state E scope (bound_fresh scope inherited_flags sc (report_warning s
              "Declaration without name is meaningless outside of a class"))) ∧
        (ends_loop (bitcount_state E scope (bound_fresh scope inherited_flags sc
            (report_warning s
              "Declaration without name is meaningless outside of a class"))).token.type
            = true →
          handle_declarators E scope inherited_flags (fuel + path.length + 3) s =
            .ok (0, bitcount_state E scope (bound_fresh scope inherited_flags sc
              (report_warning s
                "Declaration without name is meaningless outside of a class"))))) ∧
      (E.FATAL_ERRORS = true →
        (bitcount_value E scope (bound_fresh scope inherited_flags sc (report_warning s
          "Declaration without name is meaningless outside of a class"))).type
          ≠ VT.VT_INTEGER →
        handle_declarators E scope inherited_flags (fuel + path.length + 3) s =
          .ok (1, report_error
            (bitcount_state E scope (bound_fresh scope inherited_flags sc (report_warning s
              "Declaration without name is meaningless outside of a class")))
            "Bit count is not an integer"))) ∧
    (E.FATAL_ERRORS = true → ¬ integer_root E root →
      ∃ s', handle_declarators E scope inherited_flags (fuel + path.length + 3) s
          = .ok (1, s') ∧
        s' = report_error (bound_fresh scope inherited_flags sc (report_warning s
            "Declaration without name is meaningless outside of a class"))
          "Attempt to assign bit count in non-integer declaration" ∧
        s'.token = s.token ∧ s'.cp.lex = s.cp.lex ∧
        s'.cp.heap[scope]?
          = some { sc with members := sc.members ++ [("", some s.cp.heap.length)] }) := by
  have hlt : scope < s.cp.heap.length := lt_of_getElem? hsc
  have hc : classify E scope (fuel + path.length + 2) s = .ok (.bind (report_warning s
      "Declaration without name is meaningless outside of a class")) := by
    rw [classify_not_ctor E scope _ s sc t hname hsc ht hnot, if_pos hcolon,
      if_neg (fun h => h hclass)]
  have hfresh2 : find (report_warning s
      "Declaration without name is meaningless outside of a class").tp.refs.name sc.members
      = none := by
    show find s.tp.refs.name sc.members = none
    rw [hname]; exact hfresh
  have hrun : handle_declarators E scope inherited_flags (fuel + path.length + 3) s =
      extra_loop E scope (handle_declarators E scope inherited_flags (fuel + path.length + 2))
        (fuel + path.length + 2)
        (bound_fresh scope inherited_flags sc (report_warning s
          "Declaration without name is meaningless outside of a class")) := by
    rw [show fuel + path.length + 3 = (fuel + path.length + 2) + 1 from rfl,
      handle_declarators_bind E scope inherited_flags _ s _ hc,
      bind_declarator_fresh E scope inherited_flags sc (report_warning s
        "Declaration without name is meaningless outside of a class") hsc hfresh2]
  have hheap : (bound_fresh scope inherited_flags sc (report_warning s
        "Declaration without name is meaningless outside of a class")).cp.heap[scope]?
      = some { sc with members := sc.members ++ [("", some s.cp.heap.length)] } := by
    simp only [bound_fresh, report_warning]
    rw [List.getElem?_append_left (by simpa using hlt), List.getElem?_set_self hlt, hname]
  have hroot : bitfield_root (bound_fresh scope inherited_flags sc (report_warning s
        "Declaration without name is meaningless outside of a class")).cp.heap
      (fuel + path.length + 1)
      (bound_fresh scope inherited_flags sc (report_warning s
        "Declaration without name is meaningless outside of a class")).tp.def_ = .ok root := by
    show bitfield_root (s.cp.heap.set scope _ ++ _) _ s.tp.def_ = _
    rw [hdef]
    exact bitfield_root_chain _ fuel path p root
      (type_chain_bound s.cp.heap _ scope sc _ hsc path p root hchain)
  refine ⟨hc, hrun, rfl, hheap, ?_, ?_, hcolon, ?_, ?_⟩
  · simp only [bound_fresh, report_warning]
    rw [List.getElem?_append_right (by simp)]
    simp
  · rw [find_append_single _ _ _ _ hfresh, if_pos rfl]
  · intro hint
    refine ⟨rfl, rfl, fun hval => ?_, fun hfatal hval => ?_⟩
    · have h1 := extra_loop_colon_ok E scope
        (handle_declarators E scope inherited_flags (fuel + path.length + 2))
        (fuel + path.length + 1) (bound_fresh scope inherited_flags sc (report_warning s
          "Declaration without name is meaningless outside of a class")) root hcolon hroot hint hval
      refine ⟨by rw [hrun]; exact h1, fun hend => ?_⟩
      rw [hrun, h1]
      exact extra_loop_ends E scope _ (fuel + path.length) _ hend
    · rw [hrun]
      exact extra_loop_colon_value E hfatal scope _ (fuel + path.length + 1)
        (bound_fresh scope inherited_flags sc (report_warning s
          "Declaration without name is meaningless outside of a class")) root hcolon hroot hint hval
  · intro hfatal hbad
    refine ⟨_, ?_, rfl, rfl, rfl, hheap⟩
    rw [hrun]
    exact extra_loop_colon_type E hfatal scope _ (fuel + path.length + 1)
      (bound_fresh scope inherited_flags sc (report_warning s
          "Declaration without name is meaningless outside of a class")) root hcolon hroot hbad

/-- Witness of C16 (amended): in a namespace, `int : 3;` returns 0 after the
width has been read, and `float : 3;` returns 1 on the `:`. -/
theorem nameless_outside_class_witness :
    (∃ s', handle_declarators (sample_env sample_no_type sample_three) 0 0 3
        (sample_nameless 2) = .ok (0, s') ∧ s'.token = semicolon ∧ s'.cp.lex = []) ∧
    (∃ s', handle_declarators (sample_env sample_no_type sample_three) 0 0 3
        (sample_nameless 6) = .ok (1, s') ∧ s'.token = colon ∧
        s'.cp.lex = [literal "3", semicolon]) := by
  constructor
  · have h := ((nameless_outside_class (sample_env sample_no_type sample_three) 0 0 0
      (sample_nameless 2)
      (sample_definition "ns" (DEF_NAMESPACE ||| DEF_SCOPE))
      (sample_definition "int" DEF_TYPENAME) 2 [] (some 2) rfl rfl rfl
      (fun h => absurd h.2.2 (by rintro ⟨ps, hps⟩; cases hps))
      rfl (by decide) rfl rfl rfl).2.2.2.2.2.2.2.1 (Or.inl rfl)).2.2.1 rfl
    exact ⟨_, h.2 rfl, rfl, rfl⟩
  · obtain ⟨s', h, _, htok, hlex, _⟩ :=
      (nameless_outside_class (sample_env sample_no_type sample_three) 0 0 0
        (sample_nameless 6)
        (sample_definition "ns" (DEF_NAMESPACE ||| DEF_SCOPE))
        (sample_definition "float" DEF_TYPENAME) 6 [] (some 6) rfl rfl rfl
        (fun h => absurd h.2.2 (by rintro ⟨ps, hps⟩; cases hps))
        rfl (by decide) rfl rfl rfl).2.2.2.2.2.2.2.2 rfl (by decide)
    exact ⟨s', h, htok, hlex⟩

/-- Counterexample to C16 as stated: `int : 3;` in a namespace returns 0 with
one warning, but an entry under the empty name has been added to the scope's
map, and the two tokens of the width have been consumed. -/
theorem nameless_outside_class_counterexample :
    ∃ s', handle_declarators (sample_env sample_no_type sample_three) 0 0 3
        { sample_anonymous_first with cp := { sample_anonymous_first.cp with
            heap := sample_namespace_heap } } = .ok (0, s') ∧
      (sample_namespace_heap[0]?).map (fun d => find "" d.members) = some none ∧
      (s'.cp.heap[0]?).map (fun d => find "" d.members) = some (some (some 7)) ∧
      sample_anonymous_first.cp.lex = [literal "3", semicolon] ∧
      s'.cp.lex = [] ∧ s'.token = semicolon ∧
      s'.cp.herr = [⟨severity.warning,
        "Declaration without name is meaningless outside of a class"⟩] :=
  ⟨_, rfl, rfl, rfl, rfl, rfl, rfl, rfl⟩

/-! ## The qualified-name walk -/

theorem rescope_end (E : environment) (scope fuel : Nat) (d : Option Nat) (s : state)
    (h1 : s.token.type ≠ TT_SCOPE) (h2 : s.token.type ≠ TT_LESSTHAN) :
    rescope E scope (fuel + 1) d s = .ok (.at_def d s) := by
  conv_lhs => unfold rescope
  simp only [h1, h2, if_false]

theorem rescope_not_scope (E : environment) (hfatal : E.FATAL_ERRORS = true)
    (scope fuel : Nat) (d : Option Nat) (s : state) (dd : definition)
    (htok : s.token.type = TT_SCOPE) (hd : deref s.cp.heap d = .ok dd)
    (hflag : dd.flags &&& DEF_SCOPE = 0) :
    rescope E scope (fuel + 1) d s =
      .ok (.ret 1 (report_error s ("Cannot access `" ++ dd.name ++ "' as scope"))) := by
  conv_lhs => unfold rescope
  simp only [htok, if_true, hd, hflag, hfatal]

theorem rescope_bad_segment (E : environment) (hfatal : E.FATAL_ERRORS = true)
    (scope fuel : Nat) (d : Option Nat) (s : state) (dd : definition)
    (htok : s.token.type = TT_SCOPE) (hd : deref s.cp.heap d = .ok dd)
    (hflag : dd.flags &&& DEF_SCOPE ≠ 0)
    (hseg : (advance s d).token.type ≠ TT_DEFINITION ∧ (advance s d).token.type ≠ TT_DECLARATOR) :
    rescope E scope (fuel + 1) d s =
      .ok (.ret 1
        (if (advance s d).token.type = TT_IDENTIFIER then
          report_error (advance s d) ("Expected qualified-id before %s; `"
            ++ (advance s d).token.content ++ "' is not a member of `" ++ dd.name ++ "'")
        else report_error (advance s d) "Expected qualified-id before %s")) := by
  conv_lhs => unfold rescope
  simp only [htok, if_true, hd, hflag, if_false, hseg, hfatal, ne_eq, not_false_eq_true,
    and_self]

theorem rescope_step (E : environment) (scope fuel : Nat) (d : Option Nat) (s : state)
    (dd : definition)
    (htok : s.token.type = TT_SCOPE) (hd : deref s.cp.heap d = .ok dd)
    (hflag : dd.flags &&& DEF_SCOPE ≠ 0)
    (hseg : (advance s d).token.type = TT_DEFINITION ∨ (advance s d).token.type = TT_DECLARATOR) :
    rescope E scope (fuel + 1) d s =
      rescope E scope fuel (advance s d).token.def_ (advance (advance s d) (some scope)) := by
  have hn : ¬ ((advance s d).token.type ≠ TT_DEFINITION
      ∧ (advance s d).token.type ≠ TT_DECLARATOR) := by
    rintro ⟨h1, h2⟩
    rcases hseg with h | h
    · exact h1 h
    · exact h2 h
  conv_lhs => unfold rescope
  simp only [htok, if_true, hd, hflag, if_false, hn]

theorem rescope_template (E : environment) (scope fuel temp : Nat) (s : state)
    (dd : definition)
    (htok : s.token.type = TT_LESSTHAN) (hd : s.cp.heap[temp]? = some dd)
    (hflag : dd.flags &&& DEF_TEMPLATE ≠ 0) :
    rescope E scope (fuel + 1) (some temp) s =
      if template_args_code E scope temp dd.params.length s ≠ 0 then
        .ok (.ret 1 (template_args_state E scope temp dd.params.length s))
      else
        match instantiate E (template_args_state E scope temp dd.params.length s).cp.heap temp
            (template_args_key E scope temp dd.params.length s) with
        | .error e => .error e
        | .ok (none, heap) =>
          .ok (.ret 1 { template_args_state E scope temp dd.params.length s with
            cp := { (template_args_state E scope temp dd.params.length s).cp with
              heap := heap } })
        | .ok (some i, heap) =>
          rescope E scope fuel (some i)
            (advance { template_args_state E scope temp dd.params.length s with
              cp := { (template_args_state E scope temp dd.params.length s).cp with
                heap := heap } } (some scope)) := by
  have h1 : s.token.type ≠ TT_SCOPE := by rw [htok]; decide
  conv_lhs => unfold rescope
  simp only [h1, htok, if_true, if_false, deref_some hd, hflag, ne_eq, not_false_eq_true,
    template_args_code, template_args_state, template_args_key]
  rfl

theorem rescope_not_template (E : environment) (scope fuel temp : Nat) (s : state)
    (dd : definition)
    (htok : s.token.type = TT_LESSTHAN) (hd : s.cp.heap[temp]? = some dd)
    (hflag : dd.flags &&& DEF_TEMPLATE = 0) :
    rescope E scope (fuel + 1) (some temp) s = .ok (.at_def (some temp) s) := by
  have h1 : s.token.type ≠ TT_SCOPE := by rw [htok]; decide
  conv_lhs => unfold rescope
  simp only [h1, if_false]
  simp only [htok, if_true, deref_some hd, hflag, ne_eq, not_true_eq_false, if_false]

set_option maxHeartbeats 2000000 in
theorem rescope_ret (E : environment) (scope : Nat) :
    ∀ (fuel : Nat) (d : Option Nat) (s : state) (c : Int) (s' : state),
      rescope E scope fuel d s = .ok (.ret c s') →
      c = 1 ∧ s'.res = s.res ∧ s'.tp = s.tp ∧ s'.anon_count = s.anon_count := by
  intro fuel
  induction fuel with
  | zero =>
    intro d s c s' h
    simp [rescope] at h
  | succ n ih =>
    intro d s c s' h
    unfold rescope at h
    simp only at h
    repeat' split at h
    all_goals first
      | (have hi := ih _ _ _ _ h; exact ⟨hi.1, hi.2.1, hi.2.2.1, hi.2.2.2⟩)
      | (cases h <;> exact ⟨rfl, rfl, rfl, rfl⟩)

theorem rescope_walk (E : environment) (scope fuel : Nat) :
    ∀ (segs : List token_t) (d : Option Nat) (s : state),
      walk_ok s.cp.heap segs d s.token s.cp.lex = true →
      rescope E scope (fuel + segs.length) d s =
        rescope E scope fuel (walk_end segs d s.token s.cp.lex).1 (walk_state segs d s) := by
  intro segs
  induction segs with
  | nil =>
    intro d s _
    rfl
  | cons seg rest ih =>
    intro d s h
    simp only [walk_ok, Bool.and_eq_true, decide_eq_true_eq] at h
    obtain ⟨⟨⟨⟨htok, hd⟩, hseg⟩, hkind⟩, hrest⟩ := h
    cases hdd : deref s.cp.heap d with
    | error e => rw [hdd] at hd; simp at hd
    | ok dd =>
      rw [hdd] at hd
      have hflag : dd.flags &&& DEF_SCOPE ≠ 0 := by simpa using hd
      have hadv : (advance s d).token = seg := hseg
      have hk : (advance s d).token.type = TT_DEFINITION
          ∨ (advance s d).token.type = TT_DECLARATOR := by rw [hadv]; exact hkind
      rw [show fuel + (seg :: rest).length = (fuel + rest.length) + 1 by
          simp only [List.length_cons]; omega,
        rescope_step E scope _ d s dd htok hdd hflag hk, hadv]
      have hrest2 : walk_ok (advance (advance s d) (some scope)).cp.heap rest seg.def_
          (advance (advance s d) (some scope)).token
          (advance (advance s d) (some scope)).cp.lex = true := hrest
      rw [ih seg.def_ (advance (advance s d) (some scope)) hrest2]
      rfl

theorem use_namespace_length (heap : List definition) (scope : Nat) (ns : Option Nat) :
    (use_namespace heap scope ns).length = heap.length := by
  unfold use_namespace
  split
  · rfl
  · split <;> simp

theorem use_namespace_members (heap : List definition) (scope : Nat) (ns : Option Nat)
    (i : Nat) :
    ((use_namespace heap scope ns)[i]?).map (fun d => d.members)
      = (heap[i]?).map (fun d => d.members) := by
  unfold use_namespace
  split
  · rfl
  · rename_i sc hsc
    split
    · rfl
    · by_cases hi : scope = i
      · subst hi
        rw [List.getElem?_set_self (lt_of_getElem? hsc), hsc]
        rfl
      · rw [List.getElem?_set_ne hi]

theorem use_namespace_instantiations (heap : List definition) (scope : Nat)
    (ns : Option Nat) (i : Nat) :
    ((use_namespace heap scope ns)[i]?).map (fun d => d.instantiations)
      = (heap[i]?).map (fun d => d.instantiations) := by
  unfold use_namespace
  split
  · rfl
  · rename_i sc hsc
    split
    · rfl
    · by_cases hi : scope = i
      · subst hi
        rw [List.getElem?_set_self (lt_of_getElem? hsc), hsc]
        rfl
      · rw [List.getElem?_set_ne hi]

theorem read_post_shape (E : environment) (scope : Nat) (d : Option Nat) (s : state)
    (sc : definition) (hsc : s.cp.heap[scope]? = some sc)
    (hd : d = none ∨ ∃ dd, deref s.cp.heap d = .ok dd) :
    ∃ (where_ : Option Nat) (heap1 : List definition),
      read_post E scope d s = .ok (post_state E s d where_ heap1) ∧
      heap1.length = s.cp.heap.length ∧
      (∀ i : Nat, (heap1[i]?).map (fun d => d.members)
        = (s.cp.heap[i]?).map (fun d => d.members)) ∧
      (∀ i : Nat, (heap1[i]?).map (fun d => d.instantiations)
        = (s.cp.heap[i]?).map (fun d => d.instantiations)) := by
  rcases hd with hnone | ⟨dd, hdd⟩
  · subst hnone
    exact ⟨some scope, s.cp.heap, rfl, rfl, fun _ => rfl, fun _ => rfl⟩
  · cases d with
    | none => simp [deref] at hdd
    | some p =>
      simp only [read_post, hdd, deref_some hsc]
      by_cases hfn : dd.flags &&& DEF_FUNCTION ≠ 0
      · rw [if_pos hfn]
        by_cases hts : sc.flags &&& DEF_TEMPSCOPE ≠ 0
        · rw [if_pos hts]
          exact ⟨some scope, use_namespace s.cp.heap scope dd.parent, rfl,
            use_namespace_length _ _ _, use_namespace_members _ _ _,
            use_namespace_instantiations _ _ _⟩
        · rw [if_neg hts]
          exact ⟨dd.parent, s.cp.heap, rfl, rfl, fun _ => rfl, fun _ => rfl⟩
      · rw [if_neg hfn]
        exact ⟨some scope, s.cp.heap, rfl, rfl, fun _ => rfl, fun _ => rfl⟩

theorem handle_declarators_extra (E : environment) (scope inherited_flags fuel : Nat)
    (s s2 : state) (h : classify E scope fuel s = .ok (.extra s2)) :
    handle_declarators E scope inherited_flags (fuel + 1) s =
      extra_loop E scope (handle_declarators E scope inherited_flags fuel) fuel s2 := by
  simp only [handle_declarators, h]

theorem handle_declarators_ret (E : environment) (scope inherited_flags fuel : Nat)
    (s s1 : state) (c : Int) (h : classify E scope fuel s = .ok (.ret c s1)) :
    handle_declarators E scope inherited_flags (fuel + 1) s = .ok (c, s1) := by
  simp only [handle_declarators, h]

theorem classify_qualified (E : environment) (scope fuel : Nat) (s : state) (sc t : definition)
    (hname : s.tp.refs.name = "")
    (hsc : s.cp.heap[scope]? = some sc) (ht : deref s.cp.heap s.tp.def_ = .ok t)
    (hnot : ¬ (ctor_base scope sc t s.tp ∧ ctor_flags E s.tp ∧ ctor_refs s.tp))
    (htok : s.token.type = TT_DEFINITION ∨ s.token.type = TT_DECLARATOR) :
    classify E scope fuel s =
      match rescope E scope fuel s.token.def_ (advance s (some scope)) with
      | .error e => .error e
      | .ok (.ret c s1) => .ok (.ret c s1)
      | .ok (.at_def d s1) =>
        match read_post E scope d s1 with
        | .error e => .error e
        | .ok s2 => .ok (.extra s2) := by
  have hcolon : s.token.type ≠ TT_COLON := by
    rcases htok with h | h <;> rw [h] <;> decide
  rw [classify_not_ctor E scope fuel s sc t hname hsc ht hnot, if_neg hcolon, if_pos htok]

/-- C18, qualified-name resolution failures: with fatal errors on, while the
chain after a definition or declarator token is resolved (empty declared name,
valid scope and base type, no constructor), once the walk has passed the
segments of `segs`: if a `::` is met on a definition that is not
scope-bearing, or if the token read after a `::` is neither a definition nor a
declarator token, or if a template segment is followed by `<` and the
instantiation under the key read reports failure, the call returns 1 and `res`
is what it was before the call; and whenever the resolver gives up, for
whatever reason, the call returns its code, which is 1, with `res` untouched. -/
theorem qualified_name_failures (E : environment) (hfatal : E.FATAL_ERRORS = true)
    (scope inherited_flags fuel : Nat) (s : state) (sc t : definition) (segs : List token_t)
    (hname : s.tp.refs.name = "")
    (hsc : s.cp.heap[scope]? = some sc)
    (ht : deref s.cp.heap s.tp.def_ = .ok t)
    (hnot : ¬ (ctor_base scope sc t s.tp ∧ ctor_flags E s.tp ∧ ctor_refs s.tp))
    (htok : s.token.type = TT_DEFINITION ∨ s.token.type = TT_DECLARATOR)
    (hwalk : walk_ok s.cp.heap segs s.token.def_ (advance s (some scope)).token
      (advance s (some scope)).cp.lex = true) :
    ((walk_state segs s.token.def_ (advance s (some scope))).token.type = TT_SCOPE →
      ∀ dd, deref s.cp.heap (walk_end segs s.token.def_ (advance s (some scope)).token
          (advance s (some scope)).cp.lex).1 = .ok dd →
        dd.flags &&& DEF_SCOPE = 0 →
        ∃ s', handle_declarators E scope inherited_flags (fuel + segs.length + 2) s
            = .ok (1, s') ∧ s'.res = s.res ∧ s'.cp.heap = s.cp.heap) ∧
    ((walk_state segs s.token.def_ (advance s (some scope))).token.type = TT_SCOPE →
      ∀ dd, deref s.cp.heap (walk_end segs s.token.def_ (advance s (some scope)).token
          (advance s (some scope)).cp.lex).1 = .ok dd →
        dd.flags &&& DEF_SCOPE ≠ 0 →
        (advance (walk_state segs s.token.def_ (advance s (some scope)))
          (walk_end segs s.token.def_ (advance s (some scope)).token
            (advance s (some scope)).cp.lex).1).token.type ≠ TT_DEFINITION →
        (advance (walk_state segs s.token.def_ (advance s (some scope)))
          (walk_end segs s.token.def_ (advance s (some scope)).token
            (advance s (some scope)).cp.lex).1).token.type ≠ TT_DECLARATOR →
        ∃ s', handle_declarators E scope inherited_flags (fuel + segs.length + 2) s
            = .ok (1, s') ∧ s'.res = s.res ∧ s'.cp.heap = s.cp.heap) ∧
    ((walk_state segs s.token.def_ (advance s (some scope))).token.type = TT_LESSTHAN →
      ∀ temp dd heap1,
        (walk_end segs s.token.def_ (advance s (some scope)).token
          (advance s (some scope)).cp.lex).1 = some temp →
        s.cp.heap[temp]? = some dd → dd.flags &&& DEF_TEMPLATE ≠ 0 →
        template_args_code E scope temp dd.params.length
          (walk_state segs s.token.def_ (advance s (some scope))) = 0 →
        instantiate E (template_args_state E scope temp dd.params.length
            (walk_state segs s.token.def_ (advance s (some scope)))).cp.heap temp
          (template_args_key E scope temp dd.params.length
            (walk_state segs s.token.def_ (advance s (some scope)))) = .ok (none, heap1) →
        ∃ s', handle_declarators E scope inherited_flags (fuel + segs.length + 2) s
            = .ok (1, s') ∧ s'.res = s.res) ∧
    (∀ c s', rescope E scope (fuel + segs.length + 1) s.token.def_ (advance s (some scope))
        = .ok (.ret c s') →
      handle_declarators E scope inherited_flags (fuel + segs.length + 2) s = .ok (c, s')
        ∧ c = 1 ∧ s'.res = s.res) := by
  have hcl := classify_qualified E scope (fuel + segs.length + 1) s sc t hname hsc ht hnot htok
  have hw : rescope E scope (fuel + segs.length + 1) s.token.def_ (advance s (some scope)) =
      rescope E scope (fuel + 1) (walk_end segs s.token.def_ (advance s (some scope)).token
        (advance s (some scope)).cp.lex).1
        (walk_state segs s.token.def_ (advance s (some scope))) := by
    rw [show fuel + segs.length + 1 = (fuel + 1) + segs.length by omega]
    exact rescope_walk E scope (fuel + 1) segs s.token.def_ (advance s (some scope)) hwalk
  have hfail : ∀ s', rescope E scope (fuel + 1) (walk_end segs s.token.def_
        (advance s (some scope)).token (advance s (some scope)).cp.lex).1
        (walk_state segs s.token.def_ (advance s (some scope))) = .ok (.ret 1 s') →
      handle_declarators E scope inherited_flags (fuel + segs.length + 2) s = .ok (1, s') := by
    intro s' h
    rw [hw, h] at hcl
    exact handle_declarators_ret E scope inherited_flags _ s s' 1 hcl
  refine ⟨?_, ?_, ?_, ?_⟩
  · intro hscope dd hdd hflag
    exact ⟨_, hfail _ (rescope_not_scope E hfatal scope fuel _ _ dd hscope hdd hflag), rfl, rfl⟩
  · intro hscope dd hdd hflag h1 h2
    refine ⟨_, hfail _ (rescope_bad_segment E hfatal scope fuel _ _ dd hscope hdd hflag
      ⟨h1, h2⟩), ?_, ?_⟩
    · split <;> rfl
    · split <;> rfl
  · intro hlt temp dd heap1 hdn hdd hflag hcode hinst
    have hr := rescope_template E scope fuel temp
      (walk_state segs s.token.def_ (advance s (some scope))) dd hlt hdd hflag
    rw [if_neg (fun h => h hcode), hinst] at hr
    simp only at hr
    obtain ⟨x, hx, hxres⟩ : ∃ x, rescope E scope (fuel + 1) (some temp)
        (walk_state segs s.token.def_ (advance s (some scope))) = .ok (.ret 1 x)
        ∧ x.res = s.res := ⟨_, hr, rfl⟩
    rw [← hdn] at hx
    exact ⟨x, hfail x hx, hxres⟩
  · intro c s' h
    obtain ⟨hc, hres, _, _⟩ := rescope_ret E scope _ _ _ c s' h
    rw [h] at hcl
    exact ⟨handle_declarators_ret E scope inherited_flags _ s s' c hcl, hc, hres⟩

/-- Witness of C18: `x :: y` where `x` is the value `int x`, not a scope. -/
theorem qualified_name_failures_witness :
    ∃ s', handle_declarators (sample_env sample_no_type sample_three) 0 0 2
        (sample_state_at (sample_store [("x", some 7)] [sample_value])
          [scope_token, identifier "y", semicolon] (definition_token "x" 7)
          ⟨some 2, ⟨"", []⟩, 0⟩) = .ok (1, s') ∧
      s'.res = none ∧ s'.cp.heap = sample_store [("x", some 7)] [sample_value] :=
  (qualified_name_failures (sample_env sample_no_type sample_three) rfl 0 0 0
    (sample_state_at (sample_store [("x", some 7)] [sample_value])
      [scope_token, identifier "y", semicolon] (definition_token "x" 7)
      ⟨some 2, ⟨"", []⟩, 0⟩)
    { sample_definition "Foo" (DEF_CLASS ||| DEF_SCOPE ||| DEF_TYPENAME) with
      members := [("x", some 7)] }
    (sample_definition "int" DEF_TYPENAME) [] rfl rfl rfl
    (fun h => absurd h.2.2 (by rintro ⟨ps, hps⟩; cases hps))
    (Or.inl rfl) rfl).1 rfl sample_value rfl (by decide)

theorem walk_end_last :
    ∀ (segs : List token_t) (d : Option Nat) (tok : token_t) (lex : List token_t)
      (last : token_t), segs.getLast? = some last →
      (walk_end segs d tok lex).1 = last.def_ := by
  intro segs
  induction segs with
  | nil => intro d tok lex last h; simp at h
  | cons seg rest ih =>
    intro d tok lex last h
    cases rest with
    | nil =>
      simp only [List.getLast?_singleton, Option.some.injEq] at h
      subst h
      rfl
    | cons seg2 rest2 =>
      rw [List.getLast?_cons_cons] at h
      exact ih seg.def_ (lexer_next (lexer_next lex).2).1 (lexer_next (lexer_next lex).2).2
        last h

/-- C19, qualified-id rebind: with an empty declared name, a valid scope and
base type, a declarator that is not a constructor and a current definition or
declarator token d0 followed by a chain `:: s1 :: ... :: sn` in which every
`::` is met on a scope-bearing definition, the classifier does not enter the
binding block: it walks the chain, hands the parser object to the
post-referencer reader with a store that has the objects and the scope maps it
had (nothing created, no map entry added or replaced), sets `res` to the
definition of the last segment (d0 for an empty chain), and the call goes on
in the trailing-token loop. -/
theorem qualified_id_rebind (E : environment) (scope inherited_flags fuel : Nat)
    (s : state) (sc t : definition) (segs : List token_t)
    (hname : s.tp.refs.name = "")
    (hsc : s.cp.heap[scope]? = some sc)
    (ht : deref s.cp.heap s.tp.def_ = .ok t)
    (hnot : ¬ (ctor_base scope sc t s.tp ∧ ctor_flags E s.tp ∧ ctor_refs s.tp))
    (htok : s.token.type = TT_DEFINITION ∨ s.token.type = TT_DECLARATOR)
    (hwalk : walk_ok s.cp.heap segs s.token.def_ (advance s (some scope)).token
      (advance s (some scope)).cp.lex = true)
    (hend1 : (walk_state segs s.token.def_ (advance s (some scope))).token.type ≠ TT_SCOPE)
    (hend2 : (walk_state segs s.token.def_ (advance s (some scope))).token.type ≠ TT_LESSTHAN)
    (hd : (walk_end segs s.token.def_ (advance s (some scope)).token
        (advance s (some scope)).cp.lex).1 = none
      ∨ ∃ dd, deref s.cp.heap (walk_end segs s.token.def_ (advance s (some scope)).token
        (advance s (some scope)).cp.lex).1 = .ok dd) :
    ∃ (where_ : Option Nat) (heap1 : List definition) (s2 : state),
      s2 = post_state E (walk_state segs s.token.def_ (advance s (some scope)))
        (walk_end segs s.token.def_ (advance s (some scope)).token
          (advance s (some scope)).cp.lex).1 where_ heap1 ∧
      classify E scope (fuel + segs.length + 1) s = .ok (.extra s2) ∧
      s2.res = (walk_end segs s.token.def_ (advance s (some scope)).token
        (advance s (some scope)).cp.lex).1 ∧
      (segs = [] → s2.res = s.token.def_) ∧
      (∀ last, segs.getLast? = some last → s2.res = last.def_) ∧
      heap1.length = s.cp.heap.length ∧
      (∀ i : Nat, (heap1[i]?).map (fun d => d.members)
        = (s.cp.heap[i]?).map (fun d => d.members)) ∧
      handle_declarators E scope inherited_flags (fuel + segs.length + 2) s =
        extra_loop E scope (handle_declarators E scope inherited_flags (fuel + segs.length + 1))
          (fuel + segs.length + 1) s2 := by
  have hsc2 : (walk_state segs s.token.def_ (advance s (some scope))).cp.heap[scope]?
      = some sc := hsc
  obtain ⟨where_, heap1, hpost, hlen, hmem, _⟩ :=
    read_post_shape E scope _ (walk_state segs s.token.def_ (advance s (some scope))) sc hsc2 hd
  have hcl : classify E scope (fuel + segs.length + 1) s = .ok (.extra
      (post_state E (walk_state segs s.token.def_ (advance s (some scope)))
        (walk_end segs s.token.def_ (advance s (some scope)).token
          (advance s (some scope)).cp.lex).1 where_ heap1)) := by
    rw [classify_qualified E scope _ s sc t hname hsc ht hnot htok,
      show fuel + segs.length + 1 = (fuel + 1) + segs.length by omega,
      rescope_walk E scope (fuel + 1) segs s.token.def_ (advance s (some scope)) hwalk,
      rescope_end E scope fuel _ _ hend1 hend2]
    simp only [hpost]
  refine ⟨where_, heap1, _, rfl, hcl, rfl, ?_, ?_, hlen, hmem, ?_⟩
  · intro h
    subst h
    rfl
  · intro last hlast
    exact walk_end_last segs _ _ _ last hlast
  · exact handle_declarators_extra E scope inherited_flags _ s _ hcl

/-- Witness of C19: `int Bar::baz;` in class `Foo`, `Bar` being the class at
address 7 and `baz` its member at address 8. -/
theorem qualified_id_rebind_witness :
    ∃ s2, classify (sample_env sample_no_type sample_three) 0 2
        (sample_state_at (sample_store [("Bar", some 7)] [sample_class, sample_member])
          [scope_token, definition_token "baz" 8, semicolon] (definition_token "Bar" 7)
          ⟨some 2, ⟨"", []⟩, 0⟩) = .ok (.extra s2) ∧ s2.res = some 8 := by
  obtain ⟨_, _, s2, _, h1, _, _, h2, _⟩ :=
    qualified_id_rebind (sample_env sample_no_type sample_three) 0 0 0
      (sample_state_at (sample_store [("Bar", some 7)] [sample_class, sample_member])
        [scope_token, definition_token "baz" 8, semicolon] (definition_token "Bar" 7)
        ⟨some 2, ⟨"", []⟩, 0⟩)
      { sample_definition "Foo" (DEF_CLASS ||| DEF_SCOPE ||| DEF_TYPENAME) with
        members := [("Bar", some 7)] }
      (sample_definition "int" DEF_TYPENAME) [definition_token "baz" 8] rfl rfl rfl
      (fun h => absurd h.2.2 (by rintro ⟨ps, hps⟩; cases hps))
      (Or.inl rfl) rfl (by decide) (by decide) (Or.inr ⟨sample_member, rfl⟩)
  exact ⟨s2, h1, h2 (definition_token "baz" 8) rfl⟩

/-! ## Template segments -/

theorem instantiate_cached (E : environment) (heap : List definition) (temp p : Nat)
    (k : arg_key) (tc : definition) (htemp : heap[temp]? = some tc)
    (hfind : find k tc.instantiations = some p) :
    instantiate E heap temp k = .ok (some p, heap) := by
  simp only [instantiate, deref_some htemp, hfind]

theorem instantiate_new (E : environment) (heap : List definition) (temp : Nat)
    (k : arg_key) (tc inst : definition) (htemp : heap[temp]? = some tc)
    (hfind : find k tc.instantiations = none) (hinst : E.instance_of tc k = some inst) :
    instantiate E heap temp k = .ok (some heap.length,
      heap.set temp { tc with instantiations := tc.instantiations ++ [(k, heap.length)] }
        ++ [inst]) := by
  simp only [instantiate, deref_some htemp, hfind, hinst]

theorem instantiate_outcome (E : environment) (heap heap1 : List definition) (temp p : Nat)
    (k : arg_key) (h : instantiate E heap temp k = .ok (some p, heap1)) :
    (∃ tc1, heap1[temp]? = some tc1 ∧ find k tc1.instantiations = some p) ∧
    (∀ tc q, heap[temp]? = some tc → find k tc.instantiations = some q →
      p = q ∧ heap1 = heap) ∧
    (∀ tc, heap[temp]? = some tc → find k tc.instantiations = none →
      p = heap.length ∧ heap1.length = heap.length + 1) := by
  unfold instantiate at h
  cases hd : heap[temp]? with
  | none => simp [deref, hd] at h
  | some tc =>
    rw [deref_some hd] at h
    simp only at h
    cases hf : find k tc.instantiations with
    | some q =>
      rw [hf] at h
      simp only [Except.ok.injEq, Prod.mk.injEq, Option.some.injEq] at h
      obtain ⟨hq, hh⟩ := h
      subst hq
      subst hh
      refine ⟨⟨tc, hd, hf⟩, ?_, ?_⟩
      · intro tc2 q2 h2 hf2
        cases h2
        rw [hf] at hf2
        cases hf2
        exact ⟨rfl, rfl⟩
      · intro tc2 h2 hf2
        cases h2
        rw [hf] at hf2
        cases hf2
    | none =>
      rw [hf] at h
      simp only at h
      cases hi : E.instance_of tc k with
      | none =>
        rw [hi] at h
        simp at h
      | some inst =>
        rw [hi] at h
        simp only [Except.ok.injEq, Prod.mk.injEq, Option.some.injEq] at h
        obtain ⟨hq, hh⟩ := h
        subst hq
        subst hh
        have hlt := lt_of_getElem? hd
        refine ⟨⟨{ tc with instantiations := tc.instantiations ++ [(k, heap.length)] },
          ?_, ?_⟩, ?_, ?_⟩
        · rw [List.getElem?_append_left (by rw [List.length_set]; exact hlt),
            List.getElem?_set_self hlt]
        · show find k (tc.instantiations ++ [(k, heap.length)]) = some heap.length
          rw [find_append_single k k heap.length tc.instantiations hf, if_pos rfl]
        · intro tc2 q2 h2 hf2
          cases h2
          rw [hf] at hf2
          cases hf2
        · intro tc2 h2 _
          exact ⟨rfl, by simp⟩

theorem classify_instantiated (E : environment) (scope fuel : Nat) (s : state)
    (sc t tdef : definition) (temp p : Nat) (heap1 : List definition) (segs : List token_t)
    (hname : s.tp.refs.name = "")
    (hsc : s.cp.heap[scope]? = some sc) (ht : deref s.cp.heap s.tp.def_ = .ok t)
    (hnot : ¬ (ctor_base scope sc t s.tp ∧ ctor_flags E s.tp ∧ ctor_refs s.tp))
    (htok : s.token.type = TT_DEFINITION ∨ s.token.type = TT_DECLARATOR)
    (hdef : s.token.def_ = some temp)
    (hlt : (advance s (some scope)).token.type = TT_LESSTHAN)
    (htemp : s.cp.heap[temp]? = some tdef) (hflag : tdef.flags &&& DEF_TEMPLATE ≠ 0)
    (hcode : template_args_code E scope temp tdef.params.length (advance s (some scope)) = 0)
    (hinst : instantiate E
        (template_args_state E scope temp tdef.params.length (advance s (some scope))).cp.heap
        temp (template_args_key E scope temp tdef.params.length (advance s (some scope)))
      = .ok (some p, heap1))
    (hwalk : walk_ok heap1 segs (some p)
      (instantiated_state E scope temp tdef.params.length (advance s (some scope)) heap1).token
      (instantiated_state E scope temp tdef.params.length (advance s (some scope)) heap1).cp.lex
      = true)
    (hend1 : (walk_state segs (some p) (instantiated_state E scope temp tdef.params.length
      (advance s (some scope)) heap1)).token.type ≠ TT_SCOPE)
    (hend2 : (walk_state segs (some p) (instantiated_state E scope temp tdef.params.length
      (advance s (some scope)) heap1)).token.type ≠ TT_LESSTHAN) :
    classify E scope (fuel + segs.length + 2) s =
      match read_post E scope
        (walk_end segs (some p)
          (instantiated_state E scope temp tdef.params.length
            (advance s (some scope)) heap1).token
          (instantiated_state E scope temp tdef.params.length
            (advance s (some scope)) heap1).cp.lex).1
        (walk_state segs (some p) (instantiated_state E scope temp tdef.params.length
          (advance s (some scope)) heap1)) with
      | .error e => .error e
      | .ok s2 => .ok (.extra s2) := by
  have htemp2 : (advance s (some scope)).cp.heap[temp]? = some tdef := htemp
  have hr : rescope E scope (fuel + segs.length + 1 + 1) (some temp) (advance s (some scope)) =
      rescope E scope (fuel + segs.length + 1) (some p)
        (instantiated_state E scope temp tdef.params.length (advance s (some scope)) heap1) := by
    have h := rescope_template E scope (fuel + segs.length + 1) temp (advance s (some scope))
      tdef hlt htemp2 hflag
    rw [if_neg (fun h => h hcode), hinst] at h
    exact h
  have hw := rescope_walk E scope (fuel + 1) segs (some p)
    (instantiated_state E scope temp tdef.params.length (advance s (some scope)) heap1) hwalk
  rw [classify_qualified E scope _ s sc t hname hsc ht hnot htok, hdef, hr,
    show fuel + segs.length + 1 = (fuel + 1) + segs.length by omega, hw,
    rescope_end E scope fuel _ _ hend1 hend2]

/-- C20, template instantiation idempotence: when the chain being resolved
starts with a template followed by `<`, the argument list is read without
error and the instantiation under the key read gives the object p, the call
walks the rest of the chain from p, sets `res` to the definition the walk ends
on (p itself for an empty rest) and goes on in the trailing-token loop; in the
store it hands on the template caches the key as p, so that instantiating
again under that key, there or in any store whose cache holds the key, gives p
again and leaves the store as it is; and a resolution that finds the key
cached as q uses q and creates no object. -/
theorem instantiation_idempotent (E : environment) (scope inherited_flags fuel : Nat)
    (s : state) (sc sc1 t tdef : definition) (temp p : Nat) (heap1 : List definition)
    (segs : List token_t)
    (hname : s.tp.refs.name = "")
    (hsc : s.cp.heap[scope]? = some sc) (ht : deref s.cp.heap s.tp.def_ = .ok t)
    (hnot : ¬ (ctor_base scope sc t s.tp ∧ ctor_flags E s.tp ∧ ctor_refs s.tp))
    (htok : s.token.type = TT_DEFINITION ∨ s.token.type = TT_DECLARATOR)
    (hdef : s.token.def_ = some temp)
    (hlt : (advance s (some scope)).token.type = TT_LESSTHAN)
    (htemp : s.cp.heap[temp]? = some tdef) (hflag : tdef.flags &&& DEF_TEMPLATE ≠ 0)
    (hcode : template_args_code E scope temp tdef.params.length (advance s (some scope)) = 0)
    (hinst : instantiate E
        (template_args_state E scope temp tdef.params.length (advance s (some scope))).cp.heap
        temp (template_args_key E scope temp tdef.params.length (advance s (some scope)))
      = .ok (some p, heap1))
    (hsc1 : heap1[scope]? = some sc1)
    (hwalk : walk_ok heap1 segs (some p)
      (instantiated_state E scope temp tdef.params.length (advance s (some scope)) heap1).token
      (instantiated_state E scope temp tdef.params.length (advance s (some scope)) heap1).cp.lex
      = true)
    (hend1 : (walk_state segs (some p) (instantiated_state E scope temp tdef.params.length
      (advance s (some scope)) heap1)).token.type ≠ TT_SCOPE)
    (hend2 : (walk_state segs (some p) (instantiated_state E scope temp tdef.params.length
      (advance s (some scope)) heap1)).token.type ≠ TT_LESSTHAN)
    (hd : ∃ dd, deref heap1 (walk_end segs (some p)
      (instantiated_state E scope temp tdef.params.length (advance s (some scope)) heap1).token
      (instantiated_state E scope temp tdef.params.length (advance s (some scope)) heap1).cp.lex).1
      = .ok dd) :
    ∃ (where_ : Option Nat) (heap2 : List definition) (s2 : state),
      s2 = post_state E
        (walk_state segs (some p) (instantiated_state E scope temp tdef.params.length
          (advance s (some scope)) heap1))
        (walk_end segs (some p)
          (instantiated_state E scope temp tdef.params.length
            (advance s (some scope)) heap1).token
          (instantiated_state E scope temp tdef.params.length
            (advance s (some scope)) heap1).cp.lex).1 where_ heap2 ∧
      classify E scope (fuel + segs.length + 2) s = .ok (.extra s2) ∧
      handle_declarators E scope inherited_flags (fuel + segs.length + 3) s =
        extra_loop E scope (handle_declarators E scope inherited_flags (fuel + segs.length + 2))
          (fuel + segs.length + 2) s2 ∧
      s2.res = (walk_end segs (some p)
          (instantiated_state E scope temp tdef.params.length
            (advance s (some scope)) heap1).token
          (instantiated_state E scope temp tdef.params.length
            (advance s (some scope)) heap1).cp.lex).1 ∧
      (segs = [] → s2.res = some p) ∧
      (∀ last, segs.getLast? = some last → s2.res = last.def_) ∧
      heap2.length = heap1.length ∧
      (∃ tc, heap2[temp]? = some tc ∧
        find (template_args_key E scope temp tdef.params.length (advance s (some scope)))
          tc.instantiations = some p) ∧
      instantiate E heap2 temp
        (template_args_key E scope temp tdef.params.length (advance s (some scope)))
        = .ok (some p, heap2) ∧
      (∀ heap tc, heap[temp]? = some tc →
        find (template_args_key E scope temp tdef.params.length (advance s (some scope)))
          tc.instantiations = some p →
        instantiate E heap temp
          (template_args_key E scope temp tdef.params.length (advance s (some scope)))
          = .ok (some p, heap)) ∧
      (∀ tc q,
        (template_args_state E scope temp tdef.params.length
          (advance s (some scope))).cp.heap[temp]? = some tc →
        find (template_args_key E scope temp tdef.params.length (advance s (some scope)))
          tc.instantiations = some q →
        p = q ∧
        heap1 = (template_args_state E scope temp tdef.params.length
          (advance s (some scope))).cp.heap ∧
        heap2.length = (template_args_state E scope temp tdef.params.length
          (advance s (some scope))).cp.heap.length) := by
  have hsc2 : (walk_state segs (some p) (instantiated_state E scope temp tdef.params.length
      (advance s (some scope)) heap1)).cp.heap[scope]? = some sc1 := hsc1
  have hd2 : (walk_end segs (some p)
      (instantiated_state E scope temp tdef.params.length (advance s (some scope)) heap1).token
      (instantiated_state E scope temp tdef.params.length
        (advance s (some scope)) heap1).cp.lex).1 = none
      ∨ ∃ dd, deref (walk_state segs (some p) (instantiated_state E scope temp
        tdef.params.length (advance s (some scope)) heap1)).cp.heap (walk_end segs (some p)
      (instantiated_state E scope temp tdef.params.length (advance s (some scope)) heap1).token
      (instantiated_state E scope temp tdef.params.length
        (advance s (some scope)) heap1).cp.lex).1 = .ok dd := Or.inr hd
  obtain ⟨where_, heap2, hpost, hlen, _, hcache⟩ := read_post_shape E scope _ _ sc1 hsc2 hd2
  have hlen1 : heap2.length = heap1.length := hlen
  have hcache1 : ∀ i : Nat, (heap2[i]?).map (fun d => d.instantiations)
      = (heap1[i]?).map (fun d => d.instantiations) := hcache
  have hcl := classify_instantiated E scope fuel s sc t tdef temp p heap1 segs hname hsc ht
    hnot htok hdef hlt htemp hflag hcode hinst hwalk hend1 hend2
  rw [hpost] at hcl
  obtain ⟨⟨tc1, htc1, hfind1⟩, hold, _⟩ := instantiate_outcome E _ heap1 temp p _ hinst
  have htc2 : ∃ tc, heap2[temp]? = some tc ∧
      find (template_args_key E scope temp tdef.params.length (advance s (some scope)))
        tc.instantiations = some p := by
    have h := hcache1 temp
    rw [htc1] at h
    cases h2 : heap2[temp]? with
    | none => rw [h2] at h; cases h
    | some tc2 =>
      rw [h2] at h
      simp only [Option.map_some', Option.some.injEq] at h
      exact ⟨tc2, rfl, by rw [h]; exact hfind1⟩
  refine ⟨where_, heap2, _, rfl, hcl, handle_declarators_extra E scope inherited_flags _ s _ hcl,
    rfl, ?_, ?_, hlen1, htc2, ?_, ?_, ?_⟩
  · intro h
    subst h
    rfl
  · intro last hlast
    exact walk_end_last segs _ _ _ last hlast
  · obtain ⟨tc, h1, h2⟩ := htc2
    exact instantiate_cached E heap2 temp p _ tc h1 h2
  · intro heap tc h1 h2
    exact instantiate_cached E heap temp p _ tc h1 h2
  · intro tc q h1 h2
    obtain ⟨hp, hh⟩ := hold tc q h1 h2
    exact ⟨hp, hh, by rw [hlen1, hh]⟩

/-- Witness of C20: `Container<int>::Iterator;` resolved twice in class `Foo`.
The first resolution creates the instance at address 9 and caches it; the
second one, in the store the first one left, finds it there, ends on the same
`Iterator` and leaves the store as it is. -/
theorem instantiation_idempotent_witness :
    (match classify sample_template_env 0 3 sample_template_first with
      | .ok (.extra s2) => decide (s2.res = some 8 ∧ s2.cp.heap = sample_template_store)
      | _ => false) = true ∧
    ∃ s3, classify sample_template_env 0 3 sample_template_again = .ok (.extra s3) ∧
      s3.res = some 8 ∧ s3.cp.heap = sample_template_store := by
  obtain ⟨_, _, s3, _, hcl, _, _, _, hres, _⟩ :=
    instantiation_idempotent sample_template_env 0 0 0 sample_template_again
      { sample_definition "Foo" (DEF_CLASS ||| DEF_SCOPE ||| DEF_TYPENAME) with
        members := [("Container", some 7)] }
      { sample_definition "Foo" (DEF_CLASS ||| DEF_SCOPE ||| DEF_TYPENAME) with
        members := [("Container", some 7)] }
      (sample_definition "int" DEF_TYPENAME)
      { sample_template with instantiations := [([⟨some 2, 0⟩], 9)] }
      7 9 sample_template_store [definition_token "Iterator" 8] rfl rfl rfl
      (fun h => absurd h.2.2 (by rintro ⟨ps, hps⟩; cases hps))
      (Or.inl rfl) rfl rfl rfl (by decide) rfl rfl rfl rfl (by decide) (by decide)
      ⟨sample_iterator, rfl⟩
  have hheap : (match classify sample_template_env 0 3 sample_template_again with
      | .ok (.extra x) => decide (x.cp.heap = sample_template_store)
      | _ => false) = true := by rfl
  have hcl3 : classify sample_template_env 0 3 sample_template_again = .ok (.extra s3) := hcl
  rw [hcl3] at hheap
  exact ⟨by rfl, s3, hcl3, hres (definition_token "Iterator" 8) rfl, of_decide_eq_true hheap⟩

/-! ## Constructor initializers -/

theorem skip_state_advance (s : state) (scope : Option Nat) (stop : token_t)
    (rest : List token_t) :
    skip_state (advance s scope) stop rest = skip_state s stop rest := rfl

theorem skip_initializers_run (E : environment) (scope fuel : Nat) (stop : token_t)
    (rest : List token_t) :
    ∀ (pre : List token_t) (s : state),
      (∀ x ∈ pre, x.type ≠ TT_SEMICOLON ∧ x.type ≠ TT_LEFTBRACE) →
      s.cp.lex = pre ++ stop :: rest →
      skip_initializers E scope (fuel + pre.length + 1) s =
        if stop.type = TT_SEMICOLON then
          .ok (.ret (FATAL_TERNARY E 1 0)
            (report_error (skip_state s stop rest)
              "Expected constructor body here after initializers."))
        else if stop.type ≠ TT_LEFTBRACE then
          skip_initializers E scope fuel (skip_state s stop rest)
        else .ok (.bind (skip_state s stop rest)) := by
  intro pre
  induction pre with
  | nil =>
    intro s _ hlex
    have hadv : advance s (some scope) = skip_state s stop rest := by
      simp only [advance, read_next_token, skip_state, hlex, List.nil_append, lexer_next]
    show skip_initializers E scope (fuel + 1) s = _
    conv_lhs => unfold skip_initializers
    simp only [hadv]
    rfl
  | cons t pre ih =>
    intro s hpre hlex
    have ht := hpre t (List.mem_cons_self _ _)
    have hadv : (advance s (some scope)).token = t := by
      simp only [advance, read_next_token, hlex, List.cons_append, lexer_next]
    have hlex1 : (advance s (some scope)).cp.lex = pre ++ stop :: rest := by
      simp only [advance, read_next_token, hlex, List.cons_append, lexer_next]
    have h := ih (advance s (some scope)) (fun x hx => hpre x (List.mem_cons_of_mem _ hx)) hlex1
    rw [skip_state_advance] at h
    rw [← h, show fuel + (t :: pre).length + 1 = (fuel + pre.length + 1) + 1 from rfl]
    conv_lhs => unfold skip_initializers
    simp only [hadv, ht.1, ht.2, if_false, ne_eq, not_false_eq_true, if_true]

theorem skip_initializers_endless (E : environment) (scope : Nat) :
    ∀ (fuel : Nat) (s : state),
      (∀ x ∈ s.cp.lex, x.type ≠ TT_SEMICOLON ∧ x.type ≠ TT_LEFTBRACE) →
      skip_initializers E scope fuel s = .error .out_of_fuel := by
  intro fuel
  induction fuel with
  | zero =>
    intro s _
    rfl
  | succ fuel ih =>
    intro s h
    have h1 : (advance s (some scope)).token.type ≠ TT_SEMICOLON
        ∧ (advance s (some scope)).token.type ≠ TT_LEFTBRACE := by
      cases hl : s.cp.lex with
      | nil =>
        simp only [advance, read_next_token, hl, lexer_next]
        exact ⟨by decide, by decide⟩
      | cons t r =>
        simp only [advance, read_next_token, hl, lexer_next]
        exact h t (by rw [hl]; exact List.mem_cons_self _ _)
    have h2 : ∀ x ∈ (advance s (some scope)).cp.lex,
        x.type ≠ TT_SEMICOLON ∧ x.type ≠ TT_LEFTBRACE := by
      cases hl : s.cp.lex with
      | nil =>
        simp only [advance, read_next_token, hl, lexer_next]
        intro x hx
        cases hx
      | cons t r =>
        simp only [advance, read_next_token, hl, lexer_next]
        intro x hx
        exact h x (by rw [hl]; exact List.mem_cons_of_mem _ hx)
    conv_lhs => unfold skip_initializers
    simp only [h1.1, h1.2, if_false, ne_eq, not_false_eq_true, if_true]
    exact ih _ h2

/-- C21, constructor initializer list: with fatal errors on, when a declarator
classified as a constructor stands on a `:` and the cursor holds the tokens of
`pre`, none of them a `;` or a `{`, then the token `stop` and then `rest`: the
skip reads the tokens of `pre` and `stop` one by one.  If `stop` is a `;` the
call reports that the constructor body is missing and returns 1, the store and
`res` being what they were.  If `stop` is a `{` the skip ends with the token
`{` and the cursor on what follows it, and the binding block is entered with
the name `<construct>`; where the scope has no `<construct>` yet the call
returns 0, still on the `{`, with a new function definition entered under
`<construct>` and `res` pointing to it. -/
theorem constructor_initializer_list (E : environment) (hfatal : E.FATAL_ERRORS = true)
    (scope inherited_flags fuel : Nat) (s : state) (sc t : definition)
    (pre : List token_t) (stop : token_t) (rest : List token_t)
    (hname : s.tp.refs.name = "")
    (hsc : s.cp.heap[scope]? = some sc) (ht : deref s.cp.heap s.tp.def_ = .ok t)
    (hcond : ctor_base scope sc t s.tp ∧ ctor_flags E s.tp ∧ ctor_refs s.tp)
    (htok : s.token.type = TT_COLON)
    (hlex : s.cp.lex = pre ++ stop :: rest)
    (hpre : ∀ x ∈ pre, x.type ≠ TT_SEMICOLON ∧ x.type ≠ TT_LEFTBRACE) :
    (stop.type = TT_SEMICOLON →
      ∃ s', handle_declarators E scope inherited_flags (fuel + pre.length + 2) s = .ok (1, s') ∧
        s' = report_error (skip_state (named_construct s) stop rest)
          "Expected constructor body here after initializers." ∧
        s'.cp.herr = s.cp.herr
          ++ [⟨severity.error, "Expected constructor body here after initializers."⟩] ∧
        s'.cp.heap = s.cp.heap ∧ s'.res = s.res) ∧
    (stop.type = TT_LEFTBRACE →
      classify E scope (fuel + pre.length + 1) s
        = .ok (.bind (skip_state (named_construct s) stop rest)) ∧
      (skip_state (named_construct s) stop rest).token = stop ∧
      (skip_state (named_construct s) stop rest).cp.lex = rest ∧
      (skip_state (named_construct s) stop rest).tp.refs.name = "<construct>" ∧
      handle_declarators E scope inherited_flags (fuel + pre.length + 2) s =
        (match bind_declarator E scope inherited_flags
            (skip_state (named_construct s) stop rest) with
          | .error e => .error e
          | .ok (.ret c s2) => .ok (c, s2)
          | .ok (.extra s2) =>
            extra_loop E scope
              (handle_declarators E scope inherited_flags (fuel + pre.length + 1))
              (fuel + pre.length + 1) s2) ∧
      (find "<construct>" sc.members = none →
        ∃ s' sc', handle_declarators E scope inherited_flags (fuel + pre.length + 2) s
            = .ok (0, s') ∧
          s'.token = stop ∧ s'.cp.lex = rest ∧
          s'.res = some s.cp.heap.length ∧
          s'.cp.heap[s.cp.heap.length]? = some
            (definition_function.new s.cp.heap.length "<construct>" scope s.tp.def_
              { s.tp.refs with name := "<construct>" } s.tp.flags
              (DEF_TYPED ||| inherited_flags)) ∧
          s'.cp.heap[scope]? = some sc' ∧
          find "<construct>" sc'.members = some (some s.cp.heap.length))) := by
  have hrun := skip_initializers_run E scope fuel stop rest pre (named_construct s) hpre hlex
  have hcl : classify E scope (fuel + pre.length + 1) s =
      skip_initializers E scope (fuel + pre.length + 1) (named_construct s) := by
    rw [classify_ctor E scope _ s sc t hname hsc ht hcond, if_pos htok]
  constructor
  · intro hstop
    rw [if_pos hstop] at hrun
    have hft : FATAL_TERNARY E 1 0 = 1 := by simp [FATAL_TERNARY, hfatal]
    rw [hft] at hrun
    rw [hrun] at hcl
    exact ⟨_, handle_declarators_ret E scope inherited_flags _ s _ 1 hcl, rfl, rfl, rfl, rfl⟩
  · intro hstop
    have hns : stop.type ≠ TT_SEMICOLON := by rw [hstop]; decide
    rw [if_neg hns, if_neg (fun h => h hstop)] at hrun
    rw [hrun] at hcl
    refine ⟨hcl, rfl, rfl, rfl,
      handle_declarators_bind E scope inherited_flags _ s _ hcl, ?_⟩
    intro hfresh
    obtain ⟨ps, hps⟩ := hcond.2.2
    have hfn : function_candidate (skip_state (named_construct s) stop rest).tp := by
      simp only [skip_state, named_construct, hps]
      exact ⟨rfl, rfl⟩
    have hsc1 : (skip_state (named_construct s) stop rest).cp.heap[scope]? = some sc := hsc
    have hfresh1 : find (skip_state (named_construct s) stop rest).tp.refs.name sc.members
        = none := hfresh
    have hend : ends_loop (bound_fresh scope inherited_flags sc
        (skip_state (named_construct s) stop rest)).token.type = true := by
      show ends_loop stop.type = true
      rw [hstop]
      rfl
    rw [show fuel + pre.length + 2 = (fuel + pre.length + 1) + 1 from rfl,
      handle_declarators_bind E scope inherited_flags (fuel + pre.length + 1) s _ hcl,
      bind_declarator_fresh E scope inherited_flags sc _ hsc1 hfresh1]
    have hlt : scope < s.cp.heap.length := lt_of_getElem? hsc
    refine ⟨bound_fresh scope inherited_flags sc (skip_state (named_construct s) stop rest),
      { sc with members := sc.members ++ [("<construct>", some s.cp.heap.length)] },
      extra_loop_ends E scope _ (fuel + pre.length) _ hend, rfl, rfl, rfl, ?_, ?_, ?_⟩
    · simp only [bound_fresh]
      rw [List.getElem?_append_right (by simp [skip_state, named_construct]),
        new_definition_function _ _ _ _ hfn]
      simp [skip_state, named_construct]
    · simp only [bound_fresh]
      show (s.cp.heap.set scope _ ++ _)[scope]? = _
      rw [List.getElem?_append_left (by simpa using hlt), List.getElem?_set_self hlt]
      rfl
    · show find "<construct>" (sc.members ++ [("<construct>", some s.cp.heap.length)]) = _
      rw [find_append_single _ _ _ _ hfresh, if_pos rfl]

/-- Witness of C21: in class `Foo`, `Foo() : x(1) {` ends on the `{` with the
constructor entered under `<construct>`, and `Foo() : x(1);` returns 1. -/
theorem constructor_initializer_list_witness :
    (∃ s', handle_declarators (sample_env sample_no_type sample_three) 0 0 6
        (sample_ctor_state (sample_initializer ++ [left_brace])) = .ok (0, s') ∧
      s'.token = left_brace ∧ s'.res = some 7 ∧
      (s'.cp.heap[0]?).map (fun d => find "<construct>" d.members) = some (some (some 7))) ∧
    (∃ s', handle_declarators (sample_env sample_no_type sample_three) 0 0 6
        (sample_ctor_state (sample_initializer ++ [semicolon])) = .ok (1, s') ∧
      s'.res = none ∧ s'.cp.heap = sample_heap) := by
  constructor
  · obtain ⟨s', sc', h, htok, _, hres, _, hsc, hfind⟩ :=
      ((constructor_initializer_list (sample_env sample_no_type sample_three) rfl 0 0 0
        (sample_ctor_state (sample_initializer ++ [left_brace]))
        (sample_definition "Foo" (DEF_CLASS ||| DEF_SCOPE ||| DEF_TYPENAME))
        (sample_definition "Foo" (DEF_CLASS ||| DEF_SCOPE ||| DEF_TYPENAME))
        sample_initializer left_brace [] rfl rfl rfl
        ⟨Or.inl rfl, (and_not_eq_zero_iff _ _).mp rfl, ⟨_, rfl⟩⟩ rfl rfl
        (by decide)).2 rfl).2.2.2.2.2 rfl
    exact ⟨s', h, htok, hres, by rw [hsc]; exact congrArg some hfind⟩
  · obtain ⟨s', h, _, _, hheap, hres⟩ :=
      (constructor_initializer_list (sample_env sample_no_type sample_three) rfl 0 0 0
        (sample_ctor_state (sample_initializer ++ [semicolon]))
        (sample_definition "Foo" (DEF_CLASS ||| DEF_SCOPE ||| DEF_TYPENAME))
        (sample_definition "Foo" (DEF_CLASS ||| DEF_SCOPE ||| DEF_TYPENAME))
        sample_initializer semicolon [] rfl rfl rfl
        ⟨Or.inl rfl, (and_not_eq_zero_iff _ _).mp rfl, ⟨_, rfl⟩⟩ rfl rfl
        (by decide)).1 rfl
    exact ⟨s', h, hres, hheap⟩

/-! ## Termination -/

/-- C22, termination on finite input, on the failing input: `Foo() : x(1)`
in class `Foo`, after which the stream ends (the cursor answers with the
end-of-code token from then on).  Whatever the fuel, the call does not return:
the initializer skip reads end-of-code again and again, which is neither `;`
nor `{`.  The trailing-token loop, for its part, does stop on end-of-code:
`int x` followed by the end of the stream returns 0. -/
theorem initializer_skip_never_ends :
    (lexer_next []).1.type = TT_ENDOFCODE ∧ (lexer_next []).2 = [] ∧
    (∀ fuel, handle_declarators (sample_env sample_no_type sample_three) 0 0 fuel
      (sample_ctor_state sample_initializer) = .error .out_of_fuel) ∧
    (∃ s', handle_declarators (sample_env sample_no_type sample_three) 0 0 2
      (sample_state [] ⟨TT_ENDOFCODE, "", none⟩ ⟨some 2, ⟨"x", []⟩, 0⟩) = .ok (0, s')) := by
  refine ⟨rfl, rfl, ?_, ⟨_, rfl⟩⟩
  intro fuel
  cases fuel with
  | zero => rfl
  | succ fuel =>
    have hcl : classify (sample_env sample_no_type sample_three) 0 fuel
        (sample_ctor_state sample_initializer) = .error .out_of_fuel := by
      rw [classify_ctor (sample_env sample_no_type sample_three) 0 fuel
        (sample_ctor_state sample_initializer)
        (sample_definition "Foo" (DEF_CLASS ||| DEF_SCOPE ||| DEF_TYPENAME))
        (sample_definition "Foo" (DEF_CLASS ||| DEF_SCOPE ||| DEF_TYPENAME)) rfl rfl rfl
        ⟨Or.inl rfl, (and_not_eq_zero_iff _ _).mp rfl, ⟨_, rfl⟩⟩,
        if_pos (show (sample_ctor_state sample_initializer).token.type = TT_COLON from rfl)]
      exact skip_initializers_endless _ 0 fuel _ (by decide)
    simp only [handle_declarators, hcl]

end jdip

namespace enigma_user

/-! ## The duration requested by `sleep` -/

theorem wrap_int_small (x : Int) (h0 : 0 ≤ x) (h1 : x < 2147483648) : wrap_int x = x := by
  unfold wrap_int
  omega

theorem to_unsigned_small (x : Int) (h0 : 0 ≤ x) (h1 : x < 2147483648) : to_unsigned x = x := by
  unfold to_unsigned
  omega

theorem sleep_calls (ms : Int) (h0 : 0 ≤ ms) (h1 : ms < 2147483648) :
    sleep ms = (if ms > 1000 then [libc_call.sleep (ms / 1000)] else [])
      ++ [libc_call.usleep (ms % 1000 * 1000)] := by
  have hd : Int.tdiv ms 1000 = ms / 1000 := Int.tdiv_eq_ediv h0 (by decide)
  have hm : Int.tmod ms 1000 = ms % 1000 := Int.tmod_eq_emod h0 (by decide)
  unfold sleep
  rw [hd, hm, wrap_int_small _ (by omega) (by omega), to_unsigned_small _ (by omega) (by omega),
    to_unsigned_small _ (by omega) (by omega)]

theorem sleep_requested (ms : Int) (h0 : 0 ≤ ms) (h1 : ms < 2147483648) :
    requested_ms (sleep ms) = if ms = 1000 then 0 else ms := by
  rw [sleep_calls ms h0 h1]
  by_cases h : ms > 1000
  · rw [if_pos h, if_neg (by omega)]
    simp only [List.singleton_append, requested_ms, requested_seconds, requested_useconds]
    omega
  · rw [if_neg h]
    simp only [List.nil_append, requested_ms, requested_seconds, requested_useconds]
    split <;> omega

/-- C23, duration requested by `sleep`, on the failing input: `sleep(1000)`
does not call `::sleep` and calls `usleep(0)`, so it requests 0 milliseconds,
not 1000; one millisecond less or more the request is the duration asked. -/
theorem sleep_one_second_requests_nothing :
    sleep 1000 = [libc_call.usleep 0] ∧
    requested_ms (sleep 1000) = 0 ∧
    requested_ms (sleep 1000) ≠ 1000 ∧
    requested_ms (sleep 999) = 999 ∧
    requested_ms (sleep 1001) = 1001 := by
  decide

end enigma_user
